import Mathlib

/-!
# Location tracking: cumulative-distance ledger and range-distance query

A shallow embedding of `location-history-management/handler.go`,
`location-management/handler.go`, `internal/model/model.go`, `internal/db/db.go` and
the patterns of `internal/validation/validation.go`.

Conventions of the embedding:

* `float64` is an arbitrary linearly ordered field `F` (exact arithmetic; rounding,
  NaN and infinities are outside the model).  `ℚ` gives executable instances, `ℝ`
  with `realMath` gives the trigonometric functions of Go's `math` package.
* `int64` timestamps are `Int`; Go's `int` page arithmetic wraps at 64 bits.
* The `db.DBClient` interface is a record of state-passing functions over the state
  `σ` of whatever sits behind the client; `mongoClient` is the client of
  `internal/db/db.go` over an in-memory document collection.
* A Go `error` is a `String`; a run-time panic is `Fault.panic`.
* Calls that run at the same time are interleaved at their calls to the store, each of
  which is atomic (`stepCall`, `runSchedule`).
* Logging is omitted.
-/

set_option linter.unusedSectionVars false

namespace LocationTracking

/-! ## Data model (`internal/model/model.go`) -/

/-- The Go struct `model.Location`; a nil and an empty coordinate slice are both `[]`. -/
structure Location (F : Type) where
  Type_ : String
  Coordinates : List F
deriving DecidableEq

/-- The Go struct `model.LocationInfo`. -/
structure LocationInfo (F : Type) where
  Username : String
  Location : Location F
  Distance : F
  Timestamp : Int
deriving DecidableEq

/-- A Go `error` value. -/
abbrev Error := String

/-- How a call can end without its result: a returned `error` or a run-time panic. -/
inductive Fault where
  | error (err : Error)
  | panic (msg : String)
deriving DecidableEq

/-! ## Library values the handlers use -/

/-- An instant of Go's `time.Time`, as nanoseconds since the Unix epoch. -/
structure Time where
  unixNano : Int
deriving DecidableEq

/-- The method `Time.UnixMilli`: milliseconds since the epoch, rounded down. -/
def Time.UnixMilli (t : Time) : Int := t.unixNano / 1000000

/-- The method `Time.Before`. -/
def Time.Before (t u : Time) : Bool := decide (t.unixNano < u.unixNano)

/-- The functions and the constant of Go's `math` package that `calculateDistance` calls. -/
structure Math (F : Type) where
  Pi : F
  Sin : F → F
  Cos : F → F
  Sqrt : F → F
  Pow : F → F → F
  Atan2 : F → F → F

/-- Wrap-around of Go's 64-bit `int`. -/
def wrapInt64 (x : Int) : Int := (x + 2 ^ 63) % 2 ^ 64 - 2 ^ 63

/-! ## Queries sent to the store (the `bson.M` maps of the handlers) -/

/-- The value under the `"timestamp"` key of a filter: a plain value, or one of the
operators `"$gte"` and `"$lte"` with its operand. -/
inductive TimestampCond where
  | eq (date : Int)
  | gte (date : Int)
  | lte (date : Int)
deriving DecidableEq

/-- A filter document: the `"username"` key and, when present, the `"timestamp"` key. -/
structure Filter where
  username : String
  timestamp : Option TimestampCond
deriving DecidableEq

/-- A projection document: which of `"location"` and `"distance"` are included. -/
structure Projection where
  location : Bool
  distance : Bool
deriving DecidableEq

/-- A sort document `{"timestamp": order}`. -/
structure SortSpec where
  timestamp : Int
deriving DecidableEq

/-- A `*mongo.Cursor`, reduced to what `cursor.All` gives: a decoding error or the
documents, a field that the projection left out decoding to its zero value. -/
structure Cursor (F : Type) where
  All : Except Error (List (LocationInfo F))

/-- The interface `db.DBClient` (the methods the handlers call), over the state `σ` of
the store behind it. -/
structure DBClient (σ F : Type) where
  SaveOrReplaceDocument : String → LocationInfo F → Filter → σ → Option Error × σ
  Find : String → Filter → Option Projection → Option SortSpec → Int → Int → σ →
    Except Error (Cursor F) × σ

section Store

variable {F : Type} [LinearOrderedField F]

/-! ## The document store behind `MongoClient` -/

/-- A database: the documents of each collection, in insertion order. -/
abbrev Database (F : Type) := String → List (LocationInfo F)

/-- The options of a find command, as built through `options.Find()`. -/
structure FindOptions where
  sort : Option SortSpec
  projection : Option Projection
  limit : Int
  skip : Int

/-- Whether a document matches a filter. -/
def Filter.matches (f : Filter) (d : LocationInfo F) : Bool :=
  decide (d.Username = f.username) &&
    match f.timestamp with
    | none => true
    | some (TimestampCond.eq date) => decide (d.Timestamp = date)
    | some (TimestampCond.gte date) => decide (date ≤ d.Timestamp)
    | some (TimestampCond.lte date) => decide (d.Timestamp ≤ date)

/-- A projection applied to a document: fields left out decode to their zero value. -/
def Projection.apply (p : Projection) (d : LocationInfo F) : LocationInfo F :=
  { Username := ""
    Location := if p.location then d.Location else { Type_ := "", Coordinates := [] }
    Distance := if p.distance then d.Distance else 0
    Timestamp := 0 }

/-- Documents in ascending timestamp order (stable). -/
def sortAscending (docs : List (LocationInfo F)) : List (LocationInfo F) :=
  docs.insertionSort (fun a b => a.Timestamp ≤ b.Timestamp)

/-- Documents in descending timestamp order (stable). -/
def sortDescending (docs : List (LocationInfo F)) : List (LocationInfo F) :=
  docs.insertionSort (fun a b => b.Timestamp ≤ a.Timestamp)

/-- The driver's `Collection.Find`: filter, sort, skip, limit, project. -/
def Collection.Find (docs : List (LocationInfo F)) (filter : Filter) (options : FindOptions) :
    Except Error (Cursor F) :=
  if options.skip < 0 then .error "skip value must be non-negative"
  else
    let matched := docs.filter (fun d => filter.matches d)
    let sorted : Except Error (List (LocationInfo F)) :=
      match options.sort with
      | none => .ok matched
      | some sort =>
        if sort.timestamp = 1 then .ok (sortAscending matched)
        else if sort.timestamp = -1 then .ok (sortDescending matched)
        else .error "bad sort specification"
    match sorted with
    | .error err => .error err
    | .ok sorted =>
      let skipped := sorted.drop options.skip.toNat
      let page := if options.limit = 0 then skipped else skipped.take options.limit.natAbs
      let projected :=
        match options.projection with
        | none => page
        | some projection => page.map projection.apply
      .ok { All := .ok projected }

/-- The first document matching the filter replaced by `document`; `none` if none matches. -/
def replaceFirst (filter : Filter) (document : LocationInfo F) :
    List (LocationInfo F) → Option (List (LocationInfo F))
  | [] => none
  | d :: rest =>
    if filter.matches d then some (document :: rest)
    else (replaceFirst filter document rest).map (fun rest => d :: rest)

/-- The driver's `Collection.ReplaceOne`, with or without `upsert`. -/
def Collection.ReplaceOne (docs : List (LocationInfo F)) (filter : Filter)
    (document : LocationInfo F) (upsert : Bool) : List (LocationInfo F) :=
  match replaceFirst filter document docs with
  | some docs => docs
  | none => if upsert then docs ++ [document] else docs

/-! ## `internal/db/db.go` -/

/-- The method `MongoClient.SaveOrReplaceDocument`. -/
def MongoClient.SaveOrReplaceDocument (collectionName : String) (document : LocationInfo F)
    (filter : Filter) (db : Database F) : Option Error × Database F :=
  let upsert := true
  (none, fun name =>
    if name = collectionName then Collection.ReplaceOne (db name) filter document upsert
    else db name)

/-- The method `MongoClient.Find`. -/
def MongoClient.Find (collectionName : String) (filter : Filter) (projection : Option Projection)
    (sort : Option SortSpec) (pageNumber pageSize : Int) (db : Database F) :
    Except Error (Cursor F) × Database F :=
  let options : FindOptions := { sort := none, projection := none, limit := 0, skip := 0 }
  let options := if sort.isSome then { options with sort := sort } else options
  let options := if projection.isSome then { options with projection := projection } else options
  let options := { options with
    limit := pageSize
    skip := wrapInt64 (pageSize * wrapInt64 (pageNumber - 1)) }
  (Collection.Find (db collectionName) filter options, db)

/-- The `MongoClient` as a `db.DBClient`. -/
def mongoClient : DBClient (Database F) F :=
  { SaveOrReplaceDocument := MongoClient.SaveOrReplaceDocument
    Find := MongoClient.Find }

end Store

/-! ## `location-history-management/proto` -/

/-- Modelled from the spec: the generated message type `pb.Location` is not among the
sources; it has the two fields the handler and the tests use, a type tag and the
coordinates (longitude, latitude). -/
structure pb.Location (F : Type) where
  Type_ : String
  Coordinates : List F
deriving DecidableEq

/-- Modelled from the spec: the generated message type `pb.LocationInfo` is not among the
sources; it has the fields the handler reads (`Username`, `Location`, taken as present,
and `Timestamp`) and, as the location point of the data model, a `Distance`, which the
handler never reads. -/
structure pb.LocationInfo (F : Type) where
  Username : String
  Location : pb.Location F
  Distance : F
  Timestamp : Int
deriving DecidableEq

/-! ## `location-history-management/handler.go` -/

section Handler

variable {σ F : Type} [LinearOrderedField F]

/-- The constant `locationHistoryCollection` of `main.go`. -/
def locationHistoryCollection : String := "location-history"

/-- The function `getDate`: the total distance of the first page-of-one document for the
user at or after (`"after"`) or at or before (`"before"`) the date. -/
def getDate (mongoClient : DBClient σ F) (username : String) (date : Int) (dateType : String)
    (st : σ) : Except Error F × σ :=
  let comparator := if dateType = "before" then TimestampCond.lte else TimestampCond.gte
  let filter : Filter := { username := username, timestamp := some (comparator date) }
  let projection : Projection := { location := false, distance := true }
  let sorter : Int := if dateType = "before" then -1 else 1
  let sort : SortSpec := { timestamp := sorter }
  match mongoClient.Find locationHistoryCollection filter (some projection) (some sort) 1 1 st with
  | (.error err, st) => (.error err, st)
  | (.ok cursor, st) =>
    match cursor.All with
    | .error err => (.error err, st)
    | .ok locations =>
      match locations with
      | [] => (.ok 0, st)
      | location :: _ => (.ok location.Distance, st)

/-- The function `getFirstAfter`. -/
def getFirstAfter (mongoClient : DBClient σ F) (username : String) (date : Int) (st : σ) :
    Except Error F × σ :=
  getDate mongoClient username date "after" st

/-- The function `getLastBefore`. -/
def getLastBefore (mongoClient : DBClient σ F) (username : String) (date : Int) (st : σ) :
    Except Error F × σ :=
  getDate mongoClient username date "before" st

/-- The function `calculateUserDistance`; `timeParse` is `time.Parse` with the layout
`time.RFC3339`. -/
def calculateUserDistance (timeParse : String → Except Error Time) (mongoClient : DBClient σ F)
    (username start end_ : String) (st : σ) : Except Error F × σ :=
  match timeParse start with
  | .error err => (.error err, st)
  | .ok parsedStart =>
    match getFirstAfter mongoClient username parsedStart.UnixMilli st with
    | (.error err, st) => (.error err, st)
    | (.ok initialDistance, st) =>
      match timeParse end_ with
      | .error err => (.error err, st)
      | .ok parsedEnd =>
        if parsedEnd.Before parsedStart then (.ok 0, st)
        else
          match getLastBefore mongoClient username parsedEnd.UnixMilli st with
          | (.error err, st) => (.error err, st)
          | (.ok finalDistance, st) => (.ok (finalDistance - initialDistance), st)

/-- The function `findCurrent`: location and total distance of the user's document with
the greatest timestamp, and whether there is one. -/
def findCurrent (mongoClient : DBClient σ F) (username : String) (st : σ) :
    Except Error (Location F × F × Bool) × σ :=
  let filter : Filter := { username := username, timestamp := none }
  let projection : Projection := { location := true, distance := true }
  let sort : SortSpec := { timestamp := -1 }
  match mongoClient.Find locationHistoryCollection filter (some projection) (some sort) 1 1 st with
  | (.error err, st) => (.error err, st)
  | (.ok cursor, st) =>
    match cursor.All with
    | .error err => (.error err, st)
    | .ok locations =>
      match locations with
      | [] => (.ok ({ Type_ := "", Coordinates := [] }, 0, false), st)
      | location :: _ => (.ok (location.Location, location.Distance, true), st)

/-- The function `degreesToRadians`. -/
def degreesToRadians (math : Math F) (d : F) : F :=
  d * math.Pi / 180

/-- The function `calculateDistance`; `none` is the index-out-of-range panic. -/
def calculateDistance (math : Math F) (start end_ : Location F) (currentDistance : F) :
    Option F :=
  if start.Coordinates.length = 0 then some 0
  else
    match start.Coordinates[0]?, start.Coordinates[1]?, end_.Coordinates[0]?,
      end_.Coordinates[1]? with
    | some start0, some start1, some end0, some end1 =>
      let startLongitude := degreesToRadians math start0
      let startLatitude := degreesToRadians math start1
      let endLongitude := degreesToRadians math end0
      let endLatitude := degreesToRadians math end1
      let diffLon := endLongitude - startLongitude
      let diffLat := endLatitude - startLatitude
      let a := math.Pow (math.Sin (diffLat / 2)) 2 +
        math.Cos startLatitude * math.Cos endLatitude * math.Pow (math.Sin (diffLon / 2)) 2
      some (6371 * 2 * math.Atan2 (math.Sqrt a) (math.Sqrt (1 - a)) + currentDistance)
    | _, _, _, _ => none

/-- The method `UpdateUserLocation` of the gRPC server. -/
def UpdateUserLocation (math : Math F) (mongoClient : DBClient σ F) (in_ : pb.LocationInfo F)
    (st : σ) : Except Fault Unit × σ :=
  let locationInfo : LocationInfo F :=
    { Username := in_.Username
      Location := { Type_ := in_.Location.Type_, Coordinates := in_.Location.Coordinates }
      Distance := 0
      Timestamp := in_.Timestamp }
  match findCurrent mongoClient locationInfo.Username st with
  | (.error err, st) => (.error (Fault.error err), st)
  | (.ok (currentLocation, currentDistance, ok), st) =>
    let distance : Option F :=
      if !ok then some 0
      else calculateDistance math currentLocation locationInfo.Location currentDistance
    match distance with
    | none => (.error (Fault.panic "index out of range"), st)
    | some distance =>
      let locationInfo := { locationInfo with Distance := distance }
      let filter : Filter :=
        { username := locationInfo.Username
          timestamp := some (TimestampCond.eq locationInfo.Timestamp) }
      match mongoClient.SaveOrReplaceDocument locationHistoryCollection locationInfo filter st with
      | (some err, st) => (.error (Fault.error err), st)
      | (none, st) => (.ok (), st)

end Handler

/-! ## `location-management/handler.go` -/

/-- The interface `proto.GRPCClient` (the method the handler calls), over the state `τ`
of the service behind it. -/
structure GRPCClient (τ F : Type) where
  UpdateUserLocation : pb.LocationInfo F → τ → Option Error × τ

/-- The anonymous request struct of `updateUserLocationHandler`. -/
structure UpdateLocationRequest where
  Username : String
  Coordinates : String
deriving DecidableEq

/-- The anonymous request struct of `searchUserLocationHandler`. -/
structure SearchLocationRequest (F : Type) where
  Coordinates : String
  Distance : F
  PageNumber : Int
  PageSize : Int

section LocationManagement

variable {σ τ F : Type} [LinearOrderedField F]

/-- The constant `locationCollection` of `main.go`. -/
def locationCollection : String := "location"

/-- The constant `http.StatusBadRequest`. -/
def StatusBadRequest : Nat := 400

/-- The constant `http.StatusInternalServerError`. -/
def StatusInternalServerError : Nat := 500

/-- The constant `http.StatusOK`, the status of a response whose handler sets none. -/
def StatusOK : Nat := 200

/-- The call `strings.ReplaceAll(s, " ", "")`: the string without its spaces. -/
def removeSpaces (s : String) : String :=
  String.mk (s.data.filter (fun c => c ≠ ' '))

/-- The pieces of a character sequence between its commas. -/
def splitAtCommas : List Char → List (List Char)
  | [] => [[]]
  | c :: rest =>
    if c = ',' then [] :: splitAtCommas rest
    else
      match splitAtCommas rest with
      | [] => [[c]]
      | piece :: pieces => (c :: piece) :: pieces

/-- The call `strings.Split(s, ",")`. -/
def splitCommas (s : String) : List String :=
  (splitAtCommas s.data).map String.mk

/-- The loop of `extractCoordinates`: every piece parsed and appended, stopping at the
first piece that does not parse. -/
def parseCoordinates (parseFloat : String → Except Error F) :
    List String → List F → Except Error (List F)
  | [], coordinates => .ok coordinates
  | coordinateString :: rest, coordinates =>
    match parseFloat coordinateString with
    | .error err => .error err
    | .ok coordinate => parseCoordinates parseFloat rest (coordinates ++ [coordinate])

/-- The function `extractCoordinates`; `parseFloat` is `strconv.ParseFloat` with bit size
64. -/
def extractCoordinates (parseFloat : String → Except Error F) (coordinatesString : String) :
    Except Fault (List F) :=
  match parseCoordinates parseFloat (splitCommas (removeSpaces coordinatesString)) [] with
  | .error err => .error (Fault.error err)
  | .ok coordinates =>
    let coordinates : List F := coordinates.reverse
    match coordinates[0]? with
    | none => .error (Fault.panic "index out of range")
    | some coordinates0 =>
      if coordinates0 < (-180 : F) ∨ coordinates0 > (180 : F) then
        .error (Fault.error "longitude out of range")
      else
        match coordinates[1]? with
        | none => .error (Fault.panic "index out of range")
        | some coordinates1 =>
          if coordinates1 < (-90 : F) ∨ coordinates1 > (90 : F) then
            .error (Fault.error "latitude out of range")
          else .ok coordinates

/-- The function `updateUserLocation`; `now` is `time.Now().UnixMilli()`. -/
def updateUserLocation (now : Int) (mongoClient : DBClient σ F)
    (locationHistoryManagementClient : GRPCClient τ F) (username : String)
    (coordinates : List F) (st : σ) (remote : τ) : Option Error × σ × τ :=
  let locationInfo : LocationInfo F :=
    { Username := username
      Location := { Type_ := "Point", Coordinates := coordinates }
      Distance := 0
      Timestamp := now }
  let filter : Filter := { username := locationInfo.Username, timestamp := none }
  match mongoClient.SaveOrReplaceDocument locationCollection locationInfo filter st with
  | (some err, st) => (some err, st, remote)
  | (none, st) =>
    match locationHistoryManagementClient.UpdateUserLocation
        { Username := locationInfo.Username
          Location :=
            { Type_ := locationInfo.Location.Type_
              Coordinates := locationInfo.Location.Coordinates }
          Distance := 0
          Timestamp := locationInfo.Timestamp } remote with
    | (some err, remote) => (some err, st, remote)
    | (none, remote) => (none, st, remote)

/-- The function `updateUserLocationHandler`, giving the status of the response, or the
panic that ends the request; `jsonDecode` is the decoding of the request body and
`validateStruct` is `validate.Struct`. -/
def updateUserLocationHandler (jsonDecode : String → Except Error UpdateLocationRequest)
    (validateStruct : UpdateLocationRequest → Option Error)
    (parseFloat : String → Except Error F) (now : Int) (mongoClient : DBClient σ F)
    (locationHistoryManagementClient : GRPCClient τ F) (body : String) (st : σ) (remote : τ) :
    Except Fault Nat × σ × τ :=
  match jsonDecode body with
  | .error _ => (.ok StatusBadRequest, st, remote)
  | .ok data =>
    match validateStruct data with
    | some _ => (.ok StatusBadRequest, st, remote)
    | none =>
      match extractCoordinates parseFloat data.Coordinates with
      | .error (Fault.panic msg) => (.error (Fault.panic msg), st, remote)
      | .error (Fault.error _) => (.ok StatusInternalServerError, st, remote)
      | .ok coordinates =>
        match updateUserLocation now mongoClient locationHistoryManagementClient data.Username
            coordinates st remote with
        | (some _, st, remote) => (.ok StatusInternalServerError, st, remote)
        | (none, st, remote) => (.ok StatusOK, st, remote)

/-- The function `searchUserLocationHandler`, giving the status of the response and the
usernames sent, or the panic that ends the request; `searchUserLocation` is the function
of that name, `jsonDecode` the decoding of the request body, `validateStruct` is
`validate.Struct` and `jsonEncode` the encoding of the response. -/
def searchUserLocationHandler (jsonDecode : String → Except Error (SearchLocationRequest F))
    (validateStruct : SearchLocationRequest F → Option Error)
    (parseFloat : String → Except Error F)
    (searchUserLocation : List F → F → Int → Int → σ → Except Error (List String) × σ)
    (jsonEncode : List String → Option Error) (body : String) (st : σ) :
    Except Fault Nat × Option (List String) × σ :=
  match jsonDecode body with
  | .error _ => (.ok StatusBadRequest, none, st)
  | .ok data =>
    match validateStruct data with
    | some _ => (.ok StatusBadRequest, none, st)
    | none =>
      match extractCoordinates parseFloat data.Coordinates with
      | .error (Fault.panic msg) => (.error (Fault.panic msg), none, st)
      | .error (Fault.error _) => (.ok StatusBadRequest, none, st)
      | .ok coordinates =>
        match searchUserLocation coordinates data.Distance data.PageNumber data.PageSize st with
        | (.error _, st) => (.ok StatusInternalServerError, none, st)
        | (.ok usernames, st) =>
          match jsonEncode usernames with
          | some _ => (.ok StatusInternalServerError, none, st)
          | none => (.ok StatusOK, some usernames, st)

end LocationManagement

/-! ## `location-management/handler.go`: the search -/

/-- The filter document of `findNear`: the `"location"` key with the operator `"$near"`,
its `"$geometry"` and its `"$maxDistance"`. -/
structure NearFilter (F : Type) where
  geometry : Location F
  maxDistance : F

/-- The projection document of `findNear`, with the `"username"` key. -/
structure UsernameProjection where
  username : Int
deriving DecidableEq

/-- The sort document of `findNear`, with the `"username"` key. -/
structure UsernameSort where
  username : Int
deriving DecidableEq

/-- The method `Find` of the interface `db.DBClient` at the documents `findNear` passes
to it, over the state `σ` of the store behind it. -/
structure NearClient (σ F : Type) where
  Find : String → NearFilter F → Option UsernameProjection → Option UsernameSort → Int → Int →
    σ → Except Error (Cursor F) × σ

section Search

variable {σ F : Type} [LinearOrderedField F]

/-- The function `findNear`. The result is Go's pair of a slice and an error: the slice
is `none` when it is nil, the error is `none` when it is nil. The documents of the cursor
decode to the struct `rawUsernames` holds, which keeps their `Username`. -/
def findNear (mongoClient : NearClient σ F) (target : Location F) (distance : F)
    (pageNumber pageSize : Int) (st : σ) : (Option (List String) × Option Error) × σ :=
  let filter : NearFilter F := { geometry := target, maxDistance := distance }
  let projection : UsernameProjection := { username := 1 }
  let sort : UsernameSort := { username := 1 }
  match mongoClient.Find locationCollection filter (some projection) (some sort) pageNumber
      pageSize st with
  | (.error err, st) => ((none, some err), st)
  | (.ok cursor, st) =>
    match cursor.All with
    | .error err => ((none, some err), st)
    | .ok rawUsernames =>
      let usernames : List String :=
        rawUsernames.foldl (fun usernames rawUsername => usernames ++ [rawUsername.Username]) []
      ((some usernames, none), st)

/-- The function `searchUserLocation`, with the result as in `findNear`. -/
def searchUserLocation (mongoClient : NearClient σ F) (coordinates : List F) (distance : F)
    (pageNumber pageSize : Int) (st : σ) : (Option (List String) × Option Error) × σ :=
  let target : Location F := { Type_ := "Point", Coordinates := coordinates }
  match findNear mongoClient target distance pageNumber pageSize st with
  | ((_, some err), st) => ((none, some err), st)
  | ((usernames, none), st) => ((usernames, none), st)

end Search

/-! ## `internal/validation/validation.go` -/

/-- The pattern registered under the tag `customdatetime`, four digits, `-`, two digits,
`-`, two digits, `T`, two digits, `:`, two digits, `:`, two digits, a sign, two digits, `:`
and two digits, as the test each position of the value has to pass; `\d` is an ASCII
digit. -/
def customdatetimePattern : List (Char → Bool) :=
  let digit : Char → Bool := Char.isDigit
  let dash : Char → Bool := fun c => c == '-'
  let colon : Char → Bool := fun c => c == ':'
  [digit, digit, digit, digit, dash, digit, digit, dash, digit, digit, fun c => c == 'T',
    digit, digit, colon, digit, digit, colon, digit, digit, fun c => c == '+' || c == '-',
    digit, digit, colon, digit, digit]

/-- The validation registered under the tag `customdatetime`: whether the whole value
matches the pattern. -/
def customdatetime (value : String) : Bool :=
  decide (value.data.length = customdatetimePattern.length) &&
    (List.zipWith (fun test c => test c) customdatetimePattern value.data).all id

/-! ## `location-history-management/handler.go`: the HTTP handler -/

/-- The anonymous request struct of `calculateUserDistanceHandler`. -/
structure DistanceRequest where
  Username : String
  Start : String
  End : String
deriving DecidableEq

section DistanceHandler

variable {σ F : Type} [LinearOrderedField F]

/-- The function `calculateUserDistanceHandler`, giving the status of the response and
the distance sent; `jsonDecode` is the decoding of the request body, `validateStruct` is
`validate.Struct` and `jsonEncode` the encoding of the response. -/
def calculateUserDistanceHandler (jsonDecode : String → Except Error DistanceRequest)
    (validateStruct : DistanceRequest → Option Error)
    (timeParse : String → Except Error Time) (mongoClient : DBClient σ F)
    (jsonEncode : F → Option Error) (body : String) (st : σ) : Nat × Option F × σ :=
  match jsonDecode body with
  | .error _ => (StatusBadRequest, none, st)
  | .ok data =>
    match validateStruct data with
    | some _ => (StatusBadRequest, none, st)
    | none =>
      match calculateUserDistance timeParse mongoClient data.Username data.Start data.End st with
      | (.error _, st) => (StatusInternalServerError, none, st)
      | (.ok distance, st) =>
        match jsonEncode distance with
        | some _ => (StatusInternalServerError, none, st)
        | none => (StatusOK, some distance, st)

end DistanceHandler

/-! ## Vocabulary of the specification -/

section Vocabulary

variable {F : Type} [LinearOrderedField F]

/-- The point `p` is a point of `username` with the smallest timestamp at or after `date`
(the `firstAfter` boundary point). -/
def IsFirstAfter (docs : List (LocationInfo F)) (username : String) (date : Int)
    (p : LocationInfo F) : Prop :=
  p ∈ docs ∧ p.Username = username ∧ date ≤ p.Timestamp ∧
    ∀ q ∈ docs, q.Username = username → date ≤ q.Timestamp → p.Timestamp ≤ q.Timestamp

/-- The point `p` is a point of `username` with the largest timestamp at or before `date`
(the `lastBefore` boundary point). -/
def IsLastBefore (docs : List (LocationInfo F)) (username : String) (date : Int)
    (p : LocationInfo F) : Prop :=
  p ∈ docs ∧ p.Username = username ∧ p.Timestamp ≤ date ∧
    ∀ q ∈ docs, q.Username = username → q.Timestamp ≤ date → q.Timestamp ≤ p.Timestamp

/-- The point `p` is a point of `username` with the greatest timestamp (the baseline of
the ledger). -/
def IsLatest (docs : List (LocationInfo F)) (username : String) (p : LocationInfo F) : Prop :=
  p ∈ docs ∧ p.Username = username ∧
    ∀ q ∈ docs, q.Username = username → q.Timestamp ≤ p.Timestamp

/-- A call of a method of `db.DBClient`, with its arguments. -/
inductive StoreCall (F : Type) where
  | Find (collectionName : String) (filter : Filter) (projection : Option Projection)
      (sort : Option SortSpec) (pageNumber pageSize : Int)
  | SaveOrReplaceDocument (collectionName : String) (document : LocationInfo F)
      (filter : Filter)

/-- A client that passes every call on to `client` and keeps the list of the calls made,
in order. -/
def recordCalls {σ : Type} (client : DBClient σ F) : DBClient (σ × List (StoreCall F)) F :=
  { SaveOrReplaceDocument := fun collectionName document filter st =>
      ((client.SaveOrReplaceDocument collectionName document filter st.1).1,
        (client.SaveOrReplaceDocument collectionName document filter st.1).2,
        st.2 ++ [StoreCall.SaveOrReplaceDocument collectionName document filter])
    Find := fun collectionName filter projection sort pageNumber pageSize st =>
      ((client.Find collectionName filter projection sort pageNumber pageSize st.1).1,
        (client.Find collectionName filter projection sort pageNumber pageSize st.1).2,
        st.2 ++ [StoreCall.Find collectionName filter projection sort pageNumber pageSize]) }

/-- The one lookup `UpdateUserLocation` makes: the first page of size one of the user's
points, latest first. -/
def currentQuery (username : String) : StoreCall F :=
  StoreCall.Find locationHistoryCollection { username := username, timestamp := none }
    (some { location := true, distance := true }) (some { timestamp := -1 }) 1 1

/-- The key under which `UpdateUserLocation` writes a report: its username and
timestamp. -/
def keyFilter (report : pb.LocationInfo F) : Filter :=
  { username := report.Username, timestamp := some (TimestampCond.eq report.Timestamp) }

/-- The outcome of `UpdateUserLocation` after its write: the error of the write, or
success. -/
def saveOutcome : Option Error → Except Fault Unit
  | some err => .error (Fault.error err)
  | none => .ok ()

/-- The distance `UpdateUserLocation` computes for a report from what `findCurrent` gave:
`0` without a prior point, else the result of `calculateDistance`; `none` is its panic. -/
def nextDistance (math : Math F) (current : Location F × F × Bool)
    (report : pb.LocationInfo F) : Option F :=
  if !current.2.2 then some 0
  else calculateDistance math current.1
    { Type_ := report.Location.Type_, Coordinates := report.Location.Coordinates } current.2.1

/-- The total distance `getDate` reads off a sorted page: that of its first document,
`0` for an empty page. -/
def headDistance (sorted : List (LocationInfo F)) : F :=
  match sorted.head? with
  | none => 0
  | some d => d.Distance

/-- What `findCurrent` reads off a sorted page: location and total distance of its first
document, and whether there is one. -/
def headCurrent (sorted : List (LocationInfo F)) : Location F × F × Bool :=
  match sorted.head? with
  | none => ({ Type_ := "", Coordinates := [] }, 0, false)
  | some d => (d.Location, d.Distance, true)

/-- The great-circle distance of the specification (section 4.1): the haversine formula
on a sphere of radius 6371 km between two (longitude, latitude) pairs in degrees, and `0`
when the first position has no coordinates. -/
def GreatCircleDistance (math : Math F) (a b : List F) : F :=
  match a, b with
  | lonA :: latA :: _, lonB :: latB :: _ =>
    let latRadA := latA * math.Pi / 180
    let latRadB := latB * math.Pi / 180
    let dLat := latRadB - latRadA
    let dLon := lonB * math.Pi / 180 - lonA * math.Pi / 180
    let h := math.Pow (math.Sin (dLat / 2)) 2 +
      math.Cos latRadA * math.Cos latRadB * math.Pow (math.Sin (dLon / 2)) 2
    6371 * 2 * math.Atan2 (math.Sqrt h) (math.Sqrt (1 - h))
  | _, _ => 0

/-- The sum of the great-circle distances between consecutive reports of a sequence. -/
def totalDistance (math : Math F) : List (pb.LocationInfo F) → F
  | [] => 0
  | [_] => 0
  | a :: b :: rest =>
    GreatCircleDistance math a.Location.Coordinates b.Location.Coordinates +
      totalDistance math (b :: rest)

/-- The record of a report, stored with a total distance. -/
def storedRecord (report : pb.LocationInfo F) (distance : F) : LocationInfo F :=
  { Username := report.Username
    Location := { Type_ := report.Location.Type_, Coordinates := report.Location.Coordinates }
    Distance := distance
    Timestamp := report.Timestamp }

/-- The records of the reports `later` that follow the reports `earlier`: each report is
stored with the sum of the great-circle distances between the consecutive reports up to
and including it. -/
def ledgerFrom (math : Math F) (earlier : List (pb.LocationInfo F)) :
    List (pb.LocationInfo F) → List (LocationInfo F)
  | [] => []
  | report :: later =>
    storedRecord report (totalDistance math (earlier ++ [report])) ::
      ledgerFrom math (earlier ++ [report]) later

/-- The ledger of a sequence of reports: the k-th report stored with the sum of the
great-circle distances between the consecutive reports 1 to k. -/
def ledger (math : Math F) (reports : List (pb.LocationInfo F)) : List (LocationInfo F) :=
  ledgerFrom math [] reports

/-- Reports submitted one at a time through `UpdateUserLocation`, stopping at the first
call that fails. -/
def submitAll {σ : Type} (math : Math F) (client : DBClient σ F) :
    List (pb.LocationInfo F) → σ → Except Fault Unit × σ
  | [], st => (.ok (), st)
  | report :: later, st =>
    match UpdateUserLocation math client report st with
    | (.error fault, st) => (.error fault, st)
    | (.ok (), st) => submitAll math client later st

/-- The database with further records at the end of the history collection. -/
def appendHistory (db : Database F) (records : List (LocationInfo F)) : Database F :=
  fun name => if name = locationHistoryCollection then db name ++ records else db name

/-- The baseline `findCurrent` gives after the reports `earlier` have been recorded in
order: none, or the last report with the total distance up to it. -/
def baseline (math : Math F) (earlier : List (pb.LocationInfo F)) : Location F × F × Bool :=
  match earlier.getLast? with
  | none => ({ Type_ := "", Coordinates := [] }, 0, false)
  | some l =>
    ({ Type_ := l.Location.Type_, Coordinates := l.Location.Coordinates },
      totalDistance math earlier, true)

/-- Whether a report lies in the window between two timestamps, ends included. -/
def inWindow (windowStart windowEnd : Int) (report : pb.LocationInfo F) : Bool :=
  decide (windowStart ≤ report.Timestamp) && decide (report.Timestamp ≤ windowEnd)

/-- Go's `math` package over the real numbers; `Atan2 y x` is the angle of the point
`(x, y)`. -/
noncomputable def realMath : Math ℝ :=
  { Pi := Real.pi
    Sin := Real.sin
    Cos := Real.cos
    Sqrt := Real.sqrt
    Pow := fun x y => x ^ y
    Atan2 := fun y x => Complex.arg { re := x, im := y } }

/-- What `time.Parse(time.RFC3339, value)` gives for the timestamps of the examples in
this file (seconds 0 to 5 of the epoch); other strings are not needed and are rejected. -/
def exampleTimeParse (value : String) : Except Error Time :=
  if value = "1970-01-01T00:00:00+00:00" then .ok { unixNano := 0 }
  else if value = "1970-01-01T00:00:01+00:00" then .ok { unixNano := 1000000000 }
  else if value = "1970-01-01T00:00:02+00:00" then .ok { unixNano := 2000000000 }
  else if value = "1970-01-01T00:00:03+00:00" then .ok { unixNano := 3000000000 }
  else if value = "1970-01-01T00:00:04+00:00" then .ok { unixNano := 4000000000 }
  else if value = "1970-01-01T00:00:05+00:00" then .ok { unixNano := 5000000000 }
  else .error "parsing time: cannot parse"

/-- A history of one user: points at seconds 1, 2 and 4 of the epoch, carrying the total
distances 0, 7 and 9. -/
def exampleHistory : List (LocationInfo ℚ) :=
  [{ Username := "user3", Location := { Type_ := "Point", Coordinates := [20, 44] },
     Distance := 0, Timestamp := 1000 },
   { Username := "user3", Location := { Type_ := "Point", Coordinates := [21, 43] },
     Distance := 7, Timestamp := 2000 },
   { Username := "user3", Location := { Type_ := "Point", Coordinates := [21, 44] },
     Distance := 9, Timestamp := 4000 }]

/-- A database whose history collection is `exampleHistory`. -/
def exampleDatabase : Database ℚ :=
  fun name => if name = locationHistoryCollection then exampleHistory else []

/-- The reports of the test user `user3`: Belgrade, Cuprija, Jagodina and Kragujevac, at
seconds 1 to 4 of the epoch. -/
noncomputable def exampleReports : List (pb.LocationInfo ℝ) :=
  [{ Username := "user3", Location := { Type_ := "Point", Coordinates := [20.2576593, 44.8154844] },
     Distance := 0, Timestamp := 1000 },
   { Username := "user3", Location := { Type_ := "Point", Coordinates := [21.3135146, 43.9322129] },
     Distance := 0, Timestamp := 2000 },
   { Username := "user3", Location := { Type_ := "Point", Coordinates := [21.2185255, 43.9754164] },
     Distance := 0, Timestamp := 3000 },
   { Username := "user3", Location := { Type_ := "Point", Coordinates := [20.8244312, 44.0175876] },
     Distance := 0, Timestamp := 4000 }]

/-- The database with no document in any collection. -/
def emptyDatabase {F : Type} : Database F := fun _ => []

/-- The database with the given documents as its history collection. -/
def withHistory {F : Type} (db : Database F) (docs : List (LocationInfo F)) : Database F :=
  fun name => if name = locationHistoryCollection then docs else db name

/-- Two reports of `user6` half the equator apart, at seconds 1 and 2 of the epoch. -/
noncomputable def antipodalReports : List (pb.LocationInfo ℝ) :=
  [{ Username := "user6", Location := { Type_ := "Point", Coordinates := [0, 0] },
     Distance := 0, Timestamp := 1000 },
   { Username := "user6", Location := { Type_ := "Point", Coordinates := [180, 0] },
     Distance := 0, Timestamp := 2000 }]

/-- The history the two reports of `user6` leave when submitted in order. -/
noncomputable def antipodalHistory : List (LocationInfo ℝ) :=
  [{ Username := "user6", Location := { Type_ := "Point", Coordinates := [0, 0] },
     Distance := 0, Timestamp := 1000 },
   { Username := "user6", Location := { Type_ := "Point", Coordinates := [180, 0] },
     Distance := 6371 * 2 * (Real.pi / 2), Timestamp := 2000 }]

/-- A history whose only point has no coordinates and carries the total distance 5. -/
noncomputable def coordinatelessHistory : List (LocationInfo ℝ) :=
  [{ Username := "user5", Location := { Type_ := "Point", Coordinates := [] },
     Distance := 5, Timestamp := 1000 }]

/-- The history `antipodalHistory` after the first report of `user6` has been submitted
once more. -/
noncomputable def antipodalResubmitted : List (LocationInfo ℝ) :=
  [{ Username := "user6", Location := { Type_ := "Point", Coordinates := [0, 0] },
     Distance := 6371 * 2 * (Real.pi / 2) + 6371 * 2 * (Real.pi / 2), Timestamp := 1000 },
   { Username := "user6", Location := { Type_ := "Point", Coordinates := [180, 0] },
     Distance := 6371 * 2 * (Real.pi / 2), Timestamp := 2000 }]

/-- The two reports of `user6` in the order of a late delivery: the report of second 2
is submitted first, the report of second 1 after it. -/
noncomputable def reorderedReports : List (pb.LocationInfo ℝ) :=
  [{ Username := "user6", Location := { Type_ := "Point", Coordinates := [180, 0] },
     Distance := 0, Timestamp := 2000 },
   { Username := "user6", Location := { Type_ := "Point", Coordinates := [0, 0] },
     Distance := 0, Timestamp := 1000 }]

/-- The history the two reports of `user6` leave when submitted in the order of
`reorderedReports`. -/
noncomputable def reorderedHistory : List (LocationInfo ℝ) :=
  [{ Username := "user6", Location := { Type_ := "Point", Coordinates := [180, 0] },
     Distance := 0, Timestamp := 2000 },
   { Username := "user6", Location := { Type_ := "Point", Coordinates := [0, 0] },
     Distance := 6371 * 2 * (Real.pi / 2), Timestamp := 1000 }]

/-- The first of the two reports of `user6`, as a message. -/
noncomputable def firstAntipodalReport : pb.LocationInfo ℝ :=
  { Username := "user6", Location := { Type_ := "Point", Coordinates := [0, 0] },
    Distance := 0, Timestamp := 1000 }

/-- A report of `user6` that arrives late: its timestamp lies between those of the two
reports already recorded. -/
noncomputable def lateReport : pb.LocationInfo ℝ :=
  { Username := "user6", Location := { Type_ := "Point", Coordinates := [90, 0] },
    Distance := 0, Timestamp := 1500 }

/-- Two reports of `user7`, the first with a single coordinate. -/
noncomputable def oneCoordinateReports : List (pb.LocationInfo ℝ) :=
  [{ Username := "user7", Location := { Type_ := "Point", Coordinates := [20.2576593] },
     Distance := 0, Timestamp := 1000 },
   { Username := "user7",
     Location := { Type_ := "Point", Coordinates := [21.3135146, 43.9322129] },
     Distance := 0, Timestamp := 2000 }]

/-- What `strconv.ParseFloat(text, 64)` gives for the numbers of the examples in this
file; other strings are not needed and are rejected. -/
def exampleParseFloat (text : String) : Except Error ℚ :=
  if text = "44.8154844" then .ok 44.8154844
  else if text = "20.2576593" then .ok 20.2576593
  else if text = "90" then .ok 90
  else if text = "-90" then .ok (-90)
  else if text = "180" then .ok 180
  else if text = "-180" then .ok (-180)
  else if text = "91" then .ok 91
  else .error "strconv.ParseFloat: invalid syntax"

/-- A decoder of request bodies that gives the request `data`. -/
def decodeAs {α : Type} (data : α) (_ : String) : Except Error α := .ok data

/-- A validation that accepts the request. -/
def acceptRequest {α : Type} (_ : α) : Option Error := none

/-- A ledger service that accepts every report and keeps the reports it received. -/
def receivingLedger : GRPCClient (List (pb.LocationInfo F)) F :=
  { UpdateUserLocation := fun in_ received => (none, received ++ [in_]) }

/-- A search that finds no user. -/
def searchNobody {σ : Type} (_ : List F) (_ : F) (_ _ : Int) (st : σ) :
    Except Error (List String) × σ :=
  (.ok [], st)

/-- The quantity `a` of the haversine formula as the specification writes it: the start
point is `(lonS, latS)`, the end point `(lonE, latE)`, in degrees, and every angle is
converted by multiplying with `π / 180`. -/
noncomputable def haversineA (lonS latS lonE latE : ℝ) : ℝ :=
  Real.sin ((latE * (Real.pi / 180) - latS * (Real.pi / 180)) / 2) ^ 2 +
    Real.cos (latS * (Real.pi / 180)) * Real.cos (latE * (Real.pi / 180)) *
      Real.sin ((lonE * (Real.pi / 180) - lonS * (Real.pi / 180)) / 2) ^ 2

/-- The haversine formula as the specification writes it,
`c + 6371 * 2 * atan2(sqrt(a), sqrt(1 - a))`, where `atan2(y, x)` is the angle of the point
`(x, y)`. -/
noncomputable def haversineFormula (lonS latS lonE latE c : ℝ) : ℝ :=
  c + 6371 * 2 *
    Complex.arg
      { re := Real.sqrt (1 - haversineA lonS latS lonE latE)
        im := Real.sqrt (haversineA lonS latS lonE latE) }

/-- A client whose store cannot be reached: every call returns an error. -/
def unavailableClient : DBClient Unit ℚ :=
  { SaveOrReplaceDocument := fun _ _ _ st => (some "server selection timeout", st)
    Find := fun _ _ _ _ _ _ st => (.error "server selection timeout", st) }

end Vocabulary

section TimestampVocabulary

/-- The validation of the request struct of `calculateUserDistanceHandler` by its tags:
the username alphanumeric with 4 to 16 characters, start and end matching the pattern
`customdatetime`. -/
def validateDistanceRequest (data : DistanceRequest) : Option Error :=
  if data.Username.data.all Char.isAlphanum && decide (4 ≤ data.Username.length) &&
      decide (data.Username.length ≤ 16) && customdatetime data.Start &&
      customdatetime data.End then none
  else some "validation failed"

/-- The lookup `getDate` makes: the first page of size one of the user's points at or
after, or at or before, the date, with the nearest first. -/
def dateQuery {F : Type} (username : String) (date : Int) (dateType : String) : StoreCall F :=
  StoreCall.Find locationHistoryCollection
    { username := username
      timestamp := some ((if dateType = "before" then TimestampCond.lte else TimestampCond.gte)
        date) }
    (some { location := false, distance := true })
    (some { timestamp := if dateType = "before" then -1 else 1 }) 1 1

end TimestampVocabulary

section PageVocabulary

/-- The options `MongoClient.Find` builds from its arguments. -/
def findOptions (projection : Option Projection) (sort : Option SortSpec)
    (pageNumber pageSize : Int) : FindOptions :=
  let options : FindOptions := { sort := none, projection := none, limit := 0, skip := 0 }
  let options := if sort.isSome then { options with sort := sort } else options
  let options := if projection.isSome then { options with projection := projection } else options
  { options with
    limit := pageSize
    skip := wrapInt64 (pageSize * wrapInt64 (pageNumber - 1)) }

end PageVocabulary

section CurrentVocabulary

variable {F : Type} [LinearOrderedField F]

/-- The current-location record `updateUserLocation` writes for a user: the given
username and coordinates, the type "Point", no distance, and the time of the call. -/
def currentRecord (username : String) (coordinates : List F) (now : Int) : LocationInfo F :=
  { Username := username
    Location := { Type_ := "Point", Coordinates := coordinates }
    Distance := 0
    Timestamp := now }

/-- The key under which `updateUserLocation` writes the current location: the username. -/
def userFilter (username : String) : Filter :=
  { username := username, timestamp := none }

/-- The message `updateUserLocation` forwards to the ledger service. -/
def forwardedReport (username : String) (coordinates : List F) (now : Int) : pb.LocationInfo F :=
  { Username := username
    Location := { Type_ := "Point", Coordinates := coordinates }
    Distance := 0
    Timestamp := now }

/-- A ledger client that passes every call on to `client` and keeps the list of the
messages sent, in order. -/
def recordForwards {τ : Type} (client : GRPCClient τ F) :
    GRPCClient (τ × List (pb.LocationInfo F)) F :=
  { UpdateUserLocation := fun in_ remote =>
      ((client.UpdateUserLocation in_ remote.1).1, (client.UpdateUserLocation in_ remote.1).2,
        remote.2 ++ [in_]) }

/-- A ledger service that cannot be reached: every call returns an error. -/
def unavailableLedger : GRPCClient Unit F :=
  { UpdateUserLocation := fun _ remote => (some "connection refused", remote) }

/-- A current-location collection with one record of `user1` and one of `user2`. -/
def exampleLocations : Database ℚ :=
  fun name =>
    if name = locationCollection then
      [{ Username := "user1", Location := { Type_ := "Point", Coordinates := [21, 43] },
         Distance := 0, Timestamp := 1000 },
       { Username := "user2", Location := { Type_ := "Point", Coordinates := [20, 44] },
         Distance := 0, Timestamp := 2000 }]
    else []

end CurrentVocabulary

section SearchVocabulary

variable {F : Type} [LinearOrderedField F]

/-- A store that answers every query of `findNear` with the given documents. -/
def answeringStore (documents : List (LocationInfo F)) : NearClient Unit F :=
  { Find := fun _ _ _ _ _ _ st => (.ok { All := .ok documents }, st) }

/-- Two current-location records, of `user4` and `user5`, as a store returns them under
the projection on the username. -/
def nearbyRecords : List (LocationInfo ℚ) :=
  [{ Username := "user4", Location := { Type_ := "", Coordinates := [] }, Distance := 0,
     Timestamp := 0 },
   { Username := "user5", Location := { Type_ := "", Coordinates := [] }, Distance := 0,
     Timestamp := 0 }]

end SearchVocabulary

section GapVocabulary

variable {F : Type} [LinearOrderedField F]

/-- A (longitude, latitude) pair lies in the ranges of valid coordinates. -/
def InRange (lon lat : F) : Prop :=
  -180 ≤ lon ∧ lon ≤ 180 ∧ -90 ≤ lat ∧ lat ≤ 90

/-- Two (longitude, latitude) pairs in the valid ranges name different positions on the
sphere: the latitudes differ, or the common latitude is not a pole and the longitudes
differ by other than a full turn. -/
def DifferInPosition (lonA latA lonB latB : F) : Prop :=
  latA ≠ latB ∨
    (latA ≠ 90 ∧ latA ≠ -90 ∧ lonA ≠ lonB ∧ lonA - lonB ≠ 360 ∧ lonB - lonA ≠ 360)

/-- Two reports of `user8` half the equator apart, at seconds 1 and 4 of the epoch. -/
noncomputable def gapReports : List (pb.LocationInfo ℝ) :=
  [{ Username := "user8", Location := { Type_ := "Point", Coordinates := [0, 0] },
     Distance := 0, Timestamp := 1000 },
   { Username := "user8", Location := { Type_ := "Point", Coordinates := [180, 0] },
     Distance := 0, Timestamp := 4000 }]

end GapVocabulary

section UserVocabulary

variable {F : Type} [LinearOrderedField F]

/-- The records of a user among the documents of a collection, in their order. -/
def recordsOf (username : String) (docs : List (LocationInfo F)) : List (LocationInfo F) :=
  docs.filter (fun d => decide (d.Username = username))

/-- A report of `user3`, as a message. -/
noncomputable def otherUserReport : pb.LocationInfo ℝ :=
  { Username := "user3", Location := { Type_ := "Point", Coordinates := [180, 0] },
    Distance := 0, Timestamp := 1500 }

end UserVocabulary

section RaceVocabulary

variable {σ F : Type} [LinearOrderedField F]

/-- Where a call of `UpdateUserLocation` stands between its two calls to the store. -/
inductive CallState (F : Type) where
  | start (in_ : pb.LocationInfo F)
  | hasRead (in_ : pb.LocationInfo F) (current : Location F × F × Bool)
  | finished (outcome : Except Fault Unit)

/-- One step of a call of `UpdateUserLocation`: from the start the lookup of
`findCurrent`; after the lookup the distance and the write. Each call to the store is
atomic. -/
def stepCall (math : Math F) (client : DBClient σ F) : CallState F → σ → CallState F × σ
  | .start in_, st =>
    match findCurrent client in_.Username st with
    | (.error err, st) => (.finished (.error (Fault.error err)), st)
    | (.ok current, st) => (.hasRead in_ current, st)
  | .hasRead in_ current, st =>
    match nextDistance math current in_ with
    | none => (.finished (.error (Fault.panic "index out of range")), st)
    | some distance =>
      (.finished (saveOutcome (client.SaveOrReplaceDocument locationHistoryCollection
          (storedRecord in_ distance) (keyFilter in_) st).1),
        (client.SaveOrReplaceDocument locationHistoryCollection
          (storedRecord in_ distance) (keyFilter in_) st).2)
  | .finished outcome, st => (.finished outcome, st)

/-- Two calls running at the same time on one store: each entry of the schedule names
the call that takes the next step, `true` the first call and `false` the second. -/
def runSchedule (math : Math F) (client : DBClient σ F) :
    List Bool → CallState F × CallState F → σ → (CallState F × CallState F) × σ
  | [], calls, st => (calls, st)
  | true :: rest, calls, st =>
    runSchedule math client rest ((stepCall math client calls.1 st).1, calls.2)
      (stepCall math client calls.1 st).2
  | false :: rest, calls, st =>
    runSchedule math client rest (calls.1, (stepCall math client calls.2 st).1)
      (stepCall math client calls.2 st).2

/-- The schedule in which both calls make their lookup before either writes. -/
def readsBeforeWrites : List Bool := [true, false, true, false]

/-- A history of `user9` with one point, on the equator at longitude 90. -/
noncomputable def raceHistory : List (LocationInfo ℝ) :=
  [{ Username := "user9", Location := { Type_ := "Point", Coordinates := [90, 0] },
     Distance := 0, Timestamp := 1000 }]

/-- A report of `user9` at second 2 of the epoch: the equator at longitude 0. -/
noncomputable def raceFirst : pb.LocationInfo ℝ :=
  { Username := "user9", Location := { Type_ := "Point", Coordinates := [0, 0] },
    Distance := 0, Timestamp := 2000 }

/-- A report of `user9` at second 3 of the epoch: the equator at longitude 180. -/
noncomputable def raceSecond : pb.LocationInfo ℝ :=
  { Username := "user9", Location := { Type_ := "Point", Coordinates := [180, 0] },
    Distance := 0, Timestamp := 3000 }

/-- A report of `user9` at second 3 of the epoch, back at the point of the history. -/
noncomputable def raceReturn : pb.LocationInfo ℝ :=
  { Username := "user9", Location := { Type_ := "Point", Coordinates := [90, 0] },
    Distance := 0, Timestamp := 3000 }

end RaceVocabulary

section ReachVocabulary

variable {σ F : Type} [LinearOrderedField F]

/-- The store after the calls of `UpdateUserLocation` for the reports, one after the
other, whatever their outcomes. -/
def afterCalls (math : Math F) (client : DBClient σ F) : List (pb.LocationInfo F) → σ → σ
  | [], st => st
  | report :: later, st =>
    afterCalls math client later (UpdateUserLocation math client report st).2

/-- Every point without coordinates carries the total distance `0`. -/
def ZeroWithoutCoordinates (docs : List (LocationInfo F)) : Prop :=
  ∀ p ∈ docs, p.Location.Coordinates = [] → p.Distance = 0

/-- A report of `user5` without coordinates, at second 1 of the epoch. -/
noncomputable def coordinatelessReport : pb.LocationInfo ℝ :=
  { Username := "user5", Location := { Type_ := "Point", Coordinates := [] },
    Distance := 0, Timestamp := 1000 }

/-- A report of `user5` from Belgrade, at second 2 of the epoch. -/
noncomputable def belgradeReport : pb.LocationInfo ℝ :=
  { Username := "user5",
    Location := { Type_ := "Point", Coordinates := [20.2576593, 44.8154844] },
    Distance := 0, Timestamp := 2000 }

end ReachVocabulary

section PatternVocabulary

/-- A character class of a pattern: any one of the given characters. -/
def anyOf : List Char → RegularExpression Char
  | [] => 0
  | c :: rest => RegularExpression.char c + anyOf rest

/-- The class `\d` of Go's `regexp`: an ASCII digit. -/
def digitClass : RegularExpression Char :=
  anyOf ['0', '1', '2', '3', '4', '5', '6', '7', '8', '9']

/-- The class `\s` of Go's `regexp`: tab, line feed, form feed, carriage return and
space. -/
def spaceClass : RegularExpression Char :=
  anyOf [Char.ofNat 9, Char.ofNat 10, Char.ofNat 12, Char.ofNat 13, ' ']

/-- The pattern `r?`: `r` or nothing. -/
def zeroOrOne (r : RegularExpression Char) : RegularExpression Char :=
  1 + r

/-- The pattern `r{0,n}`: at most `n` times `r`. -/
def atMost : Nat → RegularExpression Char → RegularExpression Char
  | 0, _ => 1
  | n + 1, r => 1 + r * atMost n r

/-- The piece `[+-]?\d*\.?\d{1,8}` of the pattern `customcoordinates`. -/
def numberPattern : RegularExpression Char :=
  zeroOrOne (anyOf ['+', '-']) * RegularExpression.star digitClass *
    zeroOrOne (RegularExpression.char '.') * (digitClass * atMost 7 digitClass)

/-- The pattern registered under the tag `customcoordinates`,
`^\s*[+-]?\d*\.?\d{1,8}\s*,\s*[+-]?\d*\.?\d{1,8}\s*$`. -/
def customcoordinatesPattern : RegularExpression Char :=
  RegularExpression.star spaceClass * numberPattern * RegularExpression.star spaceClass *
    RegularExpression.char ',' *
    (RegularExpression.star spaceClass * numberPattern * RegularExpression.star spaceClass)

/-- The validation registered under the tag `customcoordinates`: whether the whole value
matches the pattern. -/
def customcoordinates (value : String) : Bool :=
  customcoordinatesPattern.rmatch value.data

/-- Whether a pattern names the character `c`. -/
def mentions (c : Char) : RegularExpression Char → Bool
  | .zero => false
  | .epsilon => false
  | .char a => decide (a = c)
  | .plus p q => mentions c p || mentions c q
  | .comp p q => mentions c p || mentions c q
  | .star p => mentions c p

end PatternVocabulary

/-! ## The store: first page of size one -/

section StoreLemmas

theorem wrapInt64_first_page : wrapInt64 (1 * wrapInt64 (1 - 1)) = 0 := by decide

theorem head_insertionSort {α : Type} (r : α → α → Prop) [DecidableRel r]
    (htotal : ∀ a b, r a b ∨ r b a) (htrans : ∀ a b c, r a b → r b c → r a c)
    (l : List α) :
    ((l.insertionSort r).head? = none → l = []) ∧
      ∀ x, (l.insertionSort r).head? = some x → x ∈ l ∧ ∀ y ∈ l, r x y := by
  haveI : IsTotal α r := ⟨htotal⟩
  haveI : IsTrans α r := ⟨htrans⟩
  have hperm := List.perm_insertionSort r l
  have hsorted := List.sorted_insertionSort r l
  cases hs : l.insertionSort r with
  | nil =>
    rw [hs] at hperm
    refine ⟨fun _ => by simpa using hperm.symm.eq_nil, fun x hx => by simp at hx⟩
  | cons x rest =>
    rw [hs] at hperm hsorted
    refine ⟨fun h => by simp at h, fun z hz => ?_⟩
    simp only [List.head?_cons, Option.some.injEq] at hz
    subst hz
    refine ⟨hperm.subset (List.mem_cons_self _ _), fun y hy => ?_⟩
    have hy2 : y ∈ x :: rest := hperm.symm.subset hy
    rcases List.mem_cons.1 hy2 with rfl | hmem
    · rcases htotal y y with h | h <;> exact h
    · exact List.rel_of_sorted_cons hsorted y hmem

theorem head_sortAscending {F : Type} (l : List (LocationInfo F)) :
    ((sortAscending l).head? = none → l = []) ∧
      ∀ x, (sortAscending l).head? = some x → x ∈ l ∧ ∀ y ∈ l, x.Timestamp ≤ y.Timestamp :=
  head_insertionSort (fun a b : LocationInfo F => a.Timestamp ≤ b.Timestamp)
    (fun a b => le_total a.Timestamp b.Timestamp) (fun _ _ _ h1 h2 => le_trans h1 h2) l

theorem head_sortDescending {F : Type} (l : List (LocationInfo F)) :
    ((sortDescending l).head? = none → l = []) ∧
      ∀ x, (sortDescending l).head? = some x → x ∈ l ∧ ∀ y ∈ l, y.Timestamp ≤ x.Timestamp :=
  head_insertionSort (fun a b : LocationInfo F => b.Timestamp ≤ a.Timestamp)
    (fun a b => le_total b.Timestamp a.Timestamp) (fun _ _ _ h1 h2 => le_trans h2 h1) l

variable {F : Type} [LinearOrderedField F]

theorem getDate_after (username : String) (date : Int) (db : Database F) :
    getDate mongoClient username date "after" db =
      (.ok (headDistance (sortAscending ((db locationHistoryCollection).filter
        (fun d => Filter.matches { username := username, timestamp := some (.gte date) } d)))),
        db) := by
  simp only [getDate, mongoClient, MongoClient.Find, Collection.Find, wrapInt64_first_page]
  simp [headDistance]
  generalize sortAscending _ = sorted
  cases sorted <;> simp [Projection.apply]

theorem getDate_before (username : String) (date : Int) (db : Database F) :
    getDate mongoClient username date "before" db =
      (.ok (headDistance (sortDescending ((db locationHistoryCollection).filter
        (fun d => Filter.matches { username := username, timestamp := some (.lte date) } d)))),
        db) := by
  simp only [getDate, mongoClient, MongoClient.Find, Collection.Find, wrapInt64_first_page]
  simp [headDistance]
  generalize sortDescending _ = sorted
  cases sorted <;> simp [Projection.apply]

/-- On the document store `getFirstAfter` never fails: it gives the total distance of a
`firstAfter` point, or `0` when the user has no point at or after the date. -/
theorem getFirstAfter_mongoClient (username : String) (date : Int) (db : Database F) :
    (∃ p, IsFirstAfter (db locationHistoryCollection) username date p ∧
        getFirstAfter mongoClient username date db = (.ok p.Distance, db)) ∨
      ((∀ p ∈ db locationHistoryCollection, p.Username = username → ¬ date ≤ p.Timestamp) ∧
        getFirstAfter mongoClient username date db = (.ok 0, db)) := by
  rw [getFirstAfter, getDate_after]
  have h := head_sortAscending ((db locationHistoryCollection).filter
    (fun d => Filter.matches { username := username, timestamp := some (.gte date) } d))
  unfold headDistance
  cases hd : (sortAscending ((db locationHistoryCollection).filter
    (fun d => Filter.matches { username := username, timestamp := some (.gte date) } d))).head? with
  | none =>
    have h := h.1 hd
    right
    refine ⟨fun p hp hu hle => ?_, rfl⟩
    have : p ∈ (db locationHistoryCollection).filter
        (fun d => Filter.matches { username := username, timestamp := some (.gte date) } d) := by
      simp [List.mem_filter, Filter.matches, hp, hu, hle]
    rw [h] at this
    exact List.not_mem_nil _ this
  | some x =>
    left
    obtain ⟨hx, hmin⟩ := h.2 x hd
    simp only [List.mem_filter, Filter.matches, Bool.and_eq_true, decide_eq_true_eq] at hx
    refine ⟨x, ⟨hx.1, hx.2.1, hx.2.2, fun q hq hu hle => hmin q ?_⟩, rfl⟩
    simp [List.mem_filter, Filter.matches, hq, hu, hle]

/-- On the document store `getLastBefore` never fails: it gives the total distance of a
`lastBefore` point, or `0` when the user has no point at or before the date. -/
theorem getLastBefore_mongoClient (username : String) (date : Int) (db : Database F) :
    (∃ p, IsLastBefore (db locationHistoryCollection) username date p ∧
        getLastBefore mongoClient username date db = (.ok p.Distance, db)) ∨
      ((∀ p ∈ db locationHistoryCollection, p.Username = username → ¬ p.Timestamp ≤ date) ∧
        getLastBefore mongoClient username date db = (.ok 0, db)) := by
  rw [getLastBefore, getDate_before]
  have h := head_sortDescending ((db locationHistoryCollection).filter
    (fun d => Filter.matches { username := username, timestamp := some (.lte date) } d))
  unfold headDistance
  cases hd : (sortDescending ((db locationHistoryCollection).filter
    (fun d => Filter.matches { username := username, timestamp := some (.lte date) } d))).head? with
  | none =>
    have h := h.1 hd
    right
    refine ⟨fun p hp hu hle => ?_, rfl⟩
    have : p ∈ (db locationHistoryCollection).filter
        (fun d => Filter.matches { username := username, timestamp := some (.lte date) } d) := by
      simp [List.mem_filter, Filter.matches, hp, hu, hle]
    rw [h] at this
    exact List.not_mem_nil _ this
  | some x =>
    left
    obtain ⟨hx, hmax⟩ := h.2 x hd
    simp only [List.mem_filter, Filter.matches, Bool.and_eq_true, decide_eq_true_eq] at hx
    refine ⟨x, ⟨hx.1, hx.2.1, hx.2.2, fun q hq hu hle => hmax q ?_⟩, rfl⟩
    simp [List.mem_filter, Filter.matches, hq, hu, hle]

end StoreLemmas

/-! ## The ledger: reports recorded in order -/

section LedgerLemmas

variable {F : Type} [LinearOrderedField F]

theorem findCurrent_mongoClient_eq (username : String) (db : Database F) :
    findCurrent mongoClient username db =
      (.ok (headCurrent (sortDescending ((db locationHistoryCollection).filter
        (fun d => Filter.matches { username := username, timestamp := none } d)))), db) := by
  simp only [findCurrent, mongoClient, MongoClient.Find, Collection.Find, wrapInt64_first_page]
  simp [headCurrent]
  generalize sortDescending _ = sorted
  cases sorted <;> simp [Projection.apply]

theorem findCurrent_none (username : String) (db : Database F)
    (hnone : ∀ p ∈ db locationHistoryCollection, p.Username ≠ username) :
    findCurrent mongoClient username db =
      (.ok ({ Type_ := "", Coordinates := [] }, 0, false), db) := by
  rw [findCurrent_mongoClient_eq]
  have hfilter : (db locationHistoryCollection).filter
      (fun d => Filter.matches { username := username, timestamp := none } d) = [] := by
    rw [List.filter_eq_nil_iff]
    intro p hp
    simp [Filter.matches, hnone p hp]
  rw [hfilter]
  simp [sortDescending, headCurrent]

theorem findCurrent_latest (username : String) (db : Database F) (x : LocationInfo F)
    (hx : x ∈ db locationHistoryCollection) (hu : x.Username = username)
    (hlatest : ∀ y ∈ db locationHistoryCollection, y.Username = username → y ≠ x →
      y.Timestamp < x.Timestamp) :
    findCurrent mongoClient username db = (.ok (x.Location, x.Distance, true), db) := by
  rw [findCurrent_mongoClient_eq]
  have h := head_sortDescending ((db locationHistoryCollection).filter
    (fun d => Filter.matches { username := username, timestamp := none } d))
  have hxf : x ∈ (db locationHistoryCollection).filter
      (fun d => Filter.matches { username := username, timestamp := none } d) := by
    simp [List.mem_filter, Filter.matches, hx, hu]
  unfold headCurrent
  cases hd : (sortDescending ((db locationHistoryCollection).filter
    (fun d => Filter.matches { username := username, timestamp := none } d))).head? with
  | none =>
    rw [h.1 hd] at hxf
    exact absurd hxf (List.not_mem_nil _)
  | some z =>
    obtain ⟨hz, hmax⟩ := h.2 z hd
    simp only [List.mem_filter, Filter.matches, Bool.and_true, decide_eq_true_eq] at hz
    have hzx : z = x := by
      by_contra hne
      have h1 := hlatest z hz.1 hz.2 hne
      have h2 := hmax x hxf
      omega
    subst hzx
    rfl

theorem replaceFirst_none (filter : Filter) (document : LocationInfo F) :
    ∀ docs : List (LocationInfo F), (∀ d ∈ docs, filter.matches d = false) →
      replaceFirst filter document docs = none
  | [], _ => rfl
  | d :: rest, h => by
    have hd := h d (List.mem_cons_self _ _)
    have hrest := replaceFirst_none filter document rest
      (fun e he => h e (List.mem_cons_of_mem _ he))
    simp [replaceFirst, hd, hrest]

theorem calculateDistance_pairs (math : Math F) (start end_ : Location F) (currentDistance : F)
    (hs : start.Coordinates.length = 2) (he : end_.Coordinates.length = 2) :
    calculateDistance math start end_ currentDistance =
      some (GreatCircleDistance math start.Coordinates end_.Coordinates + currentDistance) := by
  obtain ⟨a, b, hab⟩ := List.length_eq_two.1 hs
  obtain ⟨c, d, hcd⟩ := List.length_eq_two.1 he
  simp [calculateDistance, GreatCircleDistance, hab, hcd, degreesToRadians]

theorem totalDistance_append_pair (math : Math F) (l r : pb.LocationInfo F) :
    ∀ earlier : List (pb.LocationInfo F),
      totalDistance math (earlier ++ [l, r]) =
        totalDistance math (earlier ++ [l]) +
          GreatCircleDistance math l.Location.Coordinates r.Location.Coordinates
  | [] => by simp [totalDistance]
  | [a] => by simp [totalDistance]
  | a :: b :: rest => by
    have ih := totalDistance_append_pair math l r (b :: rest)
    simp only [List.cons_append] at ih
    show GreatCircleDistance math a.Location.Coordinates b.Location.Coordinates +
        totalDistance math (b :: (rest ++ [l, r])) =
      GreatCircleDistance math a.Location.Coordinates b.Location.Coordinates +
        totalDistance math (b :: (rest ++ [l])) + _
    rw [ih, add_assoc]


theorem UpdateUserLocation_append (math : Math F) (in_ : pb.LocationInfo F) (db : Database F)
    (current : Location F × F × Bool) (distance : F)
    (hcurrent : findCurrent mongoClient in_.Username db = (.ok current, db))
    (hdistance : (if !current.2.2 then some 0
      else calculateDistance math current.1
        { Type_ := in_.Location.Type_, Coordinates := in_.Location.Coordinates }
        current.2.1) = some distance)
    (hnew : ∀ p ∈ db locationHistoryCollection, p.Username = in_.Username →
      p.Timestamp ≠ in_.Timestamp) :
    UpdateUserLocation math mongoClient in_ db =
      (.ok (), appendHistory db [storedRecord in_ distance]) := by
  obtain ⟨currentLocation, currentDistance, ok⟩ := current
  have hreplace : replaceFirst
      { username := in_.Username, timestamp := some (TimestampCond.eq in_.Timestamp) }
      (storedRecord in_ distance) (db locationHistoryCollection) = none := by
    apply replaceFirst_none
    intro d hd
    by_cases hu : d.Username = in_.Username
    · simp [Filter.matches, hu, hnew d hd hu]
    · simp [Filter.matches, hu]
  simp only [UpdateUserLocation, hcurrent]
  simp only at hdistance
  rw [hdistance]
  simp only [mongoClient, MongoClient.SaveOrReplaceDocument]
  congr 1
  funext name
  by_cases hname : name = locationHistoryCollection
  · subst hname
    simp [appendHistory, Collection.ReplaceOne, storedRecord] at hreplace ⊢
    rw [hreplace]
  · simp [appendHistory, hname]


theorem appendHistory_nil (db : Database F) : appendHistory db [] = db := by
  funext name
  simp [appendHistory]

theorem appendHistory_append (db : Database F) (a b : List (LocationInfo F)) :
    appendHistory (appendHistory db a) b = appendHistory db (a ++ b) := by
  funext name
  by_cases hname : name = locationHistoryCollection <;> simp [appendHistory, hname]

theorem baseline_distance (math : Math F) (earlier : List (pb.LocationInfo F))
    (report : pb.LocationInfo F)
    (hearlier : ∀ r ∈ earlier, r.Location.Coordinates.length = 2)
    (hreport : report.Location.Coordinates.length = 2) :
    (if !(baseline math earlier).2.2 then some 0
      else calculateDistance math (baseline math earlier).1
        { Type_ := report.Location.Type_, Coordinates := report.Location.Coordinates }
        (baseline math earlier).2.1) = some (totalDistance math (earlier ++ [report])) := by
  rcases List.eq_nil_or_concat earlier with rfl | ⟨e, l, rfl⟩
  · simp [baseline, totalDistance]
  · have hl : l.Location.Coordinates.length = 2 := hearlier l (by simp)
    rw [List.concat_eq_append]
    have hb : baseline math (e ++ [l]) =
        ({ Type_ := l.Location.Type_, Coordinates := l.Location.Coordinates },
          totalDistance math (e ++ [l]), true) := by
      simp [baseline]
    rw [hb]
    simp only [Bool.not_true, Bool.false_eq_true, if_false]
    rw [calculateDistance_pairs math _ _ _ hl hreport]
    have := totalDistance_append_pair math l report e
    simp only [List.append_assoc, List.singleton_append] at this ⊢
    rw [this, add_comm]

theorem submitAll_ledgerFrom (math : Math F) (username : String) :
    ∀ (later earlier : List (pb.LocationInfo F)) (db : Database F),
      (∀ r ∈ later, r.Username = username) →
      (∀ r ∈ later, r.Location.Coordinates.length = 2) →
      (∀ r ∈ earlier, r.Location.Coordinates.length = 2) →
      later.Pairwise (fun a b => a.Timestamp < b.Timestamp) →
      (∀ p ∈ db locationHistoryCollection, p.Username = username →
        ∀ r ∈ later, p.Timestamp < r.Timestamp) →
      findCurrent mongoClient username db = (.ok (baseline math earlier), db) →
      submitAll math mongoClient later db =
        (.ok (), appendHistory db (ledgerFrom math earlier later))
  | [], earlier, db, _, _, _, _, _, _ => by
    simp [submitAll, ledgerFrom, appendHistory_nil]
  | report :: later, earlier, db, huser, hpair, hearlier, horder, hbelow, hcurrent => by
    have hu : report.Username = username := huser report (List.mem_cons_self _ _)
    have hr2 : report.Location.Coordinates.length = 2 := hpair report (List.mem_cons_self _ _)
    rw [List.pairwise_cons] at horder
    have hstep := UpdateUserLocation_append math report db (baseline math earlier)
      (totalDistance math (earlier ++ [report])) (by rw [hu]; exact hcurrent)
      (baseline_distance math earlier report hearlier hr2)
      (fun p hp hpu => ne_of_lt (hbelow p hp (by rw [hpu, hu]) report (List.mem_cons_self _ _)))
    have hmem : storedRecord report (totalDistance math (earlier ++ [report])) ∈
        appendHistory db [storedRecord report (totalDistance math (earlier ++ [report]))]
          locationHistoryCollection := by
      simp [appendHistory]
    have hnext := submitAll_ledgerFrom math username later (earlier ++ [report])
      (appendHistory db [storedRecord report (totalDistance math (earlier ++ [report]))])
      (fun r hr => huser r (List.mem_cons_of_mem _ hr))
      (fun r hr => hpair r (List.mem_cons_of_mem _ hr))
      (by
        intro r hr
        rcases List.mem_append.1 hr with h | h
        · exact hearlier r h
        · rw [List.mem_singleton.1 h]; exact hr2)
      horder.2
      (by
        intro p hp hpu r hr
        simp only [appendHistory, if_true, List.mem_append, List.mem_singleton] at hp
        rcases hp with hp | rfl
        · exact hbelow p hp hpu r (List.mem_cons_of_mem _ hr)
        · exact horder.1 r hr)
      (by
        have := findCurrent_latest username
          (appendHistory db [storedRecord report (totalDistance math (earlier ++ [report]))])
          (storedRecord report (totalDistance math (earlier ++ [report]))) hmem hu
          (by
            intro y hy hyu hne
            simp only [appendHistory, if_true, List.mem_append, List.mem_singleton] at hy
            rcases hy with hy | rfl
            · exact hbelow y hy hyu report (List.mem_cons_self _ _)
            · exact absurd rfl hne)
        rw [this]
        simp [baseline, storedRecord])
    simp only [submitAll, hstep, hnext, ledgerFrom, appendHistory_append, List.singleton_append]


theorem GreatCircleDistance_nonneg (a b : List ℝ) : 0 ≤ GreatCircleDistance realMath a b := by
  unfold GreatCircleDistance
  split
  · apply mul_nonneg (by norm_num)
    exact Complex.arg_nonneg_iff.2 (Real.sqrt_nonneg _)
  · exact le_refl 0

theorem totalDistance_nonneg : ∀ reports : List (pb.LocationInfo ℝ),
    0 ≤ totalDistance realMath reports
  | [] => le_refl 0
  | [_] => le_refl 0
  | _ :: b :: rest =>
    add_nonneg (GreatCircleDistance_nonneg _ _) (totalDistance_nonneg (b :: rest))

theorem totalDistance_le_append (later : List (pb.LocationInfo ℝ)) :
    ∀ earlier : List (pb.LocationInfo ℝ),
      totalDistance realMath earlier ≤ totalDistance realMath (earlier ++ later)
  | [] => totalDistance_nonneg _
  | [a] => by
    cases later with
    | nil => simp
    | cons b rest => exact totalDistance_nonneg _
  | a :: b :: rest => by
    have ih := totalDistance_le_append later (b :: rest)
    simp only [List.cons_append] at ih
    show GreatCircleDistance realMath a.Location.Coordinates b.Location.Coordinates +
        totalDistance realMath (b :: rest) ≤
      GreatCircleDistance realMath a.Location.Coordinates b.Location.Coordinates +
        totalDistance realMath (b :: (rest ++ later))
    exact add_le_add_left ih _

theorem mem_ledgerFrom (math : Math F) (p : LocationInfo F) :
    ∀ (later earlier : List (pb.LocationInfo F)), p ∈ ledgerFrom math earlier later →
      ∃ before report after, later = before ++ report :: after ∧
        p = storedRecord report (totalDistance math (earlier ++ before ++ [report]))
  | [], _, h => by simp [ledgerFrom] at h
  | r :: later, earlier, h => by
    simp only [ledgerFrom, List.mem_cons] at h
    rcases h with rfl | h
    · exact ⟨[], r, later, rfl, by simp⟩
    · obtain ⟨before, report, after, hsplit, hp⟩ := mem_ledgerFrom math p later _ h
      refine ⟨r :: before, report, after, by simp [hsplit], ?_⟩
      simpa using hp

theorem ledgerFrom_mem (math : Math F) :
    ∀ (before earlier : List (pb.LocationInfo F)) (report : pb.LocationInfo F)
      (after : List (pb.LocationInfo F)),
      storedRecord report (totalDistance math (earlier ++ before ++ [report])) ∈
        ledgerFrom math earlier (before ++ report :: after)
  | [], earlier, report, after => by simp [ledgerFrom]
  | r :: before, earlier, report, after => by
    have ih := ledgerFrom_mem math before (earlier ++ [r]) report after
    simp only [List.cons_append, ledgerFrom, List.mem_cons]
    right
    simpa using ih

theorem ledgerFrom_pairwise :
    ∀ (later earlier : List (pb.LocationInfo ℝ)),
      later.Pairwise (fun a b => a.Timestamp < b.Timestamp) →
      (ledgerFrom realMath earlier later).Pairwise
        (fun p q => p.Timestamp < q.Timestamp ∧ p.Distance ≤ q.Distance)
  | [], _, _ => by simp [ledgerFrom]
  | r :: later, earlier, h => by
    rw [List.pairwise_cons] at h
    simp only [ledgerFrom, List.pairwise_cons]
    refine ⟨fun q hq => ?_, ledgerFrom_pairwise later _ h.2⟩
    obtain ⟨before, report, after, hsplit, hq⟩ := mem_ledgerFrom realMath q later _ hq
    subst hq
    refine ⟨h.1 report (by simp [hsplit]), ?_⟩
    simp only [storedRecord]
    have := totalDistance_le_append (before ++ [report]) (earlier ++ [r])
    simpa using this

theorem pairwise_cases {α : Type} {R : α → α → Prop} :
    ∀ {l : List α}, l.Pairwise R → ∀ a ∈ l, ∀ b ∈ l, a = b ∨ R a b ∨ R b a
  | [], _, a, ha, _, _ => by simp at ha
  | x :: l, h, a, ha, b, hb => by
    rw [List.pairwise_cons] at h
    rcases List.mem_cons.1 ha with hax | hal <;> rcases List.mem_cons.1 hb with hbx | hbl
    · exact Or.inl (hax.trans hbx.symm)
    · exact Or.inr (Or.inl (hax ▸ h.1 b hbl))
    · exact Or.inr (Or.inr (hbx ▸ h.1 a hal))
    · exact pairwise_cases h.2 a hal b hbl

end LedgerLemmas

/-! ## The ledger: windows -/

section WindowLemmas

variable {F : Type} [LinearOrderedField F]

theorem totalDistance_append_cons (math : Math F) (r : pb.LocationInfo F)
    (later : List (pb.LocationInfo F)) :
    ∀ earlier : List (pb.LocationInfo F),
      totalDistance math (earlier ++ r :: later) =
        totalDistance math (earlier ++ [r]) + totalDistance math (r :: later)
  | [] => by simp [totalDistance]
  | [a] => by
    cases later with
    | nil => simp [totalDistance]
    | cons b rest => simp [totalDistance]
  | a :: b :: rest => by
    have ih := totalDistance_append_cons math r later (b :: rest)
    simp only [List.cons_append] at ih
    show GreatCircleDistance math a.Location.Coordinates b.Location.Coordinates +
        totalDistance math (b :: (rest ++ r :: later)) =
      GreatCircleDistance math a.Location.Coordinates b.Location.Coordinates +
        totalDistance math (b :: (rest ++ [r])) + totalDistance math (r :: later)
    rw [ih, add_assoc]

/-- In a sequence of reports with strictly increasing timestamps, a report at or before
another in time is at or before it in the sequence. -/
theorem segment_between (reports before1 after1 before2 after2 : List (pb.LocationInfo F))
    (r1 r2 : pb.LocationInfo F)
    (horder : reports.Pairwise (fun a b => a.Timestamp < b.Timestamp))
    (h1 : reports = before1 ++ r1 :: after1) (h2 : reports = before2 ++ r2 :: after2)
    (hle : r1.Timestamp ≤ r2.Timestamp) :
    ∃ middle, before2 ++ [r2] = before1 ++ r1 :: middle ∧ after1 = middle ++ after2 ∧
      (middle = [] → r1 = r2) := by
  have heq : before1 ++ r1 :: after1 = before2 ++ r2 :: after2 := h1.symm.trans h2
  rcases List.append_eq_append_iff.1 heq with ⟨a', ha, hb⟩ | ⟨c', hc, hd⟩
  · cases a' with
    | nil =>
      simp only [List.nil_append, List.cons.injEq] at hb
      simp only [List.append_nil] at ha
      exact ⟨[], by simp [ha, hb.1], by simp [hb.2], fun _ => hb.1⟩
    | cons x a'' =>
      simp only [List.cons_append, List.cons.injEq] at hb
      obtain ⟨hx, hrest⟩ := hb
      subst hx
      refine ⟨a'' ++ [r2], by simp [ha], ?_, by simp⟩
      simp [hrest]
  · cases c' with
    | nil =>
      simp only [List.nil_append, List.cons.injEq] at hd
      simp only [List.append_nil] at hc
      exact ⟨[], by simp [hc, hd.1], by simp [hd.2], fun _ => hd.1.symm⟩
    | cons x c'' =>
      exfalso
      simp only [List.cons_append, List.cons.injEq] at hd
      obtain ⟨hx, hrest⟩ := hd
      subst hx
      rw [h2, hrest] at horder
      have := (List.pairwise_append.1 horder).2.1
      rw [List.pairwise_cons] at this
      have hlt := this.1 r1 (by simp)
      omega


/-- In a sequence of reports with strictly increasing timestamps, the reports in a window
are the segment from the first report at or after the start of the window to the last
report at or before its end, and the total distance up to the latter is the total
distance up to the former plus the total distance of the segment. -/
theorem window_segment (math : Math F) (reports before1 after1 before2 after2 :
    List (pb.LocationInfo F)) (r1 r2 : pb.LocationInfo F) (windowStart windowEnd : Int)
    (horder : reports.Pairwise (fun a b => a.Timestamp < b.Timestamp))
    (h1 : reports = before1 ++ r1 :: after1) (h2 : reports = before2 ++ r2 :: after2)
    (hs1 : windowStart ≤ r1.Timestamp)
    (hmin : ∀ r ∈ reports, windowStart ≤ r.Timestamp → r1.Timestamp ≤ r.Timestamp)
    (he2 : r2.Timestamp ≤ windowEnd)
    (hmax : ∀ r ∈ reports, r.Timestamp ≤ windowEnd → r.Timestamp ≤ r2.Timestamp)
    (hle : r1.Timestamp ≤ r2.Timestamp) :
    ∃ middle, reports.filter (inWindow windowStart windowEnd) = r1 :: middle ∧
      totalDistance math (before2 ++ [r2]) =
        totalDistance math (before1 ++ [r1]) + totalDistance math (r1 :: middle) := by
  obtain ⟨middle, hseg, hafter1, _⟩ :=
    segment_between reports before1 after1 before2 after2 r1 r2 horder h1 h2 hle
  refine ⟨middle, ?_, by rw [hseg, totalDistance_append_cons]⟩
  have ho1 := horder
  rw [h1] at ho1
  have ho2 := horder
  rw [h2] at ho2
  have hbefore : ∀ a ∈ before1, inWindow windowStart windowEnd a = false := by
    intro a ha
    have hlt := (List.pairwise_append.1 ho1).2.2 a ha r1 (List.mem_cons_self _ _)
    have := hmin a (by rw [h1]; simp [ha])
    simp only [inWindow, Bool.and_eq_false_iff, decide_eq_false_iff_not]
    left
    intro hsa
    have := this hsa
    omega
  have hafter : ∀ b ∈ after2, inWindow windowStart windowEnd b = false := by
    intro b hb
    have hlt := (List.pairwise_cons.1 (List.pairwise_append.1 ho2).2.1).1 b hb
    have := hmax b (by rw [h2]; simp [hb])
    simp only [inWindow, Bool.and_eq_false_iff, decide_eq_false_iff_not]
    right
    intro hbe
    have := this hbe
    omega
  have hin : ∀ w ∈ r1 :: middle, inWindow windowStart windowEnd w = true := by
    intro w hw
    have hlow : r1.Timestamp ≤ w.Timestamp := by
      rcases List.mem_cons.1 hw with rfl | hm
      · exact le_refl _
      · have : w ∈ after1 := by rw [hafter1]; simp [hm]
        exact le_of_lt ((List.pairwise_cons.1 (List.pairwise_append.1 ho1).2.1).1 w this)
    have hhigh : w.Timestamp ≤ r2.Timestamp := by
      have hw2 : w ∈ before2 ++ [r2] := by rw [hseg]; simp [List.mem_cons.1 hw]
      rcases List.mem_append.1 hw2 with hb | hb
      · exact le_of_lt ((List.pairwise_append.1 ho2).2.2 w hb r2 (List.mem_cons_self _ _))
      · rw [List.mem_singleton.1 hb]
    simp only [inWindow, Bool.and_eq_true, decide_eq_true_eq]
    omega
  have hreports : reports = before1 ++ ((r1 :: middle) ++ after2) := by
    rw [h1, hafter1]; simp
  have hf1 : before1.filter (inWindow windowStart windowEnd) = [] :=
    List.filter_eq_nil_iff.2 (fun a ha => by simp [hbefore a ha])
  have hf2 : after2.filter (inWindow windowStart windowEnd) = [] :=
    List.filter_eq_nil_iff.2 (fun b hb => by simp [hafter b hb])
  have hf3 : (r1 :: middle).filter (inWindow windowStart windowEnd) = r1 :: middle :=
    List.filter_eq_self.2 hin
  rw [hreports, List.filter_append, List.filter_append, hf1, hf2, hf3]
  simp


/-- The records of a user in a history that had none of them before the ledger of the
reports was appended are the records of the reports. -/
theorem mem_appendHistory_ledger (math : Math F) (username : String)
    (reports : List (pb.LocationInfo F)) (db : Database F) (p : LocationInfo F)
    (hempty : ∀ p ∈ db locationHistoryCollection, p.Username ≠ username)
    (hp : p ∈ appendHistory db (ledger math reports) locationHistoryCollection)
    (hu : p.Username = username) :
    ∃ before report after, reports = before ++ report :: after ∧
      p = storedRecord report (totalDistance math (before ++ [report])) := by
  simp only [appendHistory, if_true, List.mem_append] at hp
  have hp2 : p ∈ ledgerFrom math [] reports := hp.resolve_left (fun h => hempty p h hu)
  obtain ⟨before, report, after, hsplit, hp3⟩ := mem_ledgerFrom math p reports [] hp2
  exact ⟨before, report, after, hsplit, by simpa using hp3⟩

theorem storedRecord_mem_appendHistory (math : Math F) (reports : List (pb.LocationInfo F))
    (db : Database F) (r : pb.LocationInfo F) (hr : r ∈ reports) :
    ∃ distance, storedRecord r distance ∈
      appendHistory db (ledger math reports) locationHistoryCollection := by
  obtain ⟨before, after, hsplit⟩ := List.append_of_mem hr
  refine ⟨totalDistance math (before ++ [r]), ?_⟩
  have := ledgerFrom_mem math before [] r after
  simp only [appendHistory, if_true, List.mem_append, ledger, hsplit]
  right
  simpa using this

theorem calculateUserDistance_ledger_window (math : Math F)
    (timeParse : String → Except Error Time) (username start end_ : String)
    (parsedStart parsedEnd : Time) (reports : List (pb.LocationInfo F)) (db : Database F)
    (hempty : ∀ p ∈ db locationHistoryCollection, p.Username ≠ username)
    (huser : ∀ r ∈ reports, r.Username = username)
    (horder : reports.Pairwise (fun a b => a.Timestamp < b.Timestamp))
    (hstart : timeParse start = .ok parsedStart) (hend : timeParse end_ = .ok parsedEnd)
    (hwindow : ∃ r ∈ reports,
      parsedStart.UnixMilli ≤ r.Timestamp ∧ r.Timestamp ≤ parsedEnd.UnixMilli) :
    calculateUserDistance timeParse mongoClient username start end_
        (appendHistory db (ledger math reports)) =
      (.ok (totalDistance math
        (reports.filter (inWindow parsedStart.UnixMilli parsedEnd.UnixMilli))),
        appendHistory db (ledger math reports)) := by
  obtain ⟨r0, hr0, hr0s, hr0e⟩ := hwindow
  obtain ⟨d0, hd0⟩ := storedRecord_mem_appendHistory math reports db r0 hr0
  rcases getFirstAfter_mongoClient username parsedStart.UnixMilli
      (appendHistory db (ledger math reports)) with ⟨fa, hfa, hfirst⟩ | ⟨hnone, _⟩
  swap
  · exact absurd hr0s (hnone _ hd0 (huser r0 hr0))
  rcases getLastBefore_mongoClient username parsedEnd.UnixMilli
      (appendHistory db (ledger math reports)) with ⟨lb, hlb, hlast⟩ | ⟨hnone, _⟩
  swap
  · exact absurd hr0e (hnone _ hd0 (huser r0 hr0))
  obtain ⟨before1, r1, after1, h1, hfa_eq⟩ :=
    mem_appendHistory_ledger math username reports db fa hempty hfa.1 hfa.2.1
  obtain ⟨before2, r2, after2, h2, hlb_eq⟩ :=
    mem_appendHistory_ledger math username reports db lb hempty hlb.1 hlb.2.1
  have hs1 : parsedStart.UnixMilli ≤ r1.Timestamp := by
    have := hfa.2.2.1
    rwa [hfa_eq] at this
  have he2 : r2.Timestamp ≤ parsedEnd.UnixMilli := by
    have := hlb.2.2.1
    rwa [hlb_eq] at this
  have hmin : ∀ r ∈ reports, parsedStart.UnixMilli ≤ r.Timestamp →
      r1.Timestamp ≤ r.Timestamp := by
    intro r hr hrs
    obtain ⟨d, hd⟩ := storedRecord_mem_appendHistory math reports db r hr
    have := hfa.2.2.2 _ hd (huser r hr) hrs
    rwa [hfa_eq] at this
  have hmax : ∀ r ∈ reports, r.Timestamp ≤ parsedEnd.UnixMilli →
      r.Timestamp ≤ r2.Timestamp := by
    intro r hr hre
    obtain ⟨d, hd⟩ := storedRecord_mem_appendHistory math reports db r hr
    have := hlb.2.2.2 _ hd (huser r hr) hre
    rwa [hlb_eq] at this
  have hle : r1.Timestamp ≤ r2.Timestamp :=
    le_trans (hmin r0 hr0 hr0s) (hmax r0 hr0 hr0e)
  obtain ⟨middle, hfilter, htotal⟩ := window_segment math reports before1 after1 before2
    after2 r1 r2 parsedStart.UnixMilli parsedEnd.UnixMilli horder h1 h2 hs1 hmin he2 hmax hle
  rw [hfilter]
  cases hbefore : parsedEnd.Before parsedStart with
  | false =>
    simp only [calculateUserDistance, hstart, hend, hbefore, hfirst, hlast, hfa_eq, hlb_eq,
      storedRecord, htotal]
    simp
  | true =>
    have hmiddle : middle = [] := by
      rw [List.eq_nil_iff_forall_not_mem]
      intro m hm
      have hsub : (reports.filter (inWindow parsedStart.UnixMilli parsedEnd.UnixMilli)).Pairwise
          (fun a b => a.Timestamp < b.Timestamp) := horder.sublist (List.filter_sublist _)
      rw [hfilter, List.pairwise_cons] at hsub
      have hlt := hsub.1 m hm
      have hmw : m ∈ reports.filter (inWindow parsedStart.UnixMilli parsedEnd.UnixMilli) := by
        rw [hfilter]; exact List.mem_cons_of_mem _ hm
      simp only [List.mem_filter, inWindow, Bool.and_eq_true, decide_eq_true_eq] at hmw
      simp only [Time.Before, decide_eq_true_eq] at hbefore
      simp only [Time.UnixMilli] at hmw hs1
      omega
    simp [calculateUserDistance, hstart, hend, hbefore, hfirst, hmiddle, totalDistance]

end WindowLemmas

/-! ## The ledger: replacement and distances over the reals -/

section RealLemmas

theorem atan2_zero_one : Complex.arg { re := 1, im := 0 } = 0 := by
  have : ({ re := 1, im := 0 } : ℂ) = 1 := rfl
  rw [this, Complex.arg_one]

theorem atan2_one_zero : Complex.arg { re := 0, im := 1 } = Real.pi / 2 := by
  have : ({ re := 0, im := 1 } : ℂ) = Complex.I := rfl
  rw [this, Complex.arg_I]

theorem GreatCircleDistance_self (lon lat : ℝ) :
    GreatCircleDistance realMath [lon, lat] [lon, lat] = 0 := by
  simp [GreatCircleDistance, realMath, atan2_zero_one]

theorem GreatCircleDistance_half_equator :
    GreatCircleDistance realMath [0, 0] [180, 0] = 6371 * 2 * (Real.pi / 2) := by
  have h1 : (180 * Real.pi / 180 - 0 * Real.pi / 180) / 2 = Real.pi / 2 := by ring
  simp only [GreatCircleDistance, realMath, h1]
  simp [atan2_one_zero]

theorem GreatCircleDistance_half_equator_back :
    GreatCircleDistance realMath [180, 0] [0, 0] = 6371 * 2 * (Real.pi / 2) := by
  have h1 : (0 * Real.pi / 180 - 180 * Real.pi / 180) / 2 = -(Real.pi / 2) := by ring
  simp only [GreatCircleDistance, realMath, h1]
  simp [atan2_one_zero]

theorem replaceFirst_same {F : Type} (filter : Filter) (x : LocationInfo F) :
    ∀ docs : List (LocationInfo F), x ∈ docs → filter.matches x = true →
      (∀ y ∈ docs, filter.matches y = true → y = x) →
      replaceFirst filter x docs = some docs
  | [], hx, _, _ => absurd hx (List.not_mem_nil x)
  | d :: rest, hx, hmx, huniq => by
    by_cases hd : filter.matches d = true
    · have := huniq d (List.mem_cons_self _ _) hd
      subst this
      simp [replaceFirst, hd]
    · have hxr : x ∈ rest := by
        rcases List.mem_cons.1 hx with h | h
        · rw [h] at hmx; exact absurd hmx hd
        · exact h
      have ih := replaceFirst_same filter x rest hxr hmx
        (fun y hy => huniq y (List.mem_cons_of_mem _ hy))
      simp [replaceFirst, hd, ih]

theorem UpdateUserLocation_replace {F : Type} [LinearOrderedField F] (math : Math F)
    (in_ : pb.LocationInfo F) (db : Database F)
    (current : Location F × F × Bool) (distance : F) (docs : List (LocationInfo F))
    (hcurrent : findCurrent mongoClient in_.Username db = (.ok current, db))
    (hdistance : (if !current.2.2 then some 0
      else calculateDistance math current.1
        { Type_ := in_.Location.Type_, Coordinates := in_.Location.Coordinates }
        current.2.1) = some distance)
    (hreplace : replaceFirst
      { username := in_.Username, timestamp := some (TimestampCond.eq in_.Timestamp) }
      (storedRecord in_ distance) (db locationHistoryCollection) = some docs) :
    UpdateUserLocation math mongoClient in_ db = (.ok (), withHistory db docs) := by
  obtain ⟨currentLocation, currentDistance, ok⟩ := current
  simp only [UpdateUserLocation, hcurrent]
  simp only at hdistance
  rw [hdistance]
  simp only [mongoClient, MongoClient.SaveOrReplaceDocument]
  congr 1
  funext name
  by_cases hname : name = locationHistoryCollection
  · subst hname
    simp [withHistory, Collection.ReplaceOne, storedRecord] at hreplace ⊢
    rw [hreplace]
  · simp [withHistory, hname]

theorem withHistory_self {F : Type} (db : Database F) :
    withHistory db (db locationHistoryCollection) = db := by
  funext name
  by_cases hname : name = locationHistoryCollection <;> simp [withHistory, hname]

theorem withHistory_withHistory {F : Type} (db : Database F) (a b : List (LocationInfo F)) :
    withHistory (withHistory db a) b = withHistory db b := by
  funext name
  by_cases hname : name = locationHistoryCollection <;> simp [withHistory, hname]

theorem appendHistory_emptyDatabase {F : Type} (docs : List (LocationInfo F)) :
    appendHistory emptyDatabase docs = withHistory emptyDatabase docs := by
  funext name
  by_cases hname : name = locationHistoryCollection <;>
    simp [appendHistory, withHistory, emptyDatabase, hname]

/-- The history `antipodalHistory` is the one the ledger builds from `antipodalReports`. -/
theorem submitAll_antipodalReports :
    submitAll realMath mongoClient antipodalReports emptyDatabase =
      (.ok (), withHistory emptyDatabase antipodalHistory) := by
  have h := submitAll_ledgerFrom realMath "user6" antipodalReports [] emptyDatabase
    (by simp [antipodalReports]) (by simp [antipodalReports]) (by simp)
    (by simp [antipodalReports]) (by simp [emptyDatabase])
    (by rw [findCurrent_none "user6" emptyDatabase (by simp [emptyDatabase])]; rfl)
  rw [h, appendHistory_emptyDatabase]
  simp [antipodalReports, antipodalHistory, ledgerFrom, totalDistance, storedRecord,
    GreatCircleDistance_half_equator]

theorem UpdateUserLocation_first_point_aux {F : Type} [LinearOrderedField F] (math : Math F)
    (in_ : pb.LocationInfo F) (db : Database F)
    (hnone : ∀ p ∈ db locationHistoryCollection, p.Username ≠ in_.Username) :
    UpdateUserLocation math mongoClient in_ db =
      (.ok (), appendHistory db [storedRecord in_ 0]) :=
  UpdateUserLocation_append math in_ db ({ Type_ := "", Coordinates := [] }, 0, false) 0
    (findCurrent_none in_.Username db hnone) rfl
    (fun p hp hu => absurd hu (hnone p hp))

/-- The history `reorderedHistory` is the one `UpdateUserLocation` builds from
`reorderedReports`. -/
theorem submitAll_reorderedReports :
    submitAll realMath mongoClient reorderedReports emptyDatabase =
      (.ok (), withHistory emptyDatabase reorderedHistory) := by
  have h1 := UpdateUserLocation_first_point_aux realMath
    ({ Username := "user6", Location := { Type_ := "Point", Coordinates := [180, 0] },
       Distance := 0, Timestamp := 2000 } : pb.LocationInfo ℝ) emptyDatabase
    (by simp [emptyDatabase])
  have hcurrent := findCurrent_latest "user6"
    (appendHistory (emptyDatabase : Database ℝ)
      [{ Username := "user6", Location := { Type_ := "Point", Coordinates := [180, 0] },
         Distance := 0, Timestamp := 2000 }])
    { Username := "user6", Location := { Type_ := "Point", Coordinates := [180, 0] },
      Distance := 0, Timestamp := 2000 }
    (by simp [appendHistory, emptyDatabase]) rfl
    (by
      intro y hy _ hne
      simp only [appendHistory, emptyDatabase, if_true, List.nil_append,
        List.mem_singleton] at hy
      exact absurd hy hne)
  have h2 := UpdateUserLocation_append realMath
    ({ Username := "user6", Location := { Type_ := "Point", Coordinates := [0, 0] },
       Distance := 0, Timestamp := 1000 } : pb.LocationInfo ℝ)
    (appendHistory (emptyDatabase : Database ℝ)
      [{ Username := "user6", Location := { Type_ := "Point", Coordinates := [180, 0] },
         Distance := 0, Timestamp := 2000 }]) _ (6371 * 2 * (Real.pi / 2)) hcurrent
    (by
      simp only [Bool.not_true, Bool.false_eq_true, if_false]
      rw [calculateDistance_pairs realMath { Type_ := "Point", Coordinates := [180, 0] }
        { Type_ := "Point", Coordinates := [0, 0] } _ rfl rfl,
        GreatCircleDistance_half_equator_back, add_zero])
    (by simp [appendHistory, emptyDatabase])
  simp only [reorderedReports, submitAll, storedRecord] at h1 h2 ⊢
  rw [h1]
  simp only []
  rw [h2, appendHistory_append, appendHistory_emptyDatabase]
  simp [reorderedHistory]

end RealLemmas

/-! ## Range-distance query -/

section RangeQuery

variable {σ F : Type} [LinearOrderedField F]

/-- C1: for a window with start not after end, over the document store, when the user
has a point at or after start and a point at or before end, `calculateUserDistance`
returns exactly the total distance of a `lastBefore` point minus that of a `firstAfter`
point, unclamped and without error. -/
theorem calculateUserDistance_boundary_difference (timeParse : String → Except Error Time)
    (username start end_ : String) (parsedStart parsedEnd : Time) (db : Database F)
    (hstart : timeParse start = .ok parsedStart) (hend : timeParse end_ = .ok parsedEnd)
    (horder : parsedEnd.Before parsedStart = false)
    (hafter : ∃ p ∈ db locationHistoryCollection,
      p.Username = username ∧ parsedStart.UnixMilli ≤ p.Timestamp)
    (hbefore : ∃ p ∈ db locationHistoryCollection,
      p.Username = username ∧ p.Timestamp ≤ parsedEnd.UnixMilli) :
    ∃ firstAfter lastBefore,
      IsFirstAfter (db locationHistoryCollection) username parsedStart.UnixMilli firstAfter ∧
      IsLastBefore (db locationHistoryCollection) username parsedEnd.UnixMilli lastBefore ∧
      calculateUserDistance timeParse mongoClient username start end_ db =
        (.ok (lastBefore.Distance - firstAfter.Distance), db) := by
  rcases getFirstAfter_mongoClient username parsedStart.UnixMilli db with
    ⟨fa, hfa, hfirst⟩ | ⟨hnone, _⟩
  · rcases getLastBefore_mongoClient username parsedEnd.UnixMilli db with
      ⟨lb, hlb, hlast⟩ | ⟨hnone, _⟩
    · refine ⟨fa, lb, hfa, hlb, ?_⟩
      simp [calculateUserDistance, hstart, hend, horder, hfirst, hlast]
    · obtain ⟨p, hp, hu, hle⟩ := hbefore
      exact absurd hle (hnone p hp hu)
  · obtain ⟨p, hp, hu, hle⟩ := hafter
    exact absurd hle (hnone p hp hu)

/-- C1, at an instance: the example user, asked for the window from second 2 to
second 3. -/
theorem calculateUserDistance_boundary_difference_witness :
    ∃ firstAfter lastBefore,
      IsFirstAfter (exampleDatabase locationHistoryCollection) "user3"
        (Time.UnixMilli { unixNano := 2000000000 }) firstAfter ∧
      IsLastBefore (exampleDatabase locationHistoryCollection) "user3"
        (Time.UnixMilli { unixNano := 3000000000 }) lastBefore ∧
      calculateUserDistance exampleTimeParse mongoClient "user3" "1970-01-01T00:00:02+00:00"
          "1970-01-01T00:00:03+00:00" exampleDatabase =
        (.ok (lastBefore.Distance - firstAfter.Distance), exampleDatabase) :=
  calculateUserDistance_boundary_difference exampleTimeParse "user3"
    "1970-01-01T00:00:02+00:00" "1970-01-01T00:00:03+00:00"
    { unixNano := 2000000000 } { unixNano := 3000000000 } exampleDatabase
    (by simp [exampleTimeParse]) (by simp [exampleTimeParse]) (by decide)
    (by simp [exampleDatabase, exampleHistory, Time.UnixMilli])
    (by simp [exampleDatabase, exampleHistory, Time.UnixMilli])

/-- C2 as stated fails: with end before start and a store that cannot be reached, the
lookup for start is made first and its error is returned, not `0`. -/
theorem calculateUserDistance_end_before_start_unavailable :
    exampleTimeParse "1970-01-01T00:00:02+00:00" = .ok { unixNano := 2000000000 } ∧
    exampleTimeParse "1970-01-01T00:00:01+00:00" = .ok { unixNano := 1000000000 } ∧
    Time.Before { unixNano := 1000000000 } { unixNano := 2000000000 } = true ∧
    calculateUserDistance exampleTimeParse unavailableClient "user1"
        "1970-01-01T00:00:02+00:00" "1970-01-01T00:00:01+00:00" () =
      (.error "server selection timeout", ()) := by
  refine ⟨by simp [exampleTimeParse], by simp [exampleTimeParse], by decide, ?_⟩
  simp [calculateUserDistance, exampleTimeParse, getFirstAfter, getDate, unavailableClient]

/-- C2, amended: for every client and store state in which the lookup of the first point
at or after start succeeds, and well-formed timestamps with end strictly before start,
`calculateUserDistance` returns `0` and no error; no lookup for end is made, so it may
fail. -/
theorem calculateUserDistance_end_before_start (timeParse : String → Except Error Time)
    (client : DBClient σ F) (username start end_ : String) (parsedStart parsedEnd : Time)
    (st st1 : σ) (initialDistance : F)
    (hstart : timeParse start = .ok parsedStart) (hend : timeParse end_ = .ok parsedEnd)
    (horder : parsedEnd.Before parsedStart = true)
    (hlookup : getFirstAfter client username parsedStart.UnixMilli st =
      (.ok initialDistance, st1)) :
    calculateUserDistance timeParse client username start end_ st = (.ok 0, st1) := by
  simp [calculateUserDistance, hstart, hend, horder, hlookup]

/-- C2, amended, at an instance: the example user, start at second 2 and end at
second 1. -/
theorem calculateUserDistance_end_before_start_witness :
    calculateUserDistance exampleTimeParse mongoClient "user3" "1970-01-01T00:00:02+00:00"
      "1970-01-01T00:00:01+00:00" exampleDatabase = (.ok 0, exampleDatabase) :=
  calculateUserDistance_end_before_start exampleTimeParse mongoClient "user3"
    "1970-01-01T00:00:02+00:00" "1970-01-01T00:00:01+00:00"
    { unixNano := 2000000000 } { unixNano := 1000000000 } exampleDatabase exampleDatabase 7
    (by simp [exampleTimeParse]) (by simp [exampleTimeParse]) (by decide)
    (by
      rw [getFirstAfter, getDate_after]
      simp [exampleDatabase, exampleHistory, Time.UnixMilli, Filter.matches, sortAscending,
        headDistance])

/-- C3 fails on the code: after the two reports of `user6` have been recorded in order,
the user has no point at or after second 3, and for the window from second 3 to second 4
`calculateUserDistance` returns the total distance of the user's last point, half the
circumference of the sphere, not `0`. -/
theorem calculateUserDistance_window_after_all_points :
    submitAll realMath mongoClient antipodalReports emptyDatabase =
        (.ok (), withHistory emptyDatabase antipodalHistory) ∧
      (∀ p ∈ withHistory emptyDatabase antipodalHistory locationHistoryCollection,
        p.Username = "user6" → ¬ Time.UnixMilli { unixNano := 3000000000 } ≤ p.Timestamp) ∧
      calculateUserDistance exampleTimeParse mongoClient "user6" "1970-01-01T00:00:03+00:00"
          "1970-01-01T00:00:04+00:00" (withHistory emptyDatabase antipodalHistory) =
        (.ok (6371 * 2 * (Real.pi / 2)), withHistory emptyDatabase antipodalHistory) ∧
      (6371 * 2 * (Real.pi / 2) : ℝ) ≠ 0 := by
  refine ⟨submitAll_antipodalReports,
    by simp [withHistory, antipodalHistory, Time.UnixMilli], ?_, ?_⟩
  · simp [calculateUserDistance, exampleTimeParse, getFirstAfter, getLastBefore,
      getDate_after, getDate_before, withHistory, antipodalHistory, Time.UnixMilli,
      Time.Before, Filter.matches, sortAscending, sortDescending, headDistance]
  · have := Real.pi_pos
    positivity

/-- C4 fails on the code: after the report of second 2 and then the report of second 1
of `user6` have been recorded, the user has no point at or before second 0, and for the
window from second 0 to second 0 `calculateUserDistance` returns minus the total distance
of the user's earliest point, not `0`. -/
theorem calculateUserDistance_window_before_all_points :
    submitAll realMath mongoClient reorderedReports emptyDatabase =
        (.ok (), withHistory emptyDatabase reorderedHistory) ∧
      (∀ p ∈ withHistory emptyDatabase reorderedHistory locationHistoryCollection,
        p.Username = "user6" → ¬ p.Timestamp ≤ Time.UnixMilli { unixNano := 0 }) ∧
      calculateUserDistance exampleTimeParse mongoClient "user6" "1970-01-01T00:00:00+00:00"
          "1970-01-01T00:00:00+00:00" (withHistory emptyDatabase reorderedHistory) =
        (.ok (0 - 6371 * 2 * (Real.pi / 2)), withHistory emptyDatabase reorderedHistory) ∧
      (0 - 6371 * 2 * (Real.pi / 2) : ℝ) ≠ 0 := by
  refine ⟨submitAll_reorderedReports,
    by simp [withHistory, reorderedHistory, Time.UnixMilli], ?_, ?_⟩
  · simp [calculateUserDistance, exampleTimeParse, getFirstAfter, getLastBefore,
      getDate_after, getDate_before, withHistory, reorderedHistory, Time.UnixMilli,
      Time.Before, Filter.matches, sortAscending, sortDescending, headDistance]
  · have := Real.pi_pos
    rw [zero_sub, neg_ne_zero]
    positivity

/-- C5: for a user with no stored point and well-formed timestamps, over the document
store, `calculateUserDistance` returns `0` and no error. -/
theorem calculateUserDistance_no_points (timeParse : String → Except Error Time)
    (username start end_ : String) (parsedStart parsedEnd : Time) (db : Database F)
    (hstart : timeParse start = .ok parsedStart) (hend : timeParse end_ = .ok parsedEnd)
    (hnone : ∀ p ∈ db locationHistoryCollection, p.Username ≠ username) :
    calculateUserDistance timeParse mongoClient username start end_ db = (.ok 0, db) := by
  have hfirst : getFirstAfter mongoClient username parsedStart.UnixMilli db = (.ok 0, db) := by
    rcases getFirstAfter_mongoClient username parsedStart.UnixMilli db with
      ⟨p, hp, _⟩ | ⟨_, h⟩
    · exact absurd hp.2.1 (hnone p hp.1)
    · exact h
  have hlast : getLastBefore mongoClient username parsedEnd.UnixMilli db = (.ok 0, db) := by
    rcases getLastBefore_mongoClient username parsedEnd.UnixMilli db with
      ⟨p, hp, _⟩ | ⟨_, h⟩
    · exact absurd hp.2.1 (hnone p hp.1)
    · exact h
  cases horder : parsedEnd.Before parsedStart <;>
    simp [calculateUserDistance, hstart, hend, horder, hfirst, hlast]

/-- C5, at an instance: `user1`, who has no point in the example database, asked for the
window from second 1 to second 2. -/
theorem calculateUserDistance_no_points_witness :
    calculateUserDistance exampleTimeParse mongoClient "user1" "1970-01-01T00:00:01+00:00"
      "1970-01-01T00:00:02+00:00" exampleDatabase = (.ok 0, exampleDatabase) :=
  calculateUserDistance_no_points exampleTimeParse "user1" "1970-01-01T00:00:01+00:00"
    "1970-01-01T00:00:02+00:00" { unixNano := 1000000000 } { unixNano := 2000000000 }
    exampleDatabase (by simp [exampleTimeParse]) (by simp [exampleTimeParse])
    (by simp [exampleDatabase, exampleHistory])

end RangeQuery

/-! ## Cumulative-distance ledger -/

section Ledger

variable {F : Type} [LinearOrderedField F]

/-- C6: reports of one user, each with a (longitude, latitude) pair, submitted one at a
time through `UpdateUserLocation` in strictly increasing timestamp order into a history
without points of that user (over the reals and the document store): every call succeeds,
the record stored with each report carries the sum of the great-circle distances between
the consecutive reports up to it, and among the user's records the stored distance does
not decrease as the timestamp increases. -/
theorem UpdateUserLocation_in_order_ledger (username : String)
    (reports : List (pb.LocationInfo ℝ)) (db : Database ℝ)
    (hempty : ∀ p ∈ db locationHistoryCollection, p.Username ≠ username)
    (huser : ∀ r ∈ reports, r.Username = username)
    (hpair : ∀ r ∈ reports, r.Location.Coordinates.length = 2)
    (horder : reports.Pairwise (fun a b => a.Timestamp < b.Timestamp)) :
    submitAll realMath mongoClient reports db =
        (.ok (), appendHistory db (ledger realMath reports)) ∧
      (∀ earlier report later, reports = earlier ++ report :: later →
        storedRecord report (totalDistance realMath (earlier ++ [report])) ∈
          appendHistory db (ledger realMath reports) locationHistoryCollection) ∧
      (∀ p ∈ appendHistory db (ledger realMath reports) locationHistoryCollection,
        ∀ q ∈ appendHistory db (ledger realMath reports) locationHistoryCollection,
          p.Username = username → q.Username = username →
            p.Timestamp ≤ q.Timestamp → p.Distance ≤ q.Distance) := by
  refine ⟨?_, ?_, ?_⟩
  · exact submitAll_ledgerFrom realMath username reports [] db huser hpair
      (fun r hr => absurd hr (List.not_mem_nil r)) horder
      (fun p hp hu => absurd hu (hempty p hp))
      (by rw [findCurrent_none username db hempty]; rfl)
  · intro earlier report later hsplit
    have := ledgerFrom_mem realMath earlier [] report later
    simp only [appendHistory, if_true, List.mem_append, ledger, hsplit]
    right
    simpa using this
  · intro p hp q hq hpu hqu hle
    simp only [appendHistory, if_true, List.mem_append] at hp hq
    have hp2 : p ∈ ledger realMath reports := hp.resolve_left (fun h => hempty p h hpu)
    have hq2 : q ∈ ledger realMath reports := hq.resolve_left (fun h => hempty q h hqu)
    rcases pairwise_cases (ledgerFrom_pairwise reports [] horder) p hp2 q hq2 with
      rfl | h | h
    · exact le_refl _
    · exact h.2
    · exact absurd h.1 (not_lt.2 hle)

/-- C6, at an instance: the four reports of the test user `user3` submitted into the
empty database. -/
theorem UpdateUserLocation_in_order_ledger_witness :
    submitAll realMath mongoClient exampleReports emptyDatabase =
        (.ok (), appendHistory emptyDatabase (ledger realMath exampleReports)) ∧
      (∀ earlier report later, exampleReports = earlier ++ report :: later →
        storedRecord report (totalDistance realMath (earlier ++ [report])) ∈
          appendHistory emptyDatabase (ledger realMath exampleReports)
            locationHistoryCollection) ∧
      (∀ p ∈ appendHistory emptyDatabase (ledger realMath exampleReports)
          locationHistoryCollection,
        ∀ q ∈ appendHistory emptyDatabase (ledger realMath exampleReports)
            locationHistoryCollection,
          p.Username = "user3" → q.Username = "user3" →
            p.Timestamp ≤ q.Timestamp → p.Distance ≤ q.Distance) :=
  UpdateUserLocation_in_order_ledger "user3" exampleReports emptyDatabase
    (by simp [emptyDatabase]) (by simp [exampleReports]) (by simp [exampleReports])
    (by simp [exampleReports])

/-- C7: for a history built by submitting reports of one user, each with a (longitude,
latitude) pair, in strictly increasing timestamp order through `UpdateUserLocation`, and
every window that contains at least one of the reports, `calculateUserDistance` returns
the sum of the great-circle distances between the consecutive reports whose timestamps lie
in the window. -/
theorem calculateUserDistance_range_sum (math : Math F)
    (timeParse : String → Except Error Time) (username start end_ : String)
    (parsedStart parsedEnd : Time) (reports : List (pb.LocationInfo F)) (db : Database F)
    (hempty : ∀ p ∈ db locationHistoryCollection, p.Username ≠ username)
    (huser : ∀ r ∈ reports, r.Username = username)
    (hpair : ∀ r ∈ reports, r.Location.Coordinates.length = 2)
    (horder : reports.Pairwise (fun a b => a.Timestamp < b.Timestamp))
    (hstart : timeParse start = .ok parsedStart) (hend : timeParse end_ = .ok parsedEnd)
    (hwindow : ∃ r ∈ reports,
      parsedStart.UnixMilli ≤ r.Timestamp ∧ r.Timestamp ≤ parsedEnd.UnixMilli) :
    (submitAll math mongoClient reports db).1 = .ok () ∧
      calculateUserDistance timeParse mongoClient username start end_
          (submitAll math mongoClient reports db).2 =
        (.ok (totalDistance math
          (reports.filter (inWindow parsedStart.UnixMilli parsedEnd.UnixMilli))),
          (submitAll math mongoClient reports db).2) := by
  have hsubmit : submitAll math mongoClient reports db =
      (.ok (), appendHistory db (ledger math reports)) :=
    submitAll_ledgerFrom math username reports [] db huser hpair
      (fun r hr => absurd hr (List.not_mem_nil r)) horder
      (fun p hp hu => absurd hu (hempty p hp))
      (by rw [findCurrent_none username db hempty]; rfl)
  rw [hsubmit]
  exact ⟨rfl, calculateUserDistance_ledger_window math timeParse username start end_
    parsedStart parsedEnd reports db hempty huser horder hstart hend hwindow⟩

/-- C7, at an instance: Belgrade, Cuprija, Jagodina and Kragujevac reported in this
order, and a window covering the first two. -/
theorem calculateUserDistance_range_sum_witness :
    (submitAll realMath mongoClient exampleReports emptyDatabase).1 = .ok () ∧
      calculateUserDistance exampleTimeParse mongoClient "user3" "1970-01-01T00:00:00+00:00"
          "1970-01-01T00:00:02+00:00"
          (submitAll realMath mongoClient exampleReports emptyDatabase).2 =
        (.ok (totalDistance realMath
          (exampleReports.filter (inWindow (Time.UnixMilli { unixNano := 0 })
            (Time.UnixMilli { unixNano := 2000000000 })))),
          (submitAll realMath mongoClient exampleReports emptyDatabase).2) :=
  calculateUserDistance_range_sum realMath exampleTimeParse "user3"
    "1970-01-01T00:00:00+00:00" "1970-01-01T00:00:02+00:00"
    { unixNano := 0 } { unixNano := 2000000000 } exampleReports emptyDatabase
    (by simp [emptyDatabase]) (by simp [exampleReports]) (by simp [exampleReports])
    (by simp [exampleReports]) (by simp [exampleTimeParse]) (by simp [exampleTimeParse])
    (by simp [exampleReports, Time.UnixMilli])

/-- The window of the instance above holds the first two reports, and the sum over it is
the single hop from Belgrade to Cuprija. -/
theorem exampleReports_first_window :
    totalDistance realMath
        (exampleReports.filter (inWindow (Time.UnixMilli { unixNano := 0 })
          (Time.UnixMilli { unixNano := 2000000000 }))) =
      GreatCircleDistance realMath [20.2576593, 44.8154844] [21.3135146, 43.9322129] := by
  simp [exampleReports, inWindow, Time.UnixMilli, totalDistance]

/-- C9: for a user with no stored point, over the document store, `UpdateUserLocation`
succeeds and adds the record of the report with distance exactly `0`, whatever distance
the incoming message carries, and changes nothing else. -/
theorem UpdateUserLocation_first_point (math : Math F) (in_ : pb.LocationInfo F)
    (db : Database F)
    (hnone : ∀ p ∈ db locationHistoryCollection, p.Username ≠ in_.Username) :
    UpdateUserLocation math mongoClient in_ db =
      (.ok (), appendHistory db
        [{ Username := in_.Username
           Location := { Type_ := in_.Location.Type_, Coordinates := in_.Location.Coordinates }
           Distance := 0
           Timestamp := in_.Timestamp }]) :=
  UpdateUserLocation_append math in_ db ({ Type_ := "", Coordinates := [] }, 0, false) 0
    (findCurrent_none in_.Username db hnone) rfl
    (fun p hp hu => absurd hu (hnone p hp))

/-- C9, at an instance: a first report of `user1` whose message carries the distance 42,
submitted into the empty database. -/
theorem UpdateUserLocation_first_point_witness :
    UpdateUserLocation realMath mongoClient
        { Username := "user1"
          Location := { Type_ := "Point", Coordinates := [20.2576593, 44.8154844] }
          Distance := 42
          Timestamp := 1000 } emptyDatabase =
      (.ok (), appendHistory (emptyDatabase : Database ℝ)
        [{ Username := "user1"
           Location := { Type_ := "Point", Coordinates := [20.2576593, 44.8154844] }
           Distance := 0
           Timestamp := 1000 }]) :=
  UpdateUserLocation_first_point realMath
    { Username := "user1"
      Location := { Type_ := "Point", Coordinates := [20.2576593, 44.8154844] }
      Distance := 42
      Timestamp := 1000 } emptyDatabase (by simp [emptyDatabase])

/-- C10, amended: for every history state and every report with a (longitude, latitude)
pair whose record is in it and is the user's most recent point (every other point of the
user has a strictly smaller timestamp), calling `UpdateUserLocation` again with the
identical report succeeds and leaves the history, and so the distance stored for that
record, unchanged (over the reals and the document store). -/
theorem UpdateUserLocation_resubmit_latest (in_ : pb.LocationInfo ℝ) (db : Database ℝ)
    (x : LocationInfo ℝ) (hx : x ∈ db locationHistoryCollection)
    (hsame : x.Username = in_.Username ∧ x.Timestamp = in_.Timestamp ∧
      x.Location = { Type_ := in_.Location.Type_, Coordinates := in_.Location.Coordinates })
    (hpair : in_.Location.Coordinates.length = 2)
    (hlatest : ∀ y ∈ db locationHistoryCollection, y.Username = in_.Username → y ≠ x →
      y.Timestamp < x.Timestamp) :
    UpdateUserLocation realMath mongoClient in_ db = (.ok (), db) := by
  obtain ⟨hu, ht, hl⟩ := hsame
  have hcurrent := findCurrent_latest in_.Username db x hx hu hlatest
  have hrecord : storedRecord in_ x.Distance = x := by
    cases x
    simp only [storedRecord] at hu ht hl ⊢
    simp [hu, ht, hl]
  have hdistance : (if !(x.Location, x.Distance, true).2.2 then some 0
      else calculateDistance realMath (x.Location, x.Distance, true).1
        { Type_ := in_.Location.Type_, Coordinates := in_.Location.Coordinates }
        (x.Location, x.Distance, true).2.1) = some x.Distance := by
    obtain ⟨lon, lat, hc⟩ := List.length_eq_two.1 hpair
    simp only [Bool.not_true, Bool.false_eq_true, if_false]
    rw [calculateDistance_pairs realMath _ _ _ (by rw [hl]; exact hpair) hpair, hl]
    simp only [hc, GreatCircleDistance_self, zero_add]
  have hreplace := replaceFirst_same
    { username := in_.Username, timestamp := some (TimestampCond.eq in_.Timestamp) }
    x (db locationHistoryCollection) hx (by simp [Filter.matches, hu, ht])
    (by
      intro y hy hm
      simp only [Filter.matches, Bool.and_eq_true, decide_eq_true_eq] at hm
      by_contra hne
      have := hlatest y hy hm.1 hne
      omega)
  have := UpdateUserLocation_replace realMath in_ db (x.Location, x.Distance, true) x.Distance
    (db locationHistoryCollection) hcurrent hdistance (by rw [hrecord]; exact hreplace)
  rw [this, withHistory_self]

/-- C10 as stated fails: in the history that the two reports of `user6` leave, the
first report is recorded with distance `0`; submitting that identical report again takes
the later point as baseline and replaces the record by one whose distance is twice half
the circumference of the sphere, which is not `0`. -/
theorem UpdateUserLocation_resubmit_earlier :
    ({ Username := "user6", Location := { Type_ := "Point", Coordinates := [0, 0] },
       Distance := 0, Timestamp := 1000 } : LocationInfo ℝ) ∈
        withHistory emptyDatabase antipodalHistory locationHistoryCollection ∧
      UpdateUserLocation realMath mongoClient
          ({ Username := "user6", Location := { Type_ := "Point", Coordinates := [0, 0] },
             Distance := 0, Timestamp := 1000 } : pb.LocationInfo ℝ)
          (withHistory emptyDatabase antipodalHistory) =
        (.ok (), withHistory emptyDatabase antipodalResubmitted) ∧
      ({ Username := "user6", Location := { Type_ := "Point", Coordinates := [0, 0] },
         Distance := 6371 * 2 * (Real.pi / 2) + 6371 * 2 * (Real.pi / 2),
         Timestamp := 1000 } : LocationInfo ℝ) ∈
        withHistory emptyDatabase antipodalResubmitted locationHistoryCollection ∧
      (6371 * 2 * (Real.pi / 2) + 6371 * 2 * (Real.pi / 2) : ℝ) ≠ 0 := by
  refine ⟨by simp [withHistory, antipodalHistory], ?_,
    by simp [withHistory, antipodalResubmitted], ?_⟩
  · have hcurrent := findCurrent_latest "user6" (withHistory emptyDatabase antipodalHistory)
      { Username := "user6", Location := { Type_ := "Point", Coordinates := [180, 0] },
        Distance := 6371 * 2 * (Real.pi / 2), Timestamp := 2000 }
      (by simp [withHistory, antipodalHistory]) rfl
      (by
        intro y hy _ hne
        simp only [withHistory, antipodalHistory, if_true, List.mem_cons, List.mem_singleton,
          List.not_mem_nil, or_false] at hy
        rcases hy with rfl | rfl
        · simp
        · exact absurd rfl hne)
    have h := UpdateUserLocation_replace realMath
      ({ Username := "user6", Location := { Type_ := "Point", Coordinates := [0, 0] },
         Distance := 0, Timestamp := 1000 } : pb.LocationInfo ℝ)
      (withHistory emptyDatabase antipodalHistory) _
      (6371 * 2 * (Real.pi / 2) + 6371 * 2 * (Real.pi / 2))
      antipodalResubmitted
      hcurrent
      (by
        simp only [Bool.not_true, Bool.false_eq_true, if_false]
        rw [calculateDistance_pairs realMath { Type_ := "Point", Coordinates := [180, 0] }
          { Type_ := "Point", Coordinates := [0, 0] } _ rfl rfl,
          GreatCircleDistance_half_equator_back])
      (by simp [withHistory, antipodalHistory, antipodalResubmitted, replaceFirst,
        Filter.matches, storedRecord])
    rw [h, withHistory_withHistory]
  · have := Real.pi_pos
    positivity

/-- C10, amended, at an instance: the second, most recent report of `user6` submitted
again. -/
theorem UpdateUserLocation_resubmit_latest_witness :
    UpdateUserLocation realMath mongoClient
        ({ Username := "user6", Location := { Type_ := "Point", Coordinates := [180, 0] },
           Distance := 0, Timestamp := 2000 } : pb.LocationInfo ℝ)
        (withHistory emptyDatabase antipodalHistory) =
      (.ok (), withHistory emptyDatabase antipodalHistory) :=
  UpdateUserLocation_resubmit_latest
    { Username := "user6", Location := { Type_ := "Point", Coordinates := [180, 0] },
      Distance := 0, Timestamp := 2000 }
    (withHistory emptyDatabase antipodalHistory)
    { Username := "user6", Location := { Type_ := "Point", Coordinates := [180, 0] },
      Distance := 6371 * 2 * (Real.pi / 2), Timestamp := 2000 }
    (by simp [withHistory, antipodalHistory]) ⟨rfl, rfl, rfl⟩ rfl
    (by
      intro y hy _ hne
      simp only [withHistory, antipodalHistory, if_true, List.mem_cons, List.mem_singleton,
        List.not_mem_nil, or_false] at hy
      rcases hy with rfl | rfl
      · simp
      · exact absurd rfl hne)

/-- On a history that was not written by `UpdateUserLocation`, whose only point has no
coordinates and yet carries the total distance 5, `UpdateUserLocation` stores the new
record with distance `0`: `calculateDistance` returns `0` there, not the current total. -/
theorem UpdateUserLocation_coordinateless_prior :
    ({ Username := "user5", Location := { Type_ := "Point", Coordinates := [] },
       Distance := 5, Timestamp := 1000 } : LocationInfo ℝ) ∈
        withHistory emptyDatabase coordinatelessHistory locationHistoryCollection ∧
      UpdateUserLocation realMath mongoClient
          ({ Username := "user5",
             Location := { Type_ := "Point", Coordinates := [20.2576593, 44.8154844] },
             Distance := 0, Timestamp := 2000 } : pb.LocationInfo ℝ)
          (withHistory emptyDatabase coordinatelessHistory) =
        (.ok (), appendHistory (withHistory emptyDatabase coordinatelessHistory)
          [{ Username := "user5",
             Location := { Type_ := "Point", Coordinates := [20.2576593, 44.8154844] },
             Distance := 0, Timestamp := 2000 }]) ∧
      (5 : ℝ) + GreatCircleDistance realMath [] [20.2576593, 44.8154844] = 5 := by
  refine ⟨by simp [withHistory, coordinatelessHistory], ?_, by simp [GreatCircleDistance]⟩
  have hcurrent := findCurrent_latest "user5" (withHistory emptyDatabase coordinatelessHistory)
    { Username := "user5", Location := { Type_ := "Point", Coordinates := [] },
      Distance := 5, Timestamp := 1000 }
    (by simp [withHistory, coordinatelessHistory]) rfl
    (by
      intro y hy _ hne
      simp only [withHistory, coordinatelessHistory, if_true, List.mem_singleton] at hy
      exact absurd hy hne)
  exact UpdateUserLocation_append realMath
    ({ Username := "user5",
       Location := { Type_ := "Point", Coordinates := [20.2576593, 44.8154844] },
       Distance := 0, Timestamp := 2000 } : pb.LocationInfo ℝ)
    (withHistory emptyDatabase coordinatelessHistory) _ 0 hcurrent
    (by simp [calculateDistance])
    (by simp [withHistory, coordinatelessHistory])

end Ledger

section CallLemmas

variable {σ F : Type} [LinearOrderedField F]

theorem findCurrent_recordCalls (client : DBClient σ F) (username : String) (st : σ)
    (log : List (StoreCall F)) :
    findCurrent (recordCalls client) username (st, log) =
      ((findCurrent client username st).1, (findCurrent client username st).2,
        log ++ [currentQuery username]) := by
  simp only [findCurrent, recordCalls, currentQuery]
  rcases hfind : client.Find locationHistoryCollection { username := username, timestamp := none }
    (some { location := true, distance := true }) (some { timestamp := -1 }) 1 1 st with
    ⟨result, st1⟩
  cases result with
  | error err => rfl
  | ok cursor =>
    simp only
    cases hall : cursor.All with
    | error err => rfl
    | ok locations =>
      cases locations <;> rfl

/-- The run of `UpdateUserLocation` in terms of the lookup and the write it makes. -/
theorem UpdateUserLocation_run (math : Math F) (client : DBClient σ F)
    (in_ : pb.LocationInfo F) (st : σ) :
    (∃ err, (findCurrent client in_.Username st).1 = .error err ∧
        UpdateUserLocation math client in_ st =
          (.error (Fault.error err), (findCurrent client in_.Username st).2)) ∨
      (∃ current, (findCurrent client in_.Username st).1 = .ok current ∧
        nextDistance math current in_ = none ∧
        UpdateUserLocation math client in_ st =
          (.error (Fault.panic "index out of range"),
            (findCurrent client in_.Username st).2)) ∨
      (∃ current distance, (findCurrent client in_.Username st).1 = .ok current ∧
        nextDistance math current in_ = some distance ∧
        UpdateUserLocation math client in_ st =
          (saveOutcome (client.SaveOrReplaceDocument locationHistoryCollection
              (storedRecord in_ distance) (keyFilter in_)
              (findCurrent client in_.Username st).2).1,
            (client.SaveOrReplaceDocument locationHistoryCollection
              (storedRecord in_ distance) (keyFilter in_)
              (findCurrent client in_.Username st).2).2)) := by
  rcases hfound : findCurrent client in_.Username st with ⟨result, st1⟩
  cases result with
  | error err =>
    left
    exact ⟨err, rfl, by simp [UpdateUserLocation, hfound]⟩
  | ok current =>
    right
    obtain ⟨currentLocation, currentDistance, ok⟩ := current
    cases hdistance : nextDistance math (currentLocation, currentDistance, ok) in_ with
    | none =>
      left
      refine ⟨_, rfl, hdistance, ?_⟩
      simp only [nextDistance] at hdistance
      simp only [UpdateUserLocation, hfound, hdistance]
    | some distance =>
      right
      refine ⟨_, distance, rfl, hdistance, ?_⟩
      simp only [nextDistance] at hdistance
      simp only [UpdateUserLocation, hfound, hdistance, storedRecord, keyFilter]
      rcases client.SaveOrReplaceDocument locationHistoryCollection
        { Username := in_.Username,
          Location := { Type_ := in_.Location.Type_, Coordinates := in_.Location.Coordinates },
          Distance := distance, Timestamp := in_.Timestamp }
        { username := in_.Username, timestamp := some (TimestampCond.eq in_.Timestamp) } st1 with
        ⟨saved, st2⟩
      cases saved <;> rfl

/-- The run of `UpdateUserLocation` on a client that records its calls: the outcome and
the store are those of the run on the client itself, and the calls recorded are the one
lookup, followed by one write when a distance was computed. -/
theorem UpdateUserLocation_trace (math : Math F) (client : DBClient σ F)
    (in_ : pb.LocationInfo F) (st : σ) (log : List (StoreCall F)) :
    (∃ err, (findCurrent client in_.Username st).1 = .error err ∧
        UpdateUserLocation math (recordCalls client) in_ (st, log) =
          (.error (Fault.error err), (findCurrent client in_.Username st).2,
            log ++ [currentQuery in_.Username])) ∨
      (∃ current, (findCurrent client in_.Username st).1 = .ok current ∧
        nextDistance math current in_ = none ∧
        UpdateUserLocation math (recordCalls client) in_ (st, log) =
          (.error (Fault.panic "index out of range"),
            (findCurrent client in_.Username st).2, log ++ [currentQuery in_.Username])) ∨
      (∃ current distance, (findCurrent client in_.Username st).1 = .ok current ∧
        nextDistance math current in_ = some distance ∧
        UpdateUserLocation math (recordCalls client) in_ (st, log) =
          (saveOutcome (client.SaveOrReplaceDocument locationHistoryCollection
              (storedRecord in_ distance) (keyFilter in_)
              (findCurrent client in_.Username st).2).1,
            (client.SaveOrReplaceDocument locationHistoryCollection
              (storedRecord in_ distance) (keyFilter in_)
              (findCurrent client in_.Username st).2).2,
            log ++ [currentQuery in_.Username,
              StoreCall.SaveOrReplaceDocument locationHistoryCollection
                (storedRecord in_ distance) (keyFilter in_)])) := by
  have h := UpdateUserLocation_run math (recordCalls client) in_ (st, log)
  rw [findCurrent_recordCalls] at h
  rcases h with ⟨err, herr, hrun⟩ | ⟨current, hcur, hnone, hrun⟩ |
    ⟨current, distance, hcur, hsome, hrun⟩
  · exact Or.inl ⟨err, herr, hrun⟩
  · exact Or.inr (Or.inl ⟨current, hcur, hnone, hrun⟩)
  · refine Or.inr (Or.inr ⟨current, distance, hcur, hsome, ?_⟩)
    rw [hrun]
    simp [recordCalls]

theorem findCurrent_state (client : DBClient σ F) (username : String) (st : σ) :
    (findCurrent client username st).2 =
      (client.Find locationHistoryCollection { username := username, timestamp := none }
        (some { location := true, distance := true }) (some { timestamp := -1 }) 1 1 st).2 := by
  simp only [findCurrent]
  rcases client.Find locationHistoryCollection { username := username, timestamp := none }
    (some { location := true, distance := true }) (some { timestamp := -1 }) 1 1 st with
    ⟨result, st1⟩
  cases result with
  | error err => rfl
  | ok cursor =>
    simp only
    cases cursor.All with
    | error err => rfl
    | ok locations => cases locations <;> rfl

/-- C13: `UpdateUserLocation` propagates storage failures unchanged and without retry.
On every client and store state the run on the recording client has the outcome and
leaves the store of the run on the client itself, and it makes exactly one lookup and at
most one write; when the lookup fails, in the query or in reading its cursor, that error
is returned, no write is made and the store is as the lookup left it; when the write
fails, that error is returned. -/
theorem UpdateUserLocation_storage_failures (math : Math F) (client : DBClient σ F)
    (in_ : pb.LocationInfo F) (st : σ) :
    ((UpdateUserLocation math (recordCalls client) in_ (st, [])).1 =
        (UpdateUserLocation math client in_ st).1 ∧
      (UpdateUserLocation math (recordCalls client) in_ (st, [])).2.1 =
        (UpdateUserLocation math client in_ st).2) ∧
    ((UpdateUserLocation math (recordCalls client) in_ (st, [])).2.2 =
        [currentQuery in_.Username] ∨
      ∃ distance, (UpdateUserLocation math (recordCalls client) in_ (st, [])).2.2 =
        [currentQuery in_.Username,
          StoreCall.SaveOrReplaceDocument locationHistoryCollection
            (storedRecord in_ distance) (keyFilter in_)]) ∧
    (∀ err st1,
      client.Find locationHistoryCollection { username := in_.Username, timestamp := none }
        (some { location := true, distance := true }) (some { timestamp := -1 }) 1 1 st =
        (.error err, st1) →
      UpdateUserLocation math (recordCalls client) in_ (st, []) =
        (.error (Fault.error err), st1, [currentQuery in_.Username])) ∧
    (∀ cursor err st1,
      client.Find locationHistoryCollection { username := in_.Username, timestamp := none }
        (some { location := true, distance := true }) (some { timestamp := -1 }) 1 1 st =
        (.ok cursor, st1) →
      cursor.All = .error err →
      UpdateUserLocation math (recordCalls client) in_ (st, []) =
        (.error (Fault.error err), st1, [currentQuery in_.Username])) ∧
    (∀ document filter err,
      StoreCall.SaveOrReplaceDocument locationHistoryCollection document filter ∈
        (UpdateUserLocation math (recordCalls client) in_ (st, [])).2.2 →
      (client.SaveOrReplaceDocument locationHistoryCollection document filter
        (client.Find locationHistoryCollection { username := in_.Username, timestamp := none }
          (some { location := true, distance := true }) (some { timestamp := -1 }) 1 1
          st).2).1 = some err →
      (UpdateUserLocation math (recordCalls client) in_ (st, [])).1 =
        .error (Fault.error err)) := by
  have hstate := findCurrent_state client in_.Username st
  have hplain := UpdateUserLocation_run math client in_ st
  have htrace := UpdateUserLocation_trace math client in_ st []
  refine ⟨?_, ?_, ?_, ?_, ?_⟩
  · rcases htrace with ⟨err, herr, hrun⟩ | ⟨current, hcur, hnone, hrun⟩ |
      ⟨current, distance, hcur, hsome, hrun⟩
    · rcases hplain with ⟨err2, herr2, hrun2⟩ | ⟨current2, hcur2, _, _⟩ |
        ⟨current2, distance2, hcur2, _, _⟩
      · rw [herr] at herr2
        cases herr2
        rw [hrun, hrun2]
        exact ⟨rfl, rfl⟩
      · rw [herr] at hcur2; cases hcur2
      · rw [herr] at hcur2; cases hcur2
    · rcases hplain with ⟨err2, herr2, _⟩ | ⟨current2, hcur2, _, hrun2⟩ |
        ⟨current2, distance2, hcur2, hsome2, _⟩
      · rw [hcur] at herr2; cases herr2
      · rw [hrun, hrun2]
        exact ⟨rfl, rfl⟩
      · rw [hcur] at hcur2
        cases hcur2
        rw [hnone] at hsome2
        cases hsome2
    · rcases hplain with ⟨err2, herr2, _⟩ | ⟨current2, hcur2, hnone2, _⟩ |
        ⟨current2, distance2, hcur2, hsome2, hrun2⟩
      · rw [hcur] at herr2; cases herr2
      · rw [hcur] at hcur2
        cases hcur2
        rw [hsome] at hnone2
        cases hnone2
      · rw [hcur] at hcur2
        cases hcur2
        rw [hsome] at hsome2
        cases hsome2
        rw [hrun, hrun2]
        exact ⟨rfl, rfl⟩
  · rcases htrace with ⟨err, _, hrun⟩ | ⟨current, _, _, hrun⟩ |
      ⟨current, distance, _, _, hrun⟩
    · left; rw [hrun]; rfl
    · left; rw [hrun]; rfl
    · right; exact ⟨distance, by rw [hrun]; rfl⟩
  · intro err st1 hfind
    have hfound : findCurrent client in_.Username st = (.error err, st1) := by
      simp [findCurrent, hfind]
    rcases htrace with ⟨err2, herr2, hrun⟩ | ⟨current, hcur, _, _⟩ |
      ⟨current, distance, hcur, _, _⟩
    · rw [hfound] at herr2 hrun
      cases herr2
      exact hrun
    · rw [hfound] at hcur; cases hcur
    · rw [hfound] at hcur; cases hcur
  · intro cursor err st1 hfind hall
    have hfound : findCurrent client in_.Username st = (.error err, st1) := by
      simp [findCurrent, hfind, hall]
    rcases htrace with ⟨err2, herr2, hrun⟩ | ⟨current, hcur, _, _⟩ |
      ⟨current, distance, hcur, _, _⟩
    · rw [hfound] at herr2 hrun
      cases herr2
      exact hrun
    · rw [hfound] at hcur; cases hcur
    · rw [hfound] at hcur; cases hcur
  · intro document filter err hmem hsave
    rw [← hstate] at hsave
    rcases htrace with ⟨err2, _, hrun⟩ | ⟨current, _, _, hrun⟩ |
      ⟨current, distance, _, _, hrun⟩
    · rw [hrun] at hmem
      simp [currentQuery] at hmem
    · rw [hrun] at hmem
      simp [currentQuery] at hmem
    · rw [hrun] at hmem ⊢
      simp only [List.nil_append, List.mem_cons, List.mem_singleton, List.not_mem_nil,
        or_false, currentQuery, StoreCall.SaveOrReplaceDocument.injEq, false_or,
        true_and] at hmem
      rcases hmem with hfalse | ⟨hdoc, hfilter⟩
      · cases hfalse
      · subst hdoc hfilter
        simp only [hsave, saveOutcome]

end CallLemmas

section UpsertLemmas

variable {F : Type} [LinearOrderedField F]

theorem replaceFirst_filter (filter : Filter) (document : LocationInfo F)
    (hdocument : filter.matches document = true) :
    ∀ docs : List (LocationInfo F),
      (replaceFirst filter document docs = none →
        docs.filter (fun d => filter.matches d) = []) ∧
      ∀ replaced, replaceFirst filter document docs = some replaced →
        replaced.filter (fun d => filter.matches d) =
            document :: (docs.filter (fun d => filter.matches d)).tail ∧
          replaced.filter (fun d => !filter.matches d) =
            docs.filter (fun d => !filter.matches d) ∧
          replaced.length = docs.length
  | [] => by simp [replaceFirst]
  | d :: rest => by
    have ih := replaceFirst_filter filter document hdocument rest
    by_cases hd : filter.matches d = true
    · simp [replaceFirst, hd, hdocument]
    · simp only [Bool.not_eq_true] at hd
      cases hrest : replaceFirst filter document rest with
      | none =>
        simp [replaceFirst, hd, hrest, ih.1 hrest]
      | some replaced =>
        obtain ⟨h1, h2, h3⟩ := ih.2 replaced hrest
        simp [replaceFirst, hd, hrest, h1, h2, h3]

theorem ReplaceOne_upsert (filter : Filter) (document : LocationInfo F)
    (hdocument : filter.matches document = true) (docs : List (LocationInfo F)) :
    (Collection.ReplaceOne docs filter document true).filter (fun d => filter.matches d) =
        document :: (docs.filter (fun d => filter.matches d)).tail ∧
      (Collection.ReplaceOne docs filter document true).filter (fun d => !filter.matches d) =
        docs.filter (fun d => !filter.matches d) ∧
      (Collection.ReplaceOne docs filter document true).length =
        if docs.filter (fun d => filter.matches d) = [] then docs.length + 1
        else docs.length := by
  have h := replaceFirst_filter filter document hdocument docs
  cases hreplace : replaceFirst filter document docs with
  | none =>
    have hnil := h.1 hreplace
    simp [Collection.ReplaceOne, hreplace, hnil, hdocument, List.filter_append]
  | some replaced =>
    obtain ⟨h1, h2, h3⟩ := h.2 replaced hreplace
    have hne : docs.filter (fun d => filter.matches d) ≠ [] := by
      intro hnil
      have hlen : (replaced.filter (fun d => filter.matches d)).length = 1 := by
        rw [h1, hnil]; rfl
      have hsub : (replaced.filter (fun d => filter.matches d)).length +
          (replaced.filter (fun d => !filter.matches d)).length = replaced.length :=
        (@List.length_eq_length_filter_add _ replaced (fun d => filter.matches d)).symm
      have hsub2 : (docs.filter (fun d => filter.matches d)).length +
          (docs.filter (fun d => !filter.matches d)).length = docs.length :=
        (@List.length_eq_length_filter_add _ docs (fun d => filter.matches d)).symm
      rw [hnil] at hsub2
      rw [h2, hlen] at hsub
      simp only [List.length_nil] at hsub2
      omega
    simp [Collection.ReplaceOne, hreplace, h1, h2, h3, hne]

theorem keyFilter_matches_storedRecord (report : pb.LocationInfo F) (distance : F) :
    (keyFilter report).matches (storedRecord report distance) = true := by
  simp [keyFilter, Filter.matches, storedRecord]

/-- On the document store the run of `UpdateUserLocation` never fails in the store: it
ends in the panic of `calculateDistance`, or it writes the record of the report under its
key. -/
theorem UpdateUserLocation_mongoClient (math : Math F) (in_ : pb.LocationInfo F)
    (db : Database F) :
    (nextDistance math (headCurrent (sortDescending ((db locationHistoryCollection).filter
        (fun d => Filter.matches { username := in_.Username, timestamp := none } d)))) in_ =
          none ∧
      UpdateUserLocation math mongoClient in_ db =
        (.error (Fault.panic "index out of range"), db) ∧
      UpdateUserLocation math (recordCalls mongoClient) in_ (db, []) =
        (.error (Fault.panic "index out of range"), db, [currentQuery in_.Username])) ∨
    ∃ distance,
      nextDistance math (headCurrent (sortDescending ((db locationHistoryCollection).filter
        (fun d => Filter.matches { username := in_.Username, timestamp := none } d)))) in_ =
          some distance ∧
      UpdateUserLocation math mongoClient in_ db =
        (.ok (), (MongoClient.SaveOrReplaceDocument locationHistoryCollection
          (storedRecord in_ distance) (keyFilter in_) db).2) ∧
      UpdateUserLocation math (recordCalls mongoClient) in_ (db, []) =
        (.ok (), (MongoClient.SaveOrReplaceDocument locationHistoryCollection
          (storedRecord in_ distance) (keyFilter in_) db).2,
          [currentQuery in_.Username,
            StoreCall.SaveOrReplaceDocument locationHistoryCollection
              (storedRecord in_ distance) (keyFilter in_)]) := by
  have hfound := findCurrent_mongoClient_eq in_.Username db
  have hplain := UpdateUserLocation_run math mongoClient in_ db
  have htrace := UpdateUserLocation_trace math mongoClient in_ db []
  rw [hfound] at hplain htrace
  rcases hplain with ⟨err, herr, _⟩ | ⟨current, hcur, hnone, hrun⟩ |
    ⟨current, distance, hcur, hsome, hrun⟩
  · cases herr
  · rcases htrace with ⟨err, herr, _⟩ | ⟨current2, hcur2, _, hrun2⟩ |
      ⟨current2, distance2, hcur2, hsome2, _⟩
    · cases herr
    · cases hcur
      exact Or.inl ⟨hnone, hrun, hrun2⟩
    · cases hcur
      cases hcur2
      rw [hnone] at hsome2
      cases hsome2
  · rcases htrace with ⟨err, herr, _⟩ | ⟨current2, hcur2, hnone2, _⟩ |
      ⟨current2, distance2, hcur2, hsome2, hrun2⟩
    · cases herr
    · cases hcur
      cases hcur2
      rw [hsome] at hnone2
      cases hnone2
    · cases hcur
      cases hcur2
      rw [hsome] at hsome2
      cases hsome2
      refine Or.inr ⟨distance, hsome, ?_, ?_⟩
      · rw [hrun]; rfl
      · rw [hrun2]; rfl

/-- C11: every successful `UpdateUserLocation` call on the document store performs
exactly one upsert, keyed by username and timestamp. When the history holds at most one
record under that key, afterwards it holds exactly one, the record of the report
(submitted username, location and timestamp); the records under every other key are
unchanged; the history grows by one record when there was none under the key and keeps
its length otherwise; and no other collection changes. -/
theorem UpdateUserLocation_one_upsert (math : Math F) (in_ : pb.LocationInfo F)
    (db : Database F)
    (hok : (UpdateUserLocation math mongoClient in_ db).1 = .ok ())
    (hkey : ((db locationHistoryCollection).filter
      (fun d => (keyFilter in_).matches d)).length ≤ 1) :
    ∃ distance,
      UpdateUserLocation math (recordCalls mongoClient) in_ (db, []) =
        (.ok (), (UpdateUserLocation math mongoClient in_ db).2,
          [currentQuery in_.Username,
            StoreCall.SaveOrReplaceDocument locationHistoryCollection
              (storedRecord in_ distance) (keyFilter in_)]) ∧
      ((UpdateUserLocation math mongoClient in_ db).2 locationHistoryCollection).filter
          (fun d => (keyFilter in_).matches d) = [storedRecord in_ distance] ∧
      ((UpdateUserLocation math mongoClient in_ db).2 locationHistoryCollection).filter
          (fun d => !(keyFilter in_).matches d) =
        (db locationHistoryCollection).filter (fun d => !(keyFilter in_).matches d) ∧
      ((UpdateUserLocation math mongoClient in_ db).2 locationHistoryCollection).length =
        (if (db locationHistoryCollection).filter (fun d => (keyFilter in_).matches d) = []
          then (db locationHistoryCollection).length + 1
          else (db locationHistoryCollection).length) ∧
      ∀ name, name ≠ locationHistoryCollection →
        (UpdateUserLocation math mongoClient in_ db).2 name = db name := by
  rcases UpdateUserLocation_mongoClient math in_ db with ⟨_, hrun, _⟩ |
    ⟨distance, _, hrun, hrun2⟩
  · rw [hrun] at hok
    cases hok
  · obtain ⟨h1, h2, h3⟩ := ReplaceOne_upsert (keyFilter in_) (storedRecord in_ distance)
      (keyFilter_matches_storedRecord in_ distance) (db locationHistoryCollection)
    have htail : ((db locationHistoryCollection).filter
        (fun d => (keyFilter in_).matches d)).tail = [] := by
      cases hlist : (db locationHistoryCollection).filter
          (fun d => (keyFilter in_).matches d) with
      | nil => rfl
      | cons x rest =>
        rw [hlist] at hkey
        cases rest with
        | nil => rfl
        | cons y rest2 => simp at hkey
    rw [htail] at h1
    refine ⟨distance, by rw [hrun2, hrun], ?_, ?_, ?_, ?_⟩
    · rw [hrun]
      simpa [MongoClient.SaveOrReplaceDocument] using h1
    · rw [hrun]
      simpa [MongoClient.SaveOrReplaceDocument] using h2
    · rw [hrun]
      simpa [MongoClient.SaveOrReplaceDocument] using h3
    · intro name hname
      rw [hrun]
      simp [MongoClient.SaveOrReplaceDocument, hname]

/-- What `findCurrent` reads on the document store: a point of the user with the
greatest timestamp, or nothing when the user has no point. -/
theorem headCurrent_latest (username : String) (docs : List (LocationInfo F)) :
    (∃ p, IsLatest docs username p ∧
        headCurrent (sortDescending (docs.filter
          (fun d => Filter.matches { username := username, timestamp := none } d))) =
            (p.Location, p.Distance, true)) ∨
      ((∀ p ∈ docs, p.Username ≠ username) ∧
        headCurrent (sortDescending (docs.filter
          (fun d => Filter.matches { username := username, timestamp := none } d))) =
            ({ Type_ := "", Coordinates := [] }, 0, false)) := by
  have h := head_sortDescending (docs.filter
    (fun d => Filter.matches { username := username, timestamp := none } d))
  unfold headCurrent
  cases hd : (sortDescending (docs.filter
    (fun d => Filter.matches { username := username, timestamp := none } d))).head? with
  | none =>
    right
    refine ⟨fun p hp hu => ?_, rfl⟩
    have : p ∈ docs.filter
        (fun d => Filter.matches { username := username, timestamp := none } d) := by
      simp [List.mem_filter, Filter.matches, hp, hu]
    rw [h.1 hd] at this
    exact List.not_mem_nil _ this
  | some x =>
    left
    obtain ⟨hx, hmax⟩ := h.2 x hd
    simp only [List.mem_filter, Filter.matches, Bool.and_true, decide_eq_true_eq] at hx
    refine ⟨x, ⟨hx.1, hx.2, fun q hq hu => hmax q ?_⟩, rfl⟩
    simp [List.mem_filter, Filter.matches, hq, hu]

/-- With a prior point, and coordinate pairs on the user's points and on the report, the
record written carries the total distance of a point with the greatest timestamp plus the
great-circle distance from it. -/
theorem UpdateUserLocation_latest (math : Math F) (in_ : pb.LocationInfo F)
    (db : Database F)
    (hsome : ∃ p ∈ db locationHistoryCollection, p.Username = in_.Username)
    (hpairs : ∀ p ∈ db locationHistoryCollection, p.Username = in_.Username →
      p.Location.Coordinates.length = 2)
    (hpair : in_.Location.Coordinates.length = 2) :
    ∃ latest, IsLatest (db locationHistoryCollection) in_.Username latest ∧
      UpdateUserLocation math mongoClient in_ db =
        (.ok (), (MongoClient.SaveOrReplaceDocument locationHistoryCollection
          (storedRecord in_ (latest.Distance +
            GreatCircleDistance math latest.Location.Coordinates in_.Location.Coordinates))
          (keyFilter in_) db).2) := by
  rcases headCurrent_latest in_.Username (db locationHistoryCollection) with
    ⟨latest, hlatest, hhead⟩ | ⟨hnone, _⟩
  swap
  · obtain ⟨p, hp, hu⟩ := hsome
    exact absurd hu (hnone p hp)
  refine ⟨latest, hlatest, ?_⟩
  have hdistance : nextDistance math (latest.Location, latest.Distance, true) in_ =
      some (latest.Distance +
        GreatCircleDistance math latest.Location.Coordinates in_.Location.Coordinates) := by
    simp only [nextDistance, Bool.not_true, Bool.false_eq_true, if_false]
    rw [calculateDistance_pairs math _ _ _ (hpairs latest hlatest.1 hlatest.2.1) hpair,
      add_comm]
  rcases UpdateUserLocation_mongoClient math in_ db with ⟨hnone, _⟩ |
    ⟨distance, hd, hrun, _⟩
  · rw [hhead, hdistance] at hnone
    cases hnone
  · rw [hhead, hdistance] at hd
    cases hd
    exact hrun

/-- C11, at an instance: the first report of `user6` submitted again into the history
that the two reports of `user6` leave. -/
theorem UpdateUserLocation_one_upsert_witness :
    ∃ distance,
      UpdateUserLocation realMath (recordCalls mongoClient) firstAntipodalReport
          (withHistory emptyDatabase antipodalHistory, []) =
        (.ok (), (UpdateUserLocation realMath mongoClient firstAntipodalReport
            (withHistory emptyDatabase antipodalHistory)).2,
          [currentQuery firstAntipodalReport.Username,
            StoreCall.SaveOrReplaceDocument locationHistoryCollection
              (storedRecord firstAntipodalReport distance) (keyFilter firstAntipodalReport)]) ∧
      ((UpdateUserLocation realMath mongoClient firstAntipodalReport
          (withHistory emptyDatabase antipodalHistory)).2 locationHistoryCollection).filter
          (fun d => (keyFilter firstAntipodalReport).matches d) =
        [storedRecord firstAntipodalReport distance] ∧
      ((UpdateUserLocation realMath mongoClient firstAntipodalReport
          (withHistory emptyDatabase antipodalHistory)).2 locationHistoryCollection).filter
          (fun d => !(keyFilter firstAntipodalReport).matches d) =
        (withHistory emptyDatabase antipodalHistory locationHistoryCollection).filter
          (fun d => !(keyFilter firstAntipodalReport).matches d) ∧
      ((UpdateUserLocation realMath mongoClient firstAntipodalReport
          (withHistory emptyDatabase antipodalHistory)).2 locationHistoryCollection).length =
        (if (withHistory emptyDatabase antipodalHistory locationHistoryCollection).filter
            (fun d => (keyFilter firstAntipodalReport).matches d) = []
          then (withHistory emptyDatabase antipodalHistory locationHistoryCollection).length + 1
          else (withHistory emptyDatabase antipodalHistory locationHistoryCollection).length) ∧
      ∀ name, name ≠ locationHistoryCollection →
        (UpdateUserLocation realMath mongoClient firstAntipodalReport
          (withHistory emptyDatabase antipodalHistory)).2 name =
          withHistory emptyDatabase antipodalHistory name :=
  UpdateUserLocation_one_upsert realMath firstAntipodalReport
    (withHistory emptyDatabase antipodalHistory)
    (by
      obtain ⟨latest, _, hrun⟩ := UpdateUserLocation_latest realMath firstAntipodalReport
        (withHistory emptyDatabase antipodalHistory)
        (by simp [withHistory, antipodalHistory, firstAntipodalReport])
        (by simp [withHistory, antipodalHistory, firstAntipodalReport])
        (by simp [firstAntipodalReport])
      rw [hrun])
    (by simp [withHistory, antipodalHistory, firstAntipodalReport, keyFilter, Filter.matches])

/-- C12: for every `UpdateUserLocation` call on the document store with a prior point of
the user, whatever the timestamp of the new report (coordinate pairs on the user's points
and on the report): the record is written with the total distance of a point of the user
with the greatest timestamp plus the great-circle distance from that point to the new
one. -/
theorem UpdateUserLocation_baseline_is_latest (math : Math F) (in_ : pb.LocationInfo F)
    (db : Database F)
    (hsome : ∃ p ∈ db locationHistoryCollection, p.Username = in_.Username)
    (hpairs : ∀ p ∈ db locationHistoryCollection, p.Username = in_.Username →
      p.Location.Coordinates.length = 2)
    (hpair : in_.Location.Coordinates.length = 2) :
    ∃ latest, IsLatest (db locationHistoryCollection) in_.Username latest ∧
      UpdateUserLocation math mongoClient in_ db =
        (.ok (), (MongoClient.SaveOrReplaceDocument locationHistoryCollection
          (storedRecord in_ (latest.Distance +
            GreatCircleDistance math latest.Location.Coordinates in_.Location.Coordinates))
          (keyFilter in_) db).2) :=
  UpdateUserLocation_latest math in_ db hsome hpairs hpair

/-- C12, at an instance: the late report of `user6`, whose timestamp lies between those
of the two recorded points. -/
theorem UpdateUserLocation_baseline_is_latest_witness :
    ∃ latest, IsLatest (withHistory emptyDatabase antipodalHistory locationHistoryCollection)
        lateReport.Username latest ∧
      UpdateUserLocation realMath mongoClient lateReport
          (withHistory emptyDatabase antipodalHistory) =
        (.ok (), (MongoClient.SaveOrReplaceDocument locationHistoryCollection
          (storedRecord lateReport (latest.Distance +
            GreatCircleDistance realMath latest.Location.Coordinates
              lateReport.Location.Coordinates))
          (keyFilter lateReport) (withHistory emptyDatabase antipodalHistory)).2) :=
  UpdateUserLocation_baseline_is_latest realMath lateReport
    (withHistory emptyDatabase antipodalHistory)
    (by simp [withHistory, antipodalHistory, lateReport])
    (by simp [withHistory, antipodalHistory, lateReport])
    (by simp [lateReport])

/-- C14: for every end location and every current distance, `calculateDistance` returns
`0` when the start location has no coordinates. -/
theorem calculateDistance_without_start_coordinates (math : Math F) (start end_ : Location F)
    (currentDistance : F) (hstart : start.Coordinates = []) :
    calculateDistance math start end_ currentDistance = some 0 := by
  simp [calculateDistance, hstart]

/-- C14, at an instance: a start without coordinates, Belgrade as end and a current
distance of 5. -/
theorem calculateDistance_without_start_coordinates_witness :
    calculateDistance realMath { Type_ := "Point", Coordinates := [] }
      { Type_ := "Point", Coordinates := [20.2576593, 44.8154844] } 5 = some 0 :=
  calculateDistance_without_start_coordinates realMath { Type_ := "Point", Coordinates := [] }
    { Type_ := "Point", Coordinates := [20.2576593, 44.8154844] } 5 rfl

/-- C15 fails on the code: `calculateDistance` panics with an index out of range for a
start with exactly one coordinate and for an end with one coordinate after a start with
two, and `UpdateUserLocation` fails on the document store, which never fails: after a
first report with one coordinate has been recorded, the second report ends in that
panic. -/
theorem calculateDistance_index_out_of_range :
    calculateDistance realMath { Type_ := "Point", Coordinates := [20.2576593] }
        { Type_ := "Point", Coordinates := [21.3135146, 43.9322129] } 0 = none ∧
      calculateDistance realMath { Type_ := "Point", Coordinates := [20.2576593, 44.8154844] }
        { Type_ := "Point", Coordinates := [21.3135146] } 0 = none ∧
      submitAll realMath mongoClient oneCoordinateReports emptyDatabase =
        (.error (Fault.panic "index out of range"),
          appendHistory (emptyDatabase : Database ℝ)
            [{ Username := "user7",
               Location := { Type_ := "Point", Coordinates := [20.2576593] },
               Distance := 0, Timestamp := 1000 }]) := by
  refine ⟨by simp [calculateDistance], by simp [calculateDistance], ?_⟩
  have h1 := UpdateUserLocation_first_point_aux realMath
    ({ Username := "user7", Location := { Type_ := "Point", Coordinates := [20.2576593] },
       Distance := 0, Timestamp := 1000 } : pb.LocationInfo ℝ) emptyDatabase
    (by simp [emptyDatabase])
  simp only [oneCoordinateReports, submitAll, storedRecord] at h1 ⊢
  rw [h1]
  simp only []
  rcases UpdateUserLocation_mongoClient realMath
    ({ Username := "user7",
       Location := { Type_ := "Point", Coordinates := [21.3135146, 43.9322129] },
       Distance := 0, Timestamp := 2000 } : pb.LocationInfo ℝ)
    (appendHistory (emptyDatabase : Database ℝ)
      [{ Username := "user7", Location := { Type_ := "Point", Coordinates := [20.2576593] },
         Distance := 0, Timestamp := 1000 }]) with ⟨_, hrun, _⟩ | ⟨distance, hd, _, _⟩
  · rw [hrun]
  · simp [nextDistance, headCurrent, sortDescending, appendHistory, emptyDatabase,
      Filter.matches, calculateDistance] at hd

end UpsertLemmas
section SignLemmas

theorem ledger_distance_nonneg (reports : List (pb.LocationInfo ℝ)) (p : LocationInfo ℝ)
    (hp : p ∈ ledger realMath reports) : 0 ≤ p.Distance := by
  obtain ⟨before, report, after, _, hp2⟩ := mem_ledgerFrom realMath p reports [] hp
  rw [hp2]
  exact totalDistance_nonneg _

theorem ledger_distance_monotone (reports : List (pb.LocationInfo ℝ))
    (horder : reports.Pairwise (fun a b => a.Timestamp < b.Timestamp))
    (p q : LocationInfo ℝ) (hp : p ∈ ledger realMath reports)
    (hq : q ∈ ledger realMath reports) (hle : p.Timestamp ≤ q.Timestamp) :
    p.Distance ≤ q.Distance := by
  rcases pairwise_cases (ledgerFrom_pairwise reports [] horder) p hp q hq with rfl | h | h
  · exact le_refl _
  · exact h.2
  · exact absurd h.1 (not_lt.2 hle)

theorem mem_ledger_of_mem_appendHistory (username : String)
    (reports : List (pb.LocationInfo ℝ)) (db : Database ℝ) (p : LocationInfo ℝ)
    (hempty : ∀ p ∈ db locationHistoryCollection, p.Username ≠ username)
    (hp : p ∈ appendHistory db (ledger realMath reports) locationHistoryCollection)
    (hu : p.Username = username) : p ∈ ledger realMath reports := by
  simp only [appendHistory, if_true, List.mem_append] at hp
  exact hp.resolve_left (fun h => hempty p h hu)

/-- The sign of the range distance over a ledger: it is not negative unless both boundary
points exist and the last point at or before the end is strictly earlier than the first
point at or after the start. -/
theorem calculateUserDistance_ledger_sign (timeParse : String → Except Error Time)
    (username start end_ : String) (parsedStart parsedEnd : Time)
    (reports : List (pb.LocationInfo ℝ)) (db : Database ℝ)
    (hempty : ∀ p ∈ db locationHistoryCollection, p.Username ≠ username)
    (huser : ∀ r ∈ reports, r.Username = username)
    (horder : reports.Pairwise (fun a b => a.Timestamp < b.Timestamp))
    (hstart : timeParse start = .ok parsedStart) (hend : timeParse end_ = .ok parsedEnd)
    (hle : parsedEnd.Before parsedStart = false) :
    ∃ v, calculateUserDistance timeParse mongoClient username start end_
          (appendHistory db (ledger realMath reports)) =
        (.ok v, appendHistory db (ledger realMath reports)) ∧
      (0 ≤ v ∨
        ∃ firstAfter lastBefore,
          IsFirstAfter (appendHistory db (ledger realMath reports) locationHistoryCollection)
            username parsedStart.UnixMilli firstAfter ∧
          IsLastBefore (appendHistory db (ledger realMath reports) locationHistoryCollection)
            username parsedEnd.UnixMilli lastBefore ∧
          v = lastBefore.Distance - firstAfter.Distance ∧
          lastBefore.Timestamp < firstAfter.Timestamp ∧
          ∀ r ∈ reports,
            ¬ (parsedStart.UnixMilli ≤ r.Timestamp ∧ r.Timestamp ≤ parsedEnd.UnixMilli)) := by
  have hms : parsedStart.UnixMilli ≤ parsedEnd.UnixMilli := by
    simp only [Time.Before, decide_eq_false_iff_not, not_lt] at hle
    simp only [Time.UnixMilli]
    omega
  rcases getFirstAfter_mongoClient username parsedStart.UnixMilli
      (appendHistory db (ledger realMath reports)) with ⟨fa, hfa, hfirst⟩ | ⟨hnoneA, hfirst⟩ <;>
    rcases getLastBefore_mongoClient username parsedEnd.UnixMilli
      (appendHistory db (ledger realMath reports)) with ⟨lb, hlb, hlast⟩ | ⟨hnoneB, hlast⟩
  · refine ⟨lb.Distance - fa.Distance,
      by simp [calculateUserDistance, hstart, hend, hle, hfirst, hlast], ?_⟩
    have hfal := mem_ledger_of_mem_appendHistory username reports db fa hempty hfa.1 hfa.2.1
    have hlbl := mem_ledger_of_mem_appendHistory username reports db lb hempty hlb.1 hlb.2.1
    by_cases hts : fa.Timestamp ≤ lb.Timestamp
    · left
      have := ledger_distance_monotone reports horder fa lb hfal hlbl hts
      linarith
    · right
      refine ⟨fa, lb, hfa, hlb, rfl, lt_of_not_le hts, ?_⟩
      intro r hr hwin
      obtain ⟨d, hd⟩ := storedRecord_mem_appendHistory realMath reports db r hr
      have h1 := hfa.2.2.2 _ hd (huser r hr) hwin.1
      have h2 := hlb.2.2.2 _ hd (huser r hr) hwin.2
      exact hts (le_trans h1 h2)
  · refine ⟨0 - fa.Distance,
      by simp [calculateUserDistance, hstart, hend, hle, hfirst, hlast], Or.inl ?_⟩
    obtain ⟨before1, r1, after1, h1, hfa_eq⟩ :=
      mem_appendHistory_ledger realMath username reports db fa hempty hfa.1 hfa.2.1
    have hbefore : before1 = [] := by
      rw [List.eq_nil_iff_forall_not_mem]
      intro e he
      have her : e ∈ reports := by rw [h1]; simp [he]
      obtain ⟨d, hd⟩ := storedRecord_mem_appendHistory realMath reports db e her
      have hnot := hnoneB _ hd (huser e her)
      have hmin := hfa.2.2.2 _ hd (huser e her) (by
        simp only [storedRecord] at hnot ⊢
        omega)
      have ho := horder
      rw [h1] at ho
      have hlt := (List.pairwise_append.1 ho).2.2 e he r1 (List.mem_cons_self _ _)
      rw [hfa_eq] at hmin
      simp only [storedRecord] at hmin
      omega
    rw [hfa_eq, hbefore]
    simp [storedRecord, totalDistance]
  · refine ⟨lb.Distance - 0,
      by simp [calculateUserDistance, hstart, hend, hle, hfirst, hlast], Or.inl ?_⟩
    have hlbl := mem_ledger_of_mem_appendHistory username reports db lb hempty hlb.1 hlb.2.1
    have := ledger_distance_nonneg reports lb hlbl
    linarith
  · exact ⟨0, by simp [calculateUserDistance, hstart, hend, hle, hfirst, hlast],
      Or.inl (le_refl 0)⟩

/-- C17: for a history built by submitting reports of one user, each with a (longitude,
latitude) pair, in strictly increasing timestamp order through `UpdateUserLocation`, and
start not after end (over the reals and the document store), `calculateUserDistance`
returns a value without error; whenever the value is negative, both boundary points
exist, the last point at or before end has a strictly smaller timestamp than the first
point at or after start, and the window contains none of the reports; whenever that is
not so, the value is at least `0`. -/
theorem calculateUserDistance_negative_only_between (timeParse : String → Except Error Time)
    (username start end_ : String) (parsedStart parsedEnd : Time)
    (reports : List (pb.LocationInfo ℝ)) (db : Database ℝ)
    (hempty : ∀ p ∈ db locationHistoryCollection, p.Username ≠ username)
    (huser : ∀ r ∈ reports, r.Username = username)
    (hpair : ∀ r ∈ reports, r.Location.Coordinates.length = 2)
    (horder : reports.Pairwise (fun a b => a.Timestamp < b.Timestamp))
    (hstart : timeParse start = .ok parsedStart) (hend : timeParse end_ = .ok parsedEnd)
    (hle : parsedEnd.Before parsedStart = false) :
    ∃ v, calculateUserDistance timeParse mongoClient username start end_
          (submitAll realMath mongoClient reports db).2 =
        (.ok v, (submitAll realMath mongoClient reports db).2) ∧
      (v < 0 →
        ∃ firstAfter lastBefore,
          IsFirstAfter ((submitAll realMath mongoClient reports db).2 locationHistoryCollection)
            username parsedStart.UnixMilli firstAfter ∧
          IsLastBefore ((submitAll realMath mongoClient reports db).2 locationHistoryCollection)
            username parsedEnd.UnixMilli lastBefore ∧
          v = lastBefore.Distance - firstAfter.Distance ∧
          lastBefore.Timestamp < firstAfter.Timestamp ∧
          ∀ r ∈ reports,
            ¬ (parsedStart.UnixMilli ≤ r.Timestamp ∧ r.Timestamp ≤ parsedEnd.UnixMilli)) ∧
      ((¬ ∃ firstAfter lastBefore,
          IsFirstAfter ((submitAll realMath mongoClient reports db).2 locationHistoryCollection)
            username parsedStart.UnixMilli firstAfter ∧
          IsLastBefore ((submitAll realMath mongoClient reports db).2 locationHistoryCollection)
            username parsedEnd.UnixMilli lastBefore ∧
          lastBefore.Timestamp < firstAfter.Timestamp) → 0 ≤ v) := by
  have hsubmit : submitAll realMath mongoClient reports db =
      (.ok (), appendHistory db (ledger realMath reports)) :=
    submitAll_ledgerFrom realMath username reports [] db huser hpair
      (fun r hr => absurd hr (List.not_mem_nil r)) horder
      (fun p hp hu => absurd hu (hempty p hp))
      (by rw [findCurrent_none username db hempty]; rfl)
  rw [hsubmit]
  obtain ⟨v, hv, hsign⟩ := calculateUserDistance_ledger_sign timeParse username start end_
    parsedStart parsedEnd reports db hempty huser horder hstart hend hle
  refine ⟨v, hv, ?_, ?_⟩
  · intro hneg
    rcases hsign with h | ⟨fa, lb, h1, h2, h3, h4, h5⟩
    · exact absurd hneg (not_lt.2 h)
    · exact ⟨fa, lb, h1, h2, h3, h4, h5⟩
  · intro hnot
    rcases hsign with h | ⟨fa, lb, h1, h2, _, h4, _⟩
    · exact h
    · exact absurd ⟨fa, lb, h1, h2, h4⟩ hnot

/-- C17, at an instance: Belgrade, Cuprija, Jagodina and Kragujevac reported in this
order, and the window from second 2 to second 3. -/
theorem calculateUserDistance_negative_only_between_witness :
    ∃ v, calculateUserDistance exampleTimeParse mongoClient "user3"
          "1970-01-01T00:00:02+00:00" "1970-01-01T00:00:03+00:00"
          (submitAll realMath mongoClient exampleReports emptyDatabase).2 =
        (.ok v, (submitAll realMath mongoClient exampleReports emptyDatabase).2) ∧
      (v < 0 →
        ∃ firstAfter lastBefore,
          IsFirstAfter ((submitAll realMath mongoClient exampleReports emptyDatabase).2
              locationHistoryCollection)
            "user3" (Time.UnixMilli { unixNano := 2000000000 }) firstAfter ∧
          IsLastBefore ((submitAll realMath mongoClient exampleReports emptyDatabase).2
              locationHistoryCollection)
            "user3" (Time.UnixMilli { unixNano := 3000000000 }) lastBefore ∧
          v = lastBefore.Distance - firstAfter.Distance ∧
          lastBefore.Timestamp < firstAfter.Timestamp ∧
          ∀ r ∈ exampleReports,
            ¬ (Time.UnixMilli { unixNano := 2000000000 } ≤ r.Timestamp ∧
              r.Timestamp ≤ Time.UnixMilli { unixNano := 3000000000 })) ∧
      ((¬ ∃ firstAfter lastBefore,
          IsFirstAfter ((submitAll realMath mongoClient exampleReports emptyDatabase).2
              locationHistoryCollection)
            "user3" (Time.UnixMilli { unixNano := 2000000000 }) firstAfter ∧
          IsLastBefore ((submitAll realMath mongoClient exampleReports emptyDatabase).2
              locationHistoryCollection)
            "user3" (Time.UnixMilli { unixNano := 3000000000 }) lastBefore ∧
          lastBefore.Timestamp < firstAfter.Timestamp) → 0 ≤ v) :=
  calculateUserDistance_negative_only_between exampleTimeParse "user3"
    "1970-01-01T00:00:02+00:00" "1970-01-01T00:00:03+00:00"
    { unixNano := 2000000000 } { unixNano := 3000000000 } exampleReports emptyDatabase
    (by simp [emptyDatabase]) (by simp [exampleReports]) (by simp [exampleReports])
    (by simp [exampleReports]) (by simp [exampleTimeParse]) (by simp [exampleTimeParse])
    (by decide)

end SignLemmas

section CoordinateLemmas

theorem splitAtCommas_no_comma : ∀ text : List Char, ',' ∉ text → splitAtCommas text = [text]
  | [], _ => rfl
  | c :: rest, h => by
    have hc : c ≠ ',' := fun hc => h (by simp [hc])
    have hrest : ',' ∉ rest := fun hr => h (List.mem_cons_of_mem _ hr)
    simp [splitAtCommas, hc, splitAtCommas_no_comma rest hrest]

theorem splitAtCommas_append (after : List Char) :
    ∀ before : List Char, ',' ∉ before →
      splitAtCommas (before ++ ',' :: after) = before :: splitAtCommas after
  | [], _ => by simp [splitAtCommas]
  | c :: rest, h => by
    have hc : c ≠ ',' := fun hc => h (by simp [hc])
    have hrest : ',' ∉ rest := fun hr => h (List.mem_cons_of_mem _ hr)
    simp [splitAtCommas, hc, splitAtCommas_append after rest hrest]

/-- The pieces of a text with one comma, after its spaces are removed. -/
theorem splitCommas_removeSpaces (first second : List Char) (hfirst : ',' ∉ first)
    (hsecond : ',' ∉ second) :
    splitCommas (removeSpaces (String.mk (first ++ ',' :: second))) =
      [removeSpaces (String.mk first), removeSpaces (String.mk second)] := by
  have h1 : ',' ∉ first.filter (fun c => c ≠ ' ') :=
    fun h => hfirst (List.mem_of_mem_filter h)
  have h2 : ',' ∉ second.filter (fun c => c ≠ ' ') :=
    fun h => hsecond (List.mem_of_mem_filter h)
  have hcomma : decide ((',' : Char) ≠ ' ') = true := by decide
  simp only [splitCommas, removeSpaces, List.filter_append, List.filter_cons, hcomma, if_true]
  rw [splitAtCommas_append _ _ h1, splitAtCommas_no_comma _ h2]
  rfl

variable {F : Type} [LinearOrderedField F]

/-- The function `extractCoordinates` on a text with one comma whose two pieces parse. -/
theorem extractCoordinates_two (parseFloat : String → Except Error F)
    (first second : List Char) (x y : F) (hfirst : ',' ∉ first) (hsecond : ',' ∉ second)
    (hx : parseFloat (removeSpaces (String.mk first)) = .ok x)
    (hy : parseFloat (removeSpaces (String.mk second)) = .ok y) :
    extractCoordinates parseFloat (String.mk (first ++ ',' :: second)) =
      if y < -180 ∨ y > 180 then .error (Fault.error "longitude out of range")
      else if x < -90 ∨ x > 90 then .error (Fault.error "latitude out of range")
      else .ok [y, x] := by
  simp [extractCoordinates, splitCommas_removeSpaces first second hfirst hsecond,
    parseCoordinates, hx, hy]

/-- C18: for every input of the form "lat,lon", two numbers that parse, separated by a
comma, with optional spaces, the latitude in [-90, 90] and the longitude in [-180, 180],
`extractCoordinates` succeeds and returns exactly the two-element sequence of longitude
and latitude, the input order reversed. -/
theorem extractCoordinates_reverses (parseFloat : String → Except Error F)
    (latitudeText longitudeText : List Char) (latitude longitude : F)
    (hlatitudeText : ',' ∉ latitudeText) (hlongitudeText : ',' ∉ longitudeText)
    (hlatitude : parseFloat (removeSpaces (String.mk latitudeText)) = .ok latitude)
    (hlongitude : parseFloat (removeSpaces (String.mk longitudeText)) = .ok longitude)
    (hlatitudeRange : -90 ≤ latitude ∧ latitude ≤ 90)
    (hlongitudeRange : -180 ≤ longitude ∧ longitude ≤ 180) :
    extractCoordinates parseFloat (String.mk (latitudeText ++ ',' :: longitudeText)) =
      .ok [longitude, latitude] := by
  rw [extractCoordinates_two parseFloat latitudeText longitudeText latitude longitude
    hlatitudeText hlongitudeText hlatitude hlongitude]
  have h1 : ¬ (longitude < -180 ∨ longitude > 180) := by
    rintro (h | h)
    · exact absurd hlongitudeRange.1 (not_le.2 h)
    · exact absurd hlongitudeRange.2 (not_le.2 h)
  have h2 : ¬ (latitude < -90 ∨ latitude > 90) := by
    rintro (h | h)
    · exact absurd hlatitudeRange.1 (not_le.2 h)
    · exact absurd hlatitudeRange.2 (not_le.2 h)
  rw [if_neg h1, if_neg h2]

/-- C18, at an instance: the coordinates of Belgrade as the tests write them, with a
space after the comma. -/
theorem extractCoordinates_reverses_witness :
    extractCoordinates exampleParseFloat "44.8154844, 20.2576593" =
      .ok [20.2576593, 44.8154844] :=
  extractCoordinates_reverses exampleParseFloat "44.8154844".data " 20.2576593".data
    44.8154844 20.2576593 (by decide) (by decide)
    (by simp [exampleParseFloat, removeSpaces]) (by simp [exampleParseFloat, removeSpaces])
    (by norm_num) (by norm_num)

/-- C19: for every input of two numbers that parse, separated by a comma,
`extractCoordinates` returns an error exactly when the second number, the longitude, lies
outside [-180, 180] or the first, the latitude, lies outside [-90, 90], and it does not
panic; in range, the boundary values included, it succeeds with longitude and latitude;
and every successful result has its longitude in [-180, 180] and its latitude in
[-90, 90]. -/
theorem extractCoordinates_error_iff_out_of_range (parseFloat : String → Except Error F)
    (latitudeText longitudeText : List Char) (latitude longitude : F)
    (hlatitudeText : ',' ∉ latitudeText) (hlongitudeText : ',' ∉ longitudeText)
    (hlatitude : parseFloat (removeSpaces (String.mk latitudeText)) = .ok latitude)
    (hlongitude : parseFloat (removeSpaces (String.mk longitudeText)) = .ok longitude) :
    ((∃ err, extractCoordinates parseFloat
          (String.mk (latitudeText ++ ',' :: longitudeText)) = .error (Fault.error err)) ↔
        (longitude < -180 ∨ 180 < longitude ∨ latitude < -90 ∨ 90 < latitude)) ∧
      (∀ msg, extractCoordinates parseFloat
          (String.mk (latitudeText ++ ',' :: longitudeText)) ≠ .error (Fault.panic msg)) ∧
      ((-180 ≤ longitude ∧ longitude ≤ 180 ∧ -90 ≤ latitude ∧ latitude ≤ 90) →
        extractCoordinates parseFloat (String.mk (latitudeText ++ ',' :: longitudeText)) =
          .ok [longitude, latitude]) ∧
      (∀ coordinates, extractCoordinates parseFloat
          (String.mk (latitudeText ++ ',' :: longitudeText)) = .ok coordinates →
        coordinates = [longitude, latitude] ∧ -180 ≤ longitude ∧ longitude ≤ 180 ∧
          -90 ≤ latitude ∧ latitude ≤ 90) := by
  rw [extractCoordinates_two parseFloat latitudeText longitudeText latitude longitude
    hlatitudeText hlongitudeText hlatitude hlongitude]
  by_cases h1 : longitude < -180 ∨ longitude > 180
  · rw [if_pos h1]
    refine ⟨⟨fun _ => ?_, fun _ => ⟨_, rfl⟩⟩, (fun msg h => by cases h), fun h => ?_,
      (fun c h => by cases h)⟩
    · rcases h1 with h | h
      · exact Or.inl h
      · exact Or.inr (Or.inl h)
    · rcases h1 with h1 | h1
      · exact absurd h.1 (not_le.2 h1)
      · exact absurd h.2.1 (not_le.2 h1)
  · rw [if_neg h1]
    have h1a : -180 ≤ longitude := not_lt.1 (fun h => h1 (Or.inl h))
    have h1b : longitude ≤ 180 := not_lt.1 (fun h => h1 (Or.inr h))
    by_cases h2 : latitude < -90 ∨ latitude > 90
    · rw [if_pos h2]
      refine ⟨⟨fun _ => ?_, fun _ => ⟨_, rfl⟩⟩, (fun msg h => by cases h), fun h => ?_,
        (fun c h => by cases h)⟩
      · rcases h2 with h | h
        · exact Or.inr (Or.inr (Or.inl h))
        · exact Or.inr (Or.inr (Or.inr h))
      · rcases h2 with h2 | h2
        · exact absurd h.2.2.1 (not_le.2 h2)
        · exact absurd h.2.2.2 (not_le.2 h2)
    · rw [if_neg h2]
      have h2a : -90 ≤ latitude := not_lt.1 (fun h => h2 (Or.inl h))
      have h2b : latitude ≤ 90 := not_lt.1 (fun h => h2 (Or.inr h))
      refine ⟨⟨fun h => ?_, fun h => ?_⟩, (fun msg h => by cases h), fun _ => rfl,
        fun c h => ?_⟩
      · obtain ⟨err, herr⟩ := h
        cases herr
      · rcases h with h | h | h | h
        · exact absurd h1a (not_le.2 h)
        · exact absurd h1b (not_le.2 h)
        · exact absurd h2a (not_le.2 h)
        · exact absurd h2b (not_le.2 h)
      · cases h
        exact ⟨rfl, h1a, h1b, h2a, h2b⟩

/-- C19, at an instance: latitude 90 and longitude 180, both on the boundary. -/
theorem extractCoordinates_error_iff_out_of_range_witness :
    ((∃ err, extractCoordinates exampleParseFloat "90,180" = .error (Fault.error err)) ↔
        ((180 : ℚ) < -180 ∨ (180 : ℚ) < 180 ∨ (90 : ℚ) < -90 ∨ (90 : ℚ) < 90)) ∧
      (∀ msg, extractCoordinates exampleParseFloat "90,180" ≠ .error (Fault.panic msg)) ∧
      ((-180 ≤ (180 : ℚ) ∧ (180 : ℚ) ≤ 180 ∧ -90 ≤ (90 : ℚ) ∧ (90 : ℚ) ≤ 90) →
        extractCoordinates exampleParseFloat "90,180" = .ok [180, 90]) ∧
      (∀ coordinates, extractCoordinates exampleParseFloat "90,180" = .ok coordinates →
        coordinates = [180, 90] ∧ -180 ≤ (180 : ℚ) ∧ (180 : ℚ) ≤ 180 ∧
          -90 ≤ (90 : ℚ) ∧ (90 : ℚ) ≤ 90) :=
  extractCoordinates_error_iff_out_of_range exampleParseFloat "90".data "180".data 90 180
    (by decide) (by decide)
    (by simp [exampleParseFloat, removeSpaces]) (by simp [exampleParseFloat, removeSpaces])

/-- The four boundary values are accepted. -/
theorem extractCoordinates_boundaries :
    extractCoordinates exampleParseFloat "90,180" = .ok [180, 90] ∧
      extractCoordinates exampleParseFloat "-90,-180" = .ok [-180, -90] := by
  constructor
  · exact extractCoordinates_reverses exampleParseFloat "90".data "180".data 90 180
      (by decide) (by decide) (by simp [exampleParseFloat, removeSpaces])
      (by simp [exampleParseFloat, removeSpaces]) (by norm_num) (by norm_num)
  · exact extractCoordinates_reverses exampleParseFloat "-90".data "-180".data (-90) (-180)
      (by decide) (by decide) (by simp [exampleParseFloat, removeSpaces])
      (by simp [exampleParseFloat, removeSpaces]) (by norm_num) (by norm_num)

/-- When the coordinates of an update request pass validation but `extractCoordinates`
returns an error, `updateUserLocationHandler` answers with status 500 and calls neither
the store nor the ledger service. -/
theorem updateUserLocationHandler_extract_error {σ τ : Type}
    (jsonDecode : String → Except Error UpdateLocationRequest)
    (validateStruct : UpdateLocationRequest → Option Error)
    (parseFloat : String → Except Error F) (now : Int) (client : DBClient σ F)
    (ledgerClient : GRPCClient τ F) (body : String) (st : σ) (remote : τ)
    (data : UpdateLocationRequest) (err : Error)
    (hdecode : jsonDecode body = .ok data) (hvalid : validateStruct data = none)
    (hextract : extractCoordinates parseFloat data.Coordinates = .error (Fault.error err)) :
    updateUserLocationHandler jsonDecode validateStruct parseFloat now client ledgerClient
        body st remote =
      (.ok StatusInternalServerError, st, remote) := by
  simp [updateUserLocationHandler, hdecode, hvalid, hextract]

/-- When the coordinates of a search request pass validation but `extractCoordinates`
returns an error, `searchUserLocationHandler` answers with status 400. -/
theorem searchUserLocationHandler_extract_error {σ : Type}
    (jsonDecode : String → Except Error (SearchLocationRequest F))
    (validateStruct : SearchLocationRequest F → Option Error)
    (parseFloat : String → Except Error F)
    (searchUserLocation : List F → F → Int → Int → σ → Except Error (List String) × σ)
    (jsonEncode : List String → Option Error) (body : String) (st : σ)
    (data : SearchLocationRequest F) (err : Error)
    (hdecode : jsonDecode body = .ok data) (hvalid : validateStruct data = none)
    (hextract : extractCoordinates parseFloat data.Coordinates = .error (Fault.error err)) :
    searchUserLocationHandler jsonDecode validateStruct parseFloat searchUserLocation
        jsonEncode body st =
      (.ok StatusBadRequest, none, st) := by
  simp [searchUserLocationHandler, hdecode, hvalid, hextract]

/-- C20 fails on the code: for an update request with latitude 91, which passes
validation, `extractCoordinates` returns an error and `updateUserLocationHandler` answers
with status 500, not 400, having called neither the store nor the ledger service;
`searchUserLocationHandler` answers the same coordinates with status 400. -/
theorem updateUserLocationHandler_out_of_range_status :
    extractCoordinates exampleParseFloat "91,20.2576593" =
        .error (Fault.error "latitude out of range") ∧
      updateUserLocationHandler
          (decodeAs { Username := "user1", Coordinates := "91,20.2576593" }) acceptRequest
          exampleParseFloat 1000 (recordCalls mongoClient) receivingLedger ""
          ((emptyDatabase : Database ℚ), []) [] =
        (.ok 500, (emptyDatabase, []), []) ∧
      searchUserLocationHandler
          (decodeAs ({ Coordinates := "91,20.2576593", Distance := 10, PageNumber := 1,
                       PageSize := 10 } : SearchLocationRequest ℚ)) acceptRequest
          exampleParseFloat searchNobody acceptRequest "" (emptyDatabase : Database ℚ) =
        (.ok 400, none, emptyDatabase) := by
  have hextract : extractCoordinates exampleParseFloat "91,20.2576593" =
      .error (Fault.error "latitude out of range") := by
    have h := extractCoordinates_two exampleParseFloat "91".data "20.2576593".data 91
      20.2576593 (by decide) (by decide) (by simp [exampleParseFloat, removeSpaces])
      (by simp [exampleParseFloat, removeSpaces])
    have h1 : ¬ ((20.2576593 : ℚ) < -180 ∨ (20.2576593 : ℚ) > 180) := by norm_num
    have h2 : (91 : ℚ) < -90 ∨ (91 : ℚ) > 90 := by norm_num
    rw [if_neg h1, if_pos h2] at h
    exact h
  refine ⟨hextract, ?_, ?_⟩
  · exact updateUserLocationHandler_extract_error _ _ _ _ _ _ _ _ _
      { Username := "user1", Coordinates := "91,20.2576593" } _ rfl rfl hextract
  · exact searchUserLocationHandler_extract_error _ _ _ _ _ _ _
      { Coordinates := "91,20.2576593", Distance := 10, PageNumber := 1, PageSize := 10 } _
      rfl rfl hextract

end CoordinateLemmas

section HaversineLemmas

theorem calculateDistance_haversineFormula (startType endType : String)
    (lonS latS lonE latE c : ℝ) :
    calculateDistance realMath { Type_ := startType, Coordinates := [lonS, latS] }
        { Type_ := endType, Coordinates := [lonE, latE] } c =
      some (haversineFormula lonS latS lonE latE c) := by
  have hdeg : ∀ d : ℝ, d * Real.pi / 180 = d * (Real.pi / 180) := fun d => by ring
  simp only [calculateDistance, degreesToRadians, realMath, haversineFormula, haversineA,
    Real.rpow_two, hdeg]
  simp [add_comm]

/-- Bounds on the sine of a small non-negative angle known to lie in an interval, from the
cubic Taylor polynomial. -/
theorem sin_interval (u lo hi : ℝ) (h0 : 0 ≤ lo) (hlo : lo ≤ u) (hhi : u ≤ hi) (h1 : hi ≤ 1) :
    lo - hi ^ 3 / 6 - hi ^ 4 * (5 / 96) ≤ Real.sin u ∧
      Real.sin u ≤ hi - lo ^ 3 / 6 + hi ^ 4 * (5 / 96) := by
  have hu0 : 0 ≤ u := le_trans h0 hlo
  have habs : |u| ≤ 1 := by rw [abs_of_nonneg hu0]; linarith
  have hb := Real.sin_bound habs
  rw [abs_of_nonneg hu0] at hb
  have hb2 := abs_le.mp hb
  have h3lo : lo ^ 3 ≤ u ^ 3 := pow_le_pow_left₀ h0 hlo 3
  have h3hi : u ^ 3 ≤ hi ^ 3 := pow_le_pow_left₀ hu0 hhi 3
  have h4hi : u ^ 4 ≤ hi ^ 4 := pow_le_pow_left₀ hu0 hhi 4
  constructor
  · linarith [hb2.1]
  · linarith [hb2.2]

/-- Bounds on the cosine of a small non-negative angle known to lie in an interval, from
the quadratic Taylor polynomial. -/
theorem cos_interval (u lo hi : ℝ) (h0 : 0 ≤ lo) (hlo : lo ≤ u) (hhi : u ≤ hi) (h1 : hi ≤ 1) :
    1 - hi ^ 2 / 2 - hi ^ 4 * (5 / 96) ≤ Real.cos u ∧
      Real.cos u ≤ 1 - lo ^ 2 / 2 + hi ^ 4 * (5 / 96) := by
  have hu0 : 0 ≤ u := le_trans h0 hlo
  have habs : |u| ≤ 1 := by rw [abs_of_nonneg hu0]; linarith
  have hb := Real.cos_bound habs
  rw [abs_of_nonneg hu0] at hb
  have hb2 := abs_le.mp hb
  have h2lo : lo ^ 2 ≤ u ^ 2 := pow_le_pow_left₀ h0 hlo 2
  have h2hi : u ^ 2 ≤ hi ^ 2 := pow_le_pow_left₀ hu0 hhi 2
  have h4hi : u ^ 4 ≤ hi ^ 4 := pow_le_pow_left₀ hu0 hhi 4
  constructor
  · linarith [hb2.1]
  · linarith [hb2.2]

/-- For `a` between 0 and 1 the angle `atan2(sqrt(a), sqrt(1 - a))` is `arcsin(sqrt(a))`. -/
theorem atan2_sqrt (a : ℝ) (h0 : 0 ≤ a) (h1 : a ≤ 1) :
    Complex.arg { re := Real.sqrt (1 - a), im := Real.sqrt a } = Real.arcsin (Real.sqrt a) := by
  have habs : Complex.abs { re := Real.sqrt (1 - a), im := Real.sqrt a } = 1 := by
    rw [Complex.abs_apply, Complex.normSq_mk, Real.mul_self_sqrt (by linarith),
      Real.mul_self_sqrt h0]
    simp
  rw [Complex.arg_of_re_nonneg (Real.sqrt_nonneg _), habs]
  simp

/-- An interval for `arcsin(sqrt(a))` from an interval for `a`. -/
theorem arcsin_sqrt_interval (a lo hi : ℝ) (h0 : 0 ≤ lo) (hhi : hi ≤ 1) (hlohi : lo ≤ hi)
    (hlower : (lo - lo ^ 3 / 6 + lo ^ 4 * (5 / 96)) ^ 2 ≤ a)
    (hpos : 0 ≤ hi - hi ^ 3 / 6 - hi ^ 4 * (5 / 96))
    (hupper : a ≤ (hi - hi ^ 3 / 6 - hi ^ 4 * (5 / 96)) ^ 2) (ha1 : a ≤ 1) :
    lo ≤ Real.arcsin (Real.sqrt a) ∧ Real.arcsin (Real.sqrt a) ≤ hi := by
  have ha0 : 0 ≤ a := le_trans (sq_nonneg _) hlower
  have hpi : (1 : ℝ) ≤ Real.pi / 2 := by linarith [Real.pi_gt_three]
  have hsqrt : Real.sqrt a ∈ Set.Icc (-1 : ℝ) 1 :=
    ⟨by linarith [Real.sqrt_nonneg a], Real.sqrt_le_iff.mpr ⟨zero_le_one, by simpa using ha1⟩⟩
  have hsl := (sin_interval lo lo lo h0 le_rfl le_rfl (le_trans hlohi hhi)).2
  have hsh := (sin_interval hi hi hi (le_trans h0 hlohi) le_rfl le_rfl hhi).1
  constructor
  · rw [Real.le_arcsin_iff_sin_le ⟨by linarith, by linarith⟩ hsqrt]
    refine le_trans hsl (Real.le_sqrt_of_sq_le hlower)
  · rw [Real.arcsin_le_iff_le_sin hsqrt ⟨by linarith, by linarith⟩]
    refine le_trans ?_ hsh
    exact Real.sqrt_le_iff.mpr ⟨hpos, hupper⟩

/-- The cosine of an angle written as a quarter turn minus a remainder. -/
theorem cos_near_quarter (d k : ℝ) (h : d * (Real.pi / 180) = Real.pi / 4 - k * Real.pi) :
    Real.cos (d * (Real.pi / 180)) =
      Real.sqrt 2 / 2 * (Real.cos (k * Real.pi) + Real.sin (k * Real.pi)) := by
  rw [h, Real.cos_sub, Real.cos_pi_div_four, Real.sin_pi_div_four]
  ring

/-- The quantity `a` of the reference pair of points, with every angle reduced to a small
multiple of `π`. -/
theorem haversineA_example :
    haversineA 20.2576593 44.8154844 21.3135146 43.9322129 =
      Real.sin ((44.8154844 - 43.9322129) / 360 * Real.pi) ^ 2 +
        1 / 2 * ((Real.cos ((45 - 44.8154844) / 180 * Real.pi) +
            Real.sin ((45 - 44.8154844) / 180 * Real.pi)) *
          (Real.cos ((45 - 43.9322129) / 180 * Real.pi) +
            Real.sin ((45 - 43.9322129) / 180 * Real.pi))) *
          Real.sin ((21.3135146 - 20.2576593) / 360 * Real.pi) ^ 2 := by
  have hlat : (43.9322129 * (Real.pi / 180) - 44.8154844 * (Real.pi / 180)) / 2 =
      -((44.8154844 - 43.9322129) / 360 * Real.pi) := by ring
  have hlon : (21.3135146 * (Real.pi / 180) - 20.2576593 * (Real.pi / 180)) / 2 =
      (21.3135146 - 20.2576593) / 360 * Real.pi := by ring
  have hstart := cos_near_quarter 44.8154844 ((45 - 44.8154844) / 180) (by ring)
  have hend := cos_near_quarter 43.9322129 ((45 - 43.9322129) / 180) (by ring)
  have hsqrt : Real.sqrt 2 * Real.sqrt 2 = 2 := Real.mul_self_sqrt (by norm_num)
  unfold haversineA
  rw [hlat, hlon, hstart, hend, Real.sin_neg, neg_sq]
  linear_combination
    (1 / 4 * ((Real.cos ((45 - 44.8154844) / 180 * Real.pi) +
            Real.sin ((45 - 44.8154844) / 180 * Real.pi)) *
          (Real.cos ((45 - 43.9322129) / 180 * Real.pi) +
            Real.sin ((45 - 43.9322129) / 180 * Real.pi))) *
          Real.sin ((21.3135146 - 20.2576593) / 360 * Real.pi) ^ 2) * hsqrt

/-- An interval for the quantity `a` of the reference pair of points. -/
theorem haversineA_example_bounds :
    (0.00010278306 : ℝ) ≤ haversineA 20.2576593 44.8154844 21.3135146 43.9322129 ∧
      haversineA 20.2576593 44.8154844 21.3135146 43.9322129 ≤ 0.00010278315 := by
  have hpl := Real.pi_gt_d6
  have hph := Real.pi_lt_d6
  obtain ⟨hu1, hu2⟩ := sin_interval ((44.8154844 - 43.9322129) / 360 * Real.pi)
    ((44.8154844 - 43.9322129) / 360 * 3.141592) ((44.8154844 - 43.9322129) / 360 * 3.141593)
    (by norm_num) (by linarith) (by linarith) (by norm_num)
  obtain ⟨hv1, hv2⟩ := sin_interval ((21.3135146 - 20.2576593) / 360 * Real.pi)
    ((21.3135146 - 20.2576593) / 360 * 3.141592) ((21.3135146 - 20.2576593) / 360 * 3.141593)
    (by norm_num) (by linarith) (by linarith) (by norm_num)
  obtain ⟨hs1, hs2⟩ := sin_interval ((45 - 44.8154844) / 180 * Real.pi)
    ((45 - 44.8154844) / 180 * 3.141592) ((45 - 44.8154844) / 180 * 3.141593)
    (by norm_num) (by linarith) (by linarith) (by norm_num)
  obtain ⟨hc1, hc2⟩ := cos_interval ((45 - 44.8154844) / 180 * Real.pi)
    ((45 - 44.8154844) / 180 * 3.141592) ((45 - 44.8154844) / 180 * 3.141593)
    (by norm_num) (by linarith) (by linarith) (by norm_num)
  obtain ⟨ht1, ht2⟩ := sin_interval ((45 - 43.9322129) / 180 * Real.pi)
    ((45 - 43.9322129) / 180 * 3.141592) ((45 - 43.9322129) / 180 * 3.141593)
    (by norm_num) (by linarith) (by linarith) (by norm_num)
  obtain ⟨hd1, hd2⟩ := cos_interval ((45 - 43.9322129) / 180 * Real.pi)
    ((45 - 43.9322129) / 180 * 3.141592) ((45 - 43.9322129) / 180 * 3.141593)
    (by norm_num) (by linarith) (by linarith) (by norm_num)
  rw [haversineA_example]
  generalize Real.sin ((44.8154844 - 43.9322129) / 360 * Real.pi) = su at hu1 hu2 ⊢
  generalize Real.sin ((21.3135146 - 20.2576593) / 360 * Real.pi) = sv at hv1 hv2 ⊢
  generalize Real.sin ((45 - 44.8154844) / 180 * Real.pi) = s1 at hs1 hs2 ⊢
  generalize Real.cos ((45 - 44.8154844) / 180 * Real.pi) = c1 at hc1 hc2 ⊢
  generalize Real.sin ((45 - 43.9322129) / 180 * Real.pi) = s2 at ht1 ht2 ⊢
  generalize Real.cos ((45 - 43.9322129) / 180 * Real.pi) = c2 at hd1 hd2 ⊢
  have hsu1 : (0.0077079198183 : ℝ) ≤ su := le_trans (by norm_num) hu1
  have hsu2 : su ≤ (0.0077079226397 : ℝ) := le_trans hu2 (by norm_num)
  have hsv1 : (0.0092139430344 : ℝ) ≤ sv := le_trans (by norm_num) hv1
  have hsv2 : sv ≤ (0.0092139467184 : ℝ) := le_trans hv2 (by norm_num)
  have hp1 : (1.0032152129891 : ℝ) ≤ c1 + s1 := le_trans (by norm_num) (add_le_add hc1 hs1)
  have hp2 : c1 + s1 ≤ (1.0032152140400 : ℝ) := le_trans (add_le_add hc2 hs2) (by norm_num)
  have hq1 : (1.0184616476253 : ℝ) ≤ c2 + s2 := le_trans (by norm_num) (add_le_add hd1 ht1)
  have hq2 : c2 + s2 ≤ (1.0184616788000 : ℝ) := le_trans (add_le_add hd2 ht2) (by norm_num)
  generalize c1 + s1 = p at hp1 hp2 ⊢
  generalize c2 + s2 = q at hq1 hq2 ⊢
  have hsu0 : (0 : ℝ) ≤ su := le_trans (by norm_num) hsu1
  have hsv0 : (0 : ℝ) ≤ sv := le_trans (by norm_num) hsv1
  have hp0 : (0 : ℝ) ≤ p := le_trans (by norm_num) hp1
  have hq0 : (0 : ℝ) ≤ q := le_trans (by norm_num) hq1
  have hsuq1 : (0.0077079198183 : ℝ) ^ 2 ≤ su ^ 2 := pow_le_pow_left₀ (by norm_num) hsu1 2
  have hsuq2 : su ^ 2 ≤ (0.0077079226397 : ℝ) ^ 2 := pow_le_pow_left₀ hsu0 hsu2 2
  have hsvq1 : (0.0092139430344 : ℝ) ^ 2 ≤ sv ^ 2 := pow_le_pow_left₀ (by norm_num) hsv1 2
  have hsvq2 : sv ^ 2 ≤ (0.0092139467184 : ℝ) ^ 2 := pow_le_pow_left₀ hsv0 hsv2 2
  have hpq1 : (1.0032152129891 : ℝ) * 1.0184616476253 ≤ p * q :=
    mul_le_mul hp1 hq1 (by norm_num) hp0
  have hpq2 : p * q ≤ (1.0032152140400 : ℝ) * 1.0184616788000 :=
    mul_le_mul hp2 hq2 hq0 (by norm_num)
  have hr1 : (1.0032152129891 : ℝ) * 1.0184616476253 * 0.0092139430344 ^ 2 ≤ p * q * sv ^ 2 :=
    mul_le_mul hpq1 hsvq1 (by norm_num) (mul_nonneg hp0 hq0)
  have hr2 : p * q * sv ^ 2 ≤ (1.0032152140400 : ℝ) * 1.0184616788000 * 0.0092139467184 ^ 2 :=
    mul_le_mul hpq2 hsvq2 (sq_nonneg _) (by norm_num)
  constructor
  · have hnum : (0.00010278306 : ℝ) ≤ 0.0077079198183 ^ 2 +
        1 / 2 * (1.0032152129891 * 1.0184616476253 * 0.0092139430344 ^ 2) := by norm_num
    linarith
  · have hnum : (0.0077079226397 : ℝ) ^ 2 +
        1 / 2 * (1.0032152140400 * 1.0184616788000 * 0.0092139467184 ^ 2) ≤
          0.00010278315 := by norm_num
    linarith

/-- The distance of the reference pair of points, as an arcsine, is within 0.001 of
129.183169. -/
theorem arcsin_example_bounds :
    |6371 * 2 * Real.arcsin
        (Real.sqrt (haversineA 20.2576593 44.8154844 21.3135146 43.9322129)) - 129.183169| ≤
      0.001 := by
  obtain ⟨hlower, hupper⟩ := haversineA_example_bounds
  obtain ⟨h1, h2⟩ := arcsin_sqrt_interval
    (haversineA 20.2576593 44.8154844 21.3135146 43.9322129)
    ((129.183169 - 0.001) / 12742) ((129.183169 + 0.001) / 12742)
    (by norm_num) (by norm_num) (by norm_num)
    (le_trans (by norm_num) hlower) (by norm_num) (le_trans hupper (by norm_num))
    (le_trans hupper (by norm_num))
  rw [abs_le]
  constructor <;> linarith

/-- C16: for start and end points given as (longitude, latitude) pairs in degrees and every
current distance `c`, `calculateDistance` returns
`c + 6371 * 2 * atan2(sqrt(a), sqrt(1 - a))` with `a` the haversine quantity
`haversineA`, whose angles are the degrees multiplied by `π / 180`; for the start
(20.2576593, 44.8154844), the end (21.3135146, 43.9322129) and `c = 0` the returned value is
within 0.001 of 129.183169. -/
theorem calculateDistance_haversine :
    (∀ (startType endType : String) (lonS latS lonE latE c : ℝ),
        calculateDistance realMath { Type_ := startType, Coordinates := [lonS, latS] }
            { Type_ := endType, Coordinates := [lonE, latE] } c =
          some (haversineFormula lonS latS lonE latE c)) ∧
      ∃ d : ℝ,
        calculateDistance realMath
            { Type_ := "Point", Coordinates := [20.2576593, 44.8154844] }
            { Type_ := "Point", Coordinates := [21.3135146, 43.9322129] } 0 = some d ∧
          |d - 129.183169| ≤ 0.001 := by
  refine ⟨calculateDistance_haversineFormula, _,
    calculateDistance_haversineFormula "Point" "Point" _ _ _ _ 0, ?_⟩
  obtain ⟨hlower, hupper⟩ := haversineA_example_bounds
  rw [haversineFormula, atan2_sqrt _ (le_trans (by norm_num) hlower)
    (le_trans hupper (by norm_num)), zero_add]
  exact arcsin_example_bounds

end HaversineLemmas

section IndexLemmas

variable {F : Type} [LinearOrderedField F]

/-- The function `extractCoordinates` on a text without a comma that parses to a number
between -180 and 180: the read of the second coordinate is out of range. -/
theorem extractCoordinates_one (parseFloat : String → Except Error F) (text : List Char)
    (value : F) (htext : ',' ∉ text)
    (hvalue : parseFloat (removeSpaces (String.mk text)) = .ok value)
    (hlow : -180 ≤ value) (hhigh : value ≤ 180) :
    extractCoordinates parseFloat (String.mk text) =
      .error (Fault.panic "index out of range") := by
  have hfilter : ',' ∉ text.filter (fun c => c ≠ ' ') :=
    fun h => htext (List.mem_of_mem_filter h)
  have hsplit : splitCommas (removeSpaces (String.mk text)) =
      [removeSpaces (String.mk text)] := by
    simp only [splitCommas, removeSpaces]
    rw [splitAtCommas_no_comma _ hfilter]
    rfl
  have hrange : ¬ (value < -180 ∨ value > 180) := by
    rintro (h | h)
    · exact absurd hlow (not_le.2 h)
    · exact absurd hhigh (not_le.2 h)
  simp [extractCoordinates, hsplit, parseCoordinates, hvalue, hrange]

/-- The pieces of a text with two commas, after its spaces are removed. -/
theorem splitCommas_removeSpaces_three (first second third : List Char) (hfirst : ',' ∉ first)
    (hsecond : ',' ∉ second) (hthird : ',' ∉ third) :
    splitCommas (removeSpaces (String.mk (first ++ ',' :: (second ++ ',' :: third)))) =
      [removeSpaces (String.mk first), removeSpaces (String.mk second),
        removeSpaces (String.mk third)] := by
  have h1 : ',' ∉ first.filter (fun c => c ≠ ' ') :=
    fun h => hfirst (List.mem_of_mem_filter h)
  have h2 : ',' ∉ second.filter (fun c => c ≠ ' ') :=
    fun h => hsecond (List.mem_of_mem_filter h)
  have h3 : ',' ∉ third.filter (fun c => c ≠ ' ') :=
    fun h => hthird (List.mem_of_mem_filter h)
  have hcomma : decide ((',' : Char) ≠ ' ') = true := by decide
  simp only [splitCommas, removeSpaces, List.filter_append, List.filter_cons, hcomma, if_true]
  rw [splitAtCommas_append _ _ h1, splitAtCommas_append _ _ h2, splitAtCommas_no_comma _ h3]
  rfl

/-- The function `extractCoordinates` on a text with two commas whose three pieces parse,
the last to a number between -180 and 180 and the middle one to a number between -90 and
90: the three numbers are returned, reversed. -/
theorem extractCoordinates_three (parseFloat : String → Except Error F)
    (first second third : List Char) (x y z : F) (hfirst : ',' ∉ first)
    (hsecond : ',' ∉ second) (hthird : ',' ∉ third)
    (hx : parseFloat (removeSpaces (String.mk first)) = .ok x)
    (hy : parseFloat (removeSpaces (String.mk second)) = .ok y)
    (hz : parseFloat (removeSpaces (String.mk third)) = .ok z)
    (hzlow : -180 ≤ z) (hzhigh : z ≤ 180) (hylow : -90 ≤ y) (hyhigh : y ≤ 90) :
    extractCoordinates parseFloat (String.mk (first ++ ',' :: (second ++ ',' :: third))) =
      .ok [z, y, x] := by
  have hz2 : ¬ (z < -180 ∨ z > 180) := by
    rintro (h | h)
    · exact absurd hzlow (not_le.2 h)
    · exact absurd hzhigh (not_le.2 h)
  have hy2 : ¬ (y < -90 ∨ y > 90) := by
    rintro (h | h)
    · exact absurd hylow (not_le.2 h)
    · exact absurd hyhigh (not_le.2 h)
  simp [extractCoordinates, splitCommas_removeSpaces_three first second third hfirst hsecond
    hthird, parseCoordinates, hx, hy, hz, hz2, hy2]

/-- C29 does not hold for every input string: on the single number "90", which the
pattern `customcoordinates` refuses, `extractCoordinates` reads the second coordinate of a
one-element sequence and panics with an index out of range, and on the three numbers
"44.8154844,20.2576593,90", refused as well, it returns a sequence of three numbers. -/
theorem extractCoordinates_other_lengths :
    extractCoordinates exampleParseFloat "90" = .error (Fault.panic "index out of range") ∧
      extractCoordinates exampleParseFloat "44.8154844,20.2576593,90" =
        .ok [90, 20.2576593, 44.8154844] ∧
      ([90, 20.2576593, 44.8154844] : List ℚ).length = 3 := by
  refine ⟨?_, ?_, rfl⟩
  · exact extractCoordinates_one exampleParseFloat "90".data 90 (by decide)
      (by simp [exampleParseFloat, removeSpaces]) (by norm_num) (by norm_num)
  · exact extractCoordinates_three exampleParseFloat "44.8154844".data "20.2576593".data
      "90".data 44.8154844 20.2576593 90 (by decide) (by decide) (by decide)
      (by simp [exampleParseFloat, removeSpaces]) (by simp [exampleParseFloat, removeSpaces])
      (by simp [exampleParseFloat, removeSpaces]) (by norm_num) (by norm_num) (by norm_num)
      (by norm_num)

end IndexLemmas

section TimestampLemmas

variable {σ F : Type} [LinearOrderedField F]

theorem getDate_recordCalls (client : DBClient σ F) (username : String) (date : Int)
    (dateType : String) (st : σ) (log : List (StoreCall F)) :
    getDate (recordCalls client) username date dateType (st, log) =
      ((getDate client username date dateType st).1,
        (getDate client username date dateType st).2,
        log ++ [dateQuery username date dateType]) := by
  simp only [getDate, recordCalls, dateQuery]
  rcases client.Find locationHistoryCollection
    { username := username
      timestamp := some ((if dateType = "before" then TimestampCond.lte else TimestampCond.gte)
        date) }
    (some { location := false, distance := true })
    (some { timestamp := if dateType = "before" then -1 else 1 }) 1 1 st with ⟨result, st1⟩
  cases result with
  | error err => rfl
  | ok cursor =>
    simp only
    cases cursor.All with
    | error err => rfl
    | ok locations => cases locations <;> rfl

/-- When start does not parse, `calculateUserDistance` returns the error of the parse
without a call to the store. -/
theorem calculateUserDistance_start_error (timeParse : String → Except Error Time)
    (client : DBClient σ F) (username start end_ : String) (st : σ) (err : Error)
    (hstart : timeParse start = .error err) :
    calculateUserDistance timeParse (recordCalls client) username start end_ (st, []) =
      (.error err, st, []) := by
  simp [calculateUserDistance, hstart]

/-- When start parses and end does not, `calculateUserDistance` has made the lookup of the
first point at or after start before it returns an error. -/
theorem calculateUserDistance_end_error (timeParse : String → Except Error Time)
    (client : DBClient σ F) (username start end_ : String) (st : σ) (parsedStart : Time)
    (err : Error) (hstart : timeParse start = .ok parsedStart)
    (hend : timeParse end_ = .error err) :
    ∃ failure,
      calculateUserDistance timeParse (recordCalls client) username start end_ (st, []) =
        (.error failure, (getDate client username parsedStart.UnixMilli "after" st).2,
          [dateQuery username parsedStart.UnixMilli "after"]) := by
  simp only [calculateUserDistance, hstart, getFirstAfter, getDate_recordCalls, hend,
    List.nil_append]
  rcases getDate client username parsedStart.UnixMilli "after" st with ⟨result, st1⟩
  cases result with
  | error failure => exact ⟨failure, rfl⟩
  | ok distance => exact ⟨err, rfl⟩

/-- An error of `calculateUserDistance` is answered with status 500 by
`calculateUserDistanceHandler`. -/
theorem calculateUserDistanceHandler_error
    (jsonDecode : String → Except Error DistanceRequest)
    (validateStruct : DistanceRequest → Option Error)
    (timeParse : String → Except Error Time) (client : DBClient σ F)
    (jsonEncode : F → Option Error) (body : String) (st st1 : σ) (data : DistanceRequest)
    (err : Error) (hdecode : jsonDecode body = .ok data) (hvalid : validateStruct data = none)
    (herror : calculateUserDistance timeParse client data.Username data.Start data.End st =
      (.error err, st1)) :
    calculateUserDistanceHandler jsonDecode validateStruct timeParse client jsonEncode body st =
      (StatusInternalServerError, none, st1) := by
  simp [calculateUserDistanceHandler, hdecode, hvalid, herror]

/-- C21 fails on the code: a start naming month 13 passes the validation of the request
and does not parse; `calculateUserDistance` returns the error without a lookup, and
`calculateUserDistanceHandler` answers with status 500, not 400. With that string as the
end, after a start that parses, `calculateUserDistance` makes the lookup for start before
it returns the error, and the handler answers with status 500 as well. -/
theorem calculateUserDistanceHandler_unparsable_timestamp :
    validateDistanceRequest
        { Username := "user3", Start := "2025-13-01T00:00:00+00:00",
          End := "1970-01-01T00:00:02+00:00" } = none ∧
      exampleTimeParse "2025-13-01T00:00:00+00:00" = .error "parsing time: cannot parse" ∧
      calculateUserDistance exampleTimeParse (recordCalls mongoClient) "user3"
          "2025-13-01T00:00:00+00:00" "1970-01-01T00:00:02+00:00" (exampleDatabase, []) =
        (.error "parsing time: cannot parse", exampleDatabase, []) ∧
      calculateUserDistanceHandler
          (decodeAs { Username := "user3", Start := "2025-13-01T00:00:00+00:00",
                      End := "1970-01-01T00:00:02+00:00" })
          validateDistanceRequest exampleTimeParse (recordCalls mongoClient) acceptRequest ""
          (exampleDatabase, []) =
        (500, none, exampleDatabase, []) ∧
      validateDistanceRequest
        { Username := "user3", Start := "1970-01-01T00:00:01+00:00",
          End := "2025-13-01T00:00:00+00:00" } = none ∧
      calculateUserDistance exampleTimeParse (recordCalls mongoClient) "user3"
          "1970-01-01T00:00:01+00:00" "2025-13-01T00:00:00+00:00" (exampleDatabase, []) =
        (.error "parsing time: cannot parse", exampleDatabase,
          [StoreCall.Find locationHistoryCollection
            { username := "user3", timestamp := some (TimestampCond.gte 1000) }
            (some { location := false, distance := true }) (some { timestamp := 1 }) 1 1]) ∧
      calculateUserDistanceHandler
          (decodeAs { Username := "user3", Start := "1970-01-01T00:00:01+00:00",
                      End := "2025-13-01T00:00:00+00:00" })
          validateDistanceRequest exampleTimeParse (recordCalls mongoClient) acceptRequest ""
          (exampleDatabase, []) =
        (500, none, exampleDatabase,
          [StoreCall.Find locationHistoryCollection
            { username := "user3", timestamp := some (TimestampCond.gte 1000) }
            (some { location := false, distance := true }) (some { timestamp := 1 }) 1 1]) := by
  have hbad : exampleTimeParse "2025-13-01T00:00:00+00:00" =
      .error "parsing time: cannot parse" := by simp [exampleTimeParse]
  have hgood : exampleTimeParse "1970-01-01T00:00:01+00:00" =
      .ok { unixNano := 1000000000 } := by simp [exampleTimeParse]
  have hstart := calculateUserDistance_start_error exampleTimeParse
    (mongoClient : DBClient (Database ℚ) ℚ) "user3" "2025-13-01T00:00:00+00:00"
    "1970-01-01T00:00:02+00:00" exampleDatabase _ hbad
  have hend : calculateUserDistance exampleTimeParse (recordCalls mongoClient) "user3"
      "1970-01-01T00:00:01+00:00" "2025-13-01T00:00:00+00:00" (exampleDatabase, []) =
      (.error "parsing time: cannot parse", exampleDatabase,
        [StoreCall.Find locationHistoryCollection
          { username := "user3", timestamp := some (TimestampCond.gte 1000) }
          (some { location := false, distance := true }) (some { timestamp := 1 }) 1 1]) := by
    simp only [calculateUserDistance, hgood, hbad, getFirstAfter, getDate_recordCalls,
      getDate_after, List.nil_append]
    rfl
  refine ⟨by decide, hbad, hstart, ?_, by decide, hend, ?_⟩
  · exact calculateUserDistanceHandler_error _ _ _ _ _ _ _ _
      { Username := "user3", Start := "2025-13-01T00:00:00+00:00",
        End := "1970-01-01T00:00:02+00:00" } _ rfl (by decide) hstart
  · exact calculateUserDistanceHandler_error _ _ _ _ _ _ _ _
      { Username := "user3", Start := "1970-01-01T00:00:01+00:00",
        End := "2025-13-01T00:00:00+00:00" } _ rfl (by decide) hend

end TimestampLemmas

section PageLemmas

variable {σ F : Type} [LinearOrderedField F]

theorem wrapInt64_of_range (x : Int) (hlow : -(2 ^ 63) ≤ x) (hhigh : x < 2 ^ 63) :
    wrapInt64 x = x := by
  unfold wrapInt64
  rw [Int.emod_eq_of_lt (by omega) (by omega)]
  omega

theorem MongoClient_Find_findOptions (collectionName : String) (filter : Filter)
    (projection : Option Projection) (sort : Option SortSpec) (pageNumber pageSize : Int)
    (db : Database F) :
    MongoClient.Find collectionName filter projection sort pageNumber pageSize db =
      (Collection.Find (db collectionName) filter
        (findOptions projection sort pageNumber pageSize), db) := rfl

theorem findOptions_eq (projection : Option Projection) (sort : Option SortSpec)
    (pageNumber pageSize : Int) :
    findOptions projection sort pageNumber pageSize =
      { sort := sort, projection := projection, limit := pageSize,
        skip := wrapInt64 (pageSize * wrapInt64 (pageNumber - 1)) } := by
  cases projection <;> cases sort <;> rfl

theorem skip_in_range (pageNumber pageSize : Int) (hnumber : 1 ≤ pageNumber)
    (hsize : 1 ≤ pageSize) (hrange : pageSize * (pageNumber - 1) < 2 ^ 63) :
    wrapInt64 (pageSize * wrapInt64 (pageNumber - 1)) = pageSize * (pageNumber - 1) ∧
      0 ≤ pageSize * (pageNumber - 1) := by
  have hnonneg : 0 ≤ pageSize * (pageNumber - 1) :=
    mul_nonneg (by omega) (by omega)
  have hle : pageNumber - 1 ≤ pageSize * (pageNumber - 1) := by nlinarith
  rw [wrapInt64_of_range (pageNumber - 1) (by omega) (by omega),
    wrapInt64_of_range _ (by omega) hrange]
  exact ⟨rfl, hnonneg⟩

/-- C22, within the range of the 64-bit integers: for every page number and page size of
at least 1 whose product is below `2 ^ 63`, `MongoClient.Find` asks the store for the limit
`pageSize` and the skip `pageSize * (pageNumber - 1)`, which is not negative; page 1 skips
nothing; the skip of the next page is the skip of this page plus the limit; and the
lookups of `findCurrent` and `getDate`, page 1 of size 1, ask for skip 0 and limit 1. -/
theorem MongoClient_Find_pagination (projection : Option Projection) (sort : Option SortSpec)
    (pageNumber pageSize : Int) (hnumber : 1 ≤ pageNumber) (hsize : 1 ≤ pageSize)
    (hrange : pageSize * pageNumber < 2 ^ 63) :
    (∀ (collectionName : String) (filter : Filter) (db : Database F),
      MongoClient.Find collectionName filter projection sort pageNumber pageSize db =
        (Collection.Find (db collectionName) filter
          { sort := sort, projection := projection, limit := pageSize,
            skip := pageSize * (pageNumber - 1) }, db)) ∧
      (findOptions projection sort pageNumber pageSize).limit = pageSize ∧
      (findOptions projection sort pageNumber pageSize).skip = pageSize * (pageNumber - 1) ∧
      0 ≤ (findOptions projection sort pageNumber pageSize).skip ∧
      (findOptions projection sort 1 pageSize).skip = 0 ∧
      (findOptions projection sort (pageNumber + 1) pageSize).skip =
        (findOptions projection sort pageNumber pageSize).skip +
          (findOptions projection sort pageNumber pageSize).limit ∧
      (∀ (client : DBClient σ F) (username : String) (st : σ),
        (findCurrent (recordCalls client) username (st, [])).2.2 =
          [StoreCall.Find locationHistoryCollection { username := username, timestamp := none }
            (some { location := true, distance := true }) (some { timestamp := -1 }) 1 1]) ∧
      (∀ (client : DBClient σ F) (username : String) (date : Int) (dateType : String) (st : σ),
        (getDate (recordCalls client) username date dateType (st, [])).2.2 =
          [StoreCall.Find locationHistoryCollection
            { username := username
              timestamp :=
                some ((if dateType = "before" then TimestampCond.lte else TimestampCond.gte)
                  date) }
            (some { location := false, distance := true })
            (some { timestamp := if dateType = "before" then -1 else 1 }) 1 1]) ∧
      (findOptions projection sort 1 1).skip = 0 ∧
      (findOptions projection sort 1 1).limit = 1 := by
  have hthis : pageSize * (pageNumber - 1) < 2 ^ 63 := by nlinarith
  have hnext : pageSize * (pageNumber + 1 - 1) < 2 ^ 63 := by
    have : pageNumber + 1 - 1 = pageNumber := by ring
    rw [this]
    exact hrange
  obtain ⟨hskip, hnonneg⟩ := skip_in_range pageNumber pageSize hnumber hsize hthis
  obtain ⟨hskipNext, _⟩ := skip_in_range (pageNumber + 1) pageSize (by omega) hsize hnext
  have hfirst : ∀ size : Int, wrapInt64 (size * wrapInt64 (1 - 1)) = 0 := by
    intro size
    have h0 : wrapInt64 (1 - 1) = 0 := by decide
    rw [h0, mul_zero]
    decide
  refine ⟨?_, ?_, ?_, ?_, ?_, ?_, ?_, ?_, ?_, ?_⟩
  · intro collectionName filter db
    rw [MongoClient_Find_findOptions, findOptions_eq, hskip]
  · rw [findOptions_eq]
  · rw [findOptions_eq]
    exact hskip
  · rw [findOptions_eq]
    show 0 ≤ wrapInt64 (pageSize * wrapInt64 (pageNumber - 1))
    rw [hskip]
    exact hnonneg
  · rw [findOptions_eq]
    exact hfirst pageSize
  · rw [findOptions_eq, findOptions_eq]
    show wrapInt64 (pageSize * wrapInt64 (pageNumber + 1 - 1)) =
      wrapInt64 (pageSize * wrapInt64 (pageNumber - 1)) + pageSize
    rw [hskip, hskipNext]
    ring
  · intro client username st
    rw [findCurrent_recordCalls]
    rfl
  · intro client username date dateType st
    rw [getDate_recordCalls]
    rfl
  · rw [findOptions_eq]
    exact hfirst 1
  · rw [findOptions_eq]

/-- C22, at an instance: page 3 of size 10. -/
theorem MongoClient_Find_pagination_witness :
    (∀ (collectionName : String) (filter : Filter) (db : Database ℚ),
      MongoClient.Find collectionName filter none (some { timestamp := 1 }) 3 10 db =
        (Collection.Find (db collectionName) filter
          { sort := some { timestamp := 1 }, projection := none, limit := 10,
            skip := 10 * (3 - 1) }, db)) ∧
      (findOptions none (some { timestamp := 1 }) 3 10).skip = 20 :=
  ⟨(MongoClient_Find_pagination none (some { timestamp := 1 }) 3 10 (by decide) (by decide)
      (by decide) : _ ∧ _ ∧ _ ∧ _ ∧ _ ∧ _ ∧
        (∀ (client : DBClient Unit ℚ) (username : String) (st : Unit), _) ∧ _).1,
    by decide⟩

/-- C22 as written fails for large pages: for page 3 of size `2 ^ 62` the product
`pageSize * (pageNumber - 1)` wraps around to the negative number `-2 ^ 63`, and the store
rejects the query. -/
theorem MongoClient_Find_skip_overflow :
    (1 : Int) ≤ 3 ∧ (1 : Int) ≤ 4611686018427387904 ∧
      (findOptions none none 3 4611686018427387904).skip = -9223372036854775808 ∧
      (findOptions none none 3 4611686018427387904).skip ≠ 4611686018427387904 * (3 - 1) ∧
      ∀ (collectionName : String) (filter : Filter) (db : Database ℚ),
        MongoClient.Find collectionName filter none none 3 4611686018427387904 db =
          (.error "skip value must be non-negative", db) := by
  have hskip : (findOptions none none 3 4611686018427387904).skip = -9223372036854775808 := by
    decide
  refine ⟨by decide, by decide, hskip, by decide, ?_⟩
  intro collectionName filter db
  rw [MongoClient_Find_findOptions]
  simp only [Collection.Find, hskip]
  rfl

end PageLemmas

section CurrentLemmas

variable {σ τ F : Type} [LinearOrderedField F]

/-- The run of `updateUserLocation` in terms of the write and the forward it makes. -/
theorem updateUserLocation_run (now : Int) (client : DBClient σ F)
    (ledgerClient : GRPCClient τ F) (username : String) (coordinates : List F) (st : σ)
    (remote : τ) :
    (∃ err, (client.SaveOrReplaceDocument locationCollection
          (currentRecord username coordinates now) (userFilter username) st).1 = some err ∧
        updateUserLocation now client ledgerClient username coordinates st remote =
          (some err, (client.SaveOrReplaceDocument locationCollection
            (currentRecord username coordinates now) (userFilter username) st).2, remote)) ∨
      ((client.SaveOrReplaceDocument locationCollection
          (currentRecord username coordinates now) (userFilter username) st).1 = none ∧
        updateUserLocation now client ledgerClient username coordinates st remote =
          ((ledgerClient.UpdateUserLocation (forwardedReport username coordinates now)
              remote).1,
            (client.SaveOrReplaceDocument locationCollection
              (currentRecord username coordinates now) (userFilter username) st).2,
            (ledgerClient.UpdateUserLocation (forwardedReport username coordinates now)
              remote).2)) := by
  simp only [updateUserLocation, currentRecord, userFilter, forwardedReport]
  rcases client.SaveOrReplaceDocument locationCollection
    { Username := username, Location := { Type_ := "Point", Coordinates := coordinates },
      Distance := 0, Timestamp := now } { username := username, timestamp := none } st with
    ⟨saved, st1⟩
  cases saved with
  | some err => exact Or.inl ⟨err, rfl, rfl⟩
  | none =>
    refine Or.inr ⟨rfl, ?_⟩
    simp only
    rcases ledgerClient.UpdateUserLocation
      { Username := username, Location := { Type_ := "Point", Coordinates := coordinates },
        Distance := 0, Timestamp := now } remote with ⟨sent, remote1⟩
    cases sent <;> rfl

theorem userFilter_matches_currentRecord (username : String) (coordinates : List F)
    (now : Int) :
    (userFilter username).matches (currentRecord username coordinates now) = true := by
  simp [userFilter, Filter.matches, currentRecord]

/-- On the document store, the store after `updateUserLocation` is the store after its
write, whatever the ledger service answers. -/
theorem updateUserLocation_mongoClient (now : Int) (ledgerClient : GRPCClient τ F)
    (username : String) (coordinates : List F) (db : Database F) (remote : τ) :
    (updateUserLocation now mongoClient ledgerClient username coordinates db remote).2.1 =
      (MongoClient.SaveOrReplaceDocument locationCollection
        (currentRecord username coordinates now) (userFilter username) db).2 := by
  rcases updateUserLocation_run now mongoClient ledgerClient username coordinates db remote
    with ⟨err, _, hrun⟩ | ⟨_, hrun⟩ <;> rw [hrun] <;> rfl

/-- C23: after every successful `updateUserLocation` on the document store, when the
current-location collection held at most one record under the username, it holds exactly
one, with the given username, the type "Point", the given coordinates and distance 0; the
records of the other users are unchanged, the collection grows by one record when the
user had none and keeps its length otherwise, no other collection changes, and the
ledger service has accepted the forwarded report. -/
theorem updateUserLocation_current_record (now : Int) (ledgerClient : GRPCClient τ F)
    (username : String) (coordinates : List F) (db : Database F) (remote : τ)
    (hok : (updateUserLocation now mongoClient ledgerClient username coordinates db
      remote).1 = none)
    (hkey : ((db locationCollection).filter
      (fun d => decide (d.Username = username))).length ≤ 1) :
    ∃ record : LocationInfo F,
      record.Username = username ∧ record.Location.Type_ = "Point" ∧
      record.Location.Coordinates = coordinates ∧ record.Distance = 0 ∧
      ((updateUserLocation now mongoClient ledgerClient username coordinates db
          remote).2.1 locationCollection).filter (fun d => decide (d.Username = username)) =
        [record] ∧
      ((updateUserLocation now mongoClient ledgerClient username coordinates db
          remote).2.1 locationCollection).filter (fun d => !decide (d.Username = username)) =
        (db locationCollection).filter (fun d => !decide (d.Username = username)) ∧
      ((updateUserLocation now mongoClient ledgerClient username coordinates db
          remote).2.1 locationCollection).length =
        (if (db locationCollection).filter (fun d => decide (d.Username = username)) = []
          then (db locationCollection).length + 1
          else (db locationCollection).length) ∧
      (∀ name, name ≠ locationCollection →
        (updateUserLocation now mongoClient ledgerClient username coordinates db
          remote).2.1 name = db name) ∧
      ledgerClient.UpdateUserLocation (forwardedReport username coordinates now) remote =
        (none, (updateUserLocation now mongoClient ledgerClient username coordinates db
          remote).2.2) := by
  have hmatch : ∀ d : LocationInfo F,
      (userFilter username).matches d = decide (d.Username = username) := by
    intro d
    simp [userFilter, Filter.matches]
  obtain ⟨h1, h2, h3⟩ := ReplaceOne_upsert (userFilter username)
    (currentRecord username coordinates now)
    (userFilter_matches_currentRecord username coordinates now) (db locationCollection)
  simp only [hmatch] at h1 h2 h3
  have htail : ((db locationCollection).filter
      (fun d => decide (d.Username = username))).tail = [] := by
    cases hf : (db locationCollection).filter (fun d => decide (d.Username = username)) with
    | nil => rfl
    | cons x rest =>
      rw [hf] at hkey
      cases rest with
      | nil => rfl
      | cons y rest2 => simp at hkey
  rw [htail] at h1
  refine ⟨currentRecord username coordinates now, rfl, rfl, rfl, rfl, ?_, ?_, ?_, ?_, ?_⟩
  · rw [updateUserLocation_mongoClient]
    simpa [MongoClient.SaveOrReplaceDocument] using h1
  · rw [updateUserLocation_mongoClient]
    simpa [MongoClient.SaveOrReplaceDocument] using h2
  · rw [updateUserLocation_mongoClient]
    simpa [MongoClient.SaveOrReplaceDocument] using h3
  · intro name hname
    rw [updateUserLocation_mongoClient]
    simp [MongoClient.SaveOrReplaceDocument, hname]
  · rcases updateUserLocation_run now mongoClient ledgerClient username coordinates db remote
      with ⟨err, _, hrun⟩ | ⟨_, hrun⟩
    · rw [hrun] at hok
      cases hok
    · rw [hrun] at hok ⊢
      exact Prod.ext hok rfl

/-- C23, at an instance: `user1`, who has a current-location record, reports new
coordinates. -/
theorem updateUserLocation_current_record_witness :
    ∃ record : LocationInfo ℚ,
      record.Username = "user1" ∧ record.Location.Type_ = "Point" ∧
      record.Location.Coordinates = [20, 44] ∧ record.Distance = 0 ∧
      ((updateUserLocation 3000 mongoClient receivingLedger "user1" [20, 44] exampleLocations
          []).2.1 locationCollection).filter (fun d => decide (d.Username = "user1")) =
        [record] ∧
      ((updateUserLocation 3000 mongoClient receivingLedger "user1" [20, 44] exampleLocations
          []).2.1 locationCollection).filter (fun d => !decide (d.Username = "user1")) =
        (exampleLocations locationCollection).filter
          (fun d => !decide (d.Username = "user1")) ∧
      ((updateUserLocation 3000 mongoClient receivingLedger "user1" [20, 44] exampleLocations
          []).2.1 locationCollection).length =
        (if (exampleLocations locationCollection).filter
            (fun d => decide (d.Username = "user1")) = []
          then (exampleLocations locationCollection).length + 1
          else (exampleLocations locationCollection).length) ∧
      (∀ name, name ≠ locationCollection →
        (updateUserLocation 3000 mongoClient receivingLedger "user1" [20, 44] exampleLocations
          []).2.1 name = exampleLocations name) ∧
      receivingLedger.UpdateUserLocation (forwardedReport "user1" [20, 44] 3000) [] =
        (none, (updateUserLocation 3000 mongoClient receivingLedger "user1" [20, 44]
          exampleLocations []).2.2) :=
  updateUserLocation_current_record 3000 receivingLedger "user1" [20, 44] exampleLocations []
    rfl (by decide)

end CurrentLemmas

section ForwardLemmas

variable {σ τ F : Type} [LinearOrderedField F]

/-- The run of `updateUserLocation` on clients that record their calls: the write is
recorded, and the forward after it when the write succeeded. -/
theorem updateUserLocation_trace (now : Int) (client : DBClient σ F)
    (ledgerClient : GRPCClient τ F) (username : String) (coordinates : List F) (st : σ)
    (remote : τ) :
    (∃ err, (client.SaveOrReplaceDocument locationCollection
          (currentRecord username coordinates now) (userFilter username) st).1 = some err ∧
        updateUserLocation now (recordCalls client) (recordForwards ledgerClient) username
            coordinates (st, []) (remote, []) =
          (some err,
            ((client.SaveOrReplaceDocument locationCollection
                (currentRecord username coordinates now) (userFilter username) st).2,
              [StoreCall.SaveOrReplaceDocument locationCollection
                (currentRecord username coordinates now) (userFilter username)]),
            (remote, []))) ∨
      ((client.SaveOrReplaceDocument locationCollection
          (currentRecord username coordinates now) (userFilter username) st).1 = none ∧
        updateUserLocation now (recordCalls client) (recordForwards ledgerClient) username
            coordinates (st, []) (remote, []) =
          ((ledgerClient.UpdateUserLocation (forwardedReport username coordinates now)
              remote).1,
            ((client.SaveOrReplaceDocument locationCollection
                (currentRecord username coordinates now) (userFilter username) st).2,
              [StoreCall.SaveOrReplaceDocument locationCollection
                (currentRecord username coordinates now) (userFilter username)]),
            ((ledgerClient.UpdateUserLocation (forwardedReport username coordinates now)
                remote).2,
              [forwardedReport username coordinates now]))) := by
  rcases updateUserLocation_run now (recordCalls client) (recordForwards ledgerClient)
    username coordinates (st, []) (remote, []) with ⟨err, herr, hrun⟩ | ⟨hnone, hrun⟩
  · exact Or.inl ⟨err, herr, by rw [hrun]; rfl⟩
  · exact Or.inr ⟨hnone, by rw [hrun]; rfl⟩

/-- C28: `updateUserLocation` writes the current-location record first and forwards to the
ledger service second, without rollback. On all clients and states: when the write fails,
its error is returned and the ledger client is not called; when the write succeeds and the
forward fails, the error of the forward is returned and the store is as the write left it;
the outcome and the states are those of the run on the clients themselves; the message
forwarded carries the username, type, coordinates and timestamp of the record written; and
on the document store the record is in the current-location collection after the call,
whatever the ledger service answers. -/
theorem updateUserLocation_write_then_forward (now : Int) (client : DBClient σ F)
    (ledgerClient : GRPCClient τ F) (username : String) (coordinates : List F) (st : σ)
    (remote : τ) :
    (∀ err, (client.SaveOrReplaceDocument locationCollection
          (currentRecord username coordinates now) (userFilter username) st).1 = some err →
        updateUserLocation now (recordCalls client) (recordForwards ledgerClient) username
            coordinates (st, []) (remote, []) =
          (some err,
            ((client.SaveOrReplaceDocument locationCollection
                (currentRecord username coordinates now) (userFilter username) st).2,
              [StoreCall.SaveOrReplaceDocument locationCollection
                (currentRecord username coordinates now) (userFilter username)]),
            (remote, []))) ∧
      ((client.SaveOrReplaceDocument locationCollection
          (currentRecord username coordinates now) (userFilter username) st).1 = none →
        updateUserLocation now (recordCalls client) (recordForwards ledgerClient) username
            coordinates (st, []) (remote, []) =
          ((ledgerClient.UpdateUserLocation (forwardedReport username coordinates now)
              remote).1,
            ((client.SaveOrReplaceDocument locationCollection
                (currentRecord username coordinates now) (userFilter username) st).2,
              [StoreCall.SaveOrReplaceDocument locationCollection
                (currentRecord username coordinates now) (userFilter username)]),
            ((ledgerClient.UpdateUserLocation (forwardedReport username coordinates now)
                remote).2,
              [forwardedReport username coordinates now]))) ∧
      ((updateUserLocation now (recordCalls client) (recordForwards ledgerClient) username
            coordinates (st, []) (remote, [])).1 =
          (updateUserLocation now client ledgerClient username coordinates st remote).1 ∧
        (updateUserLocation now (recordCalls client) (recordForwards ledgerClient) username
            coordinates (st, []) (remote, [])).2.1.1 =
          (updateUserLocation now client ledgerClient username coordinates st remote).2.1 ∧
        (updateUserLocation now (recordCalls client) (recordForwards ledgerClient) username
            coordinates (st, []) (remote, [])).2.2.1 =
          (updateUserLocation now client ledgerClient username coordinates st remote).2.2) ∧
      ((forwardedReport username coordinates now).Username =
          (currentRecord username coordinates now).Username ∧
        (forwardedReport username coordinates now).Location.Type_ =
          (currentRecord username coordinates now).Location.Type_ ∧
        (forwardedReport username coordinates now).Location.Coordinates =
          (currentRecord username coordinates now).Location.Coordinates ∧
        (forwardedReport username coordinates now).Timestamp =
          (currentRecord username coordinates now).Timestamp) ∧
      ∀ db : Database F,
        currentRecord username coordinates now ∈
          (updateUserLocation now mongoClient ledgerClient username coordinates db
            remote).2.1 locationCollection := by
  refine ⟨?_, ?_, ?_, ⟨rfl, rfl, rfl, rfl⟩, ?_⟩
  · intro err herr
    rcases updateUserLocation_trace now client ledgerClient username coordinates st remote
      with ⟨err2, herr2, hrun⟩ | ⟨hnone, _⟩
    · rw [herr] at herr2
      cases herr2
      exact hrun
    · rw [herr] at hnone
      cases hnone
  · intro hnone
    rcases updateUserLocation_trace now client ledgerClient username coordinates st remote
      with ⟨err2, herr2, _⟩ | ⟨_, hrun⟩
    · rw [hnone] at herr2
      cases herr2
    · exact hrun
  · rcases updateUserLocation_trace now client ledgerClient username coordinates st remote
      with ⟨err, herr, htrace⟩ | ⟨hnone, htrace⟩ <;>
      rcases updateUserLocation_run now client ledgerClient username coordinates st remote
        with ⟨err2, herr2, hrun⟩ | ⟨hnone2, hrun⟩
    · rw [herr] at herr2
      cases herr2
      rw [htrace, hrun]
      exact ⟨rfl, rfl, rfl⟩
    · rw [herr] at hnone2
      cases hnone2
    · rw [hnone] at herr2
      cases herr2
    · rw [htrace, hrun]
      exact ⟨rfl, rfl, rfl⟩
  · intro db
    rw [updateUserLocation_mongoClient]
    obtain ⟨h1, _, _⟩ := ReplaceOne_upsert (userFilter username)
      (currentRecord username coordinates now)
      (userFilter_matches_currentRecord username coordinates now) (db locationCollection)
    have hmem : currentRecord username coordinates now ∈
        (Collection.ReplaceOne (db locationCollection) (userFilter username)
          (currentRecord username coordinates now) true).filter
          (fun d => (userFilter username).matches d) := by
      rw [h1]
      exact List.mem_cons_self _ _
    simpa [MongoClient.SaveOrReplaceDocument] using List.mem_of_mem_filter hmem

/-- C28, at two instances: a store that cannot be reached, and the document store with a
ledger service that cannot be reached. -/
theorem updateUserLocation_write_then_forward_witness :
    updateUserLocation 3000 (recordCalls unavailableClient) (recordForwards receivingLedger)
        "user1" [20, 44] ((), []) ([], []) =
      (some "server selection timeout",
        ((), [StoreCall.SaveOrReplaceDocument locationCollection
          (currentRecord "user1" [20, 44] 3000) (userFilter "user1")]),
        ([], [])) ∧
      updateUserLocation 3000 (recordCalls mongoClient) (recordForwards unavailableLedger)
          "user1" [20, 44] (exampleLocations, []) ((), []) =
        (some "connection refused",
          ((MongoClient.SaveOrReplaceDocument locationCollection
              (currentRecord "user1" [20, 44] 3000) (userFilter "user1") exampleLocations).2,
            [StoreCall.SaveOrReplaceDocument locationCollection
              (currentRecord "user1" [20, 44] 3000) (userFilter "user1")]),
          ((), [forwardedReport "user1" [20, 44] 3000])) ∧
      currentRecord "user1" [20, 44] 3000 ∈
        (updateUserLocation 3000 mongoClient unavailableLedger "user1" [20, 44]
          exampleLocations ()).2.1 locationCollection :=
  ⟨(updateUserLocation_write_then_forward 3000 unavailableClient receivingLedger "user1"
      [20, 44] () []).1 "server selection timeout" rfl,
    (updateUserLocation_write_then_forward 3000 mongoClient unavailableLedger "user1"
      [20, 44] exampleLocations ()).2.1 rfl,
    (updateUserLocation_write_then_forward 3000 mongoClient unavailableLedger "user1"
      [20, 44] exampleLocations ()).2.2.2.2 exampleLocations⟩

end ForwardLemmas

section SearchLemmas

variable {σ F : Type} [LinearOrderedField F]

theorem foldl_usernames (records : List (LocationInfo F)) :
    ∀ usernames : List String,
      records.foldl (fun usernames rawUsername => usernames ++ [rawUsername.Username])
          usernames =
        usernames ++ records.map (fun record => record.Username) := by
  induction records with
  | nil => intro usernames; simp
  | cons record rest ih =>
    intro usernames
    rw [List.foldl_cons, ih]
    simp

/-- C24: for every target, radius, page number and page size, when the store answers the
query of `findNear` with documents, `findNear` returns without error the non-nil sequence
of the usernames of these documents, in their order and as many as there are documents,
and `searchUserLocation` returns the same for the point with the coordinates of the
target; when the store answers with no document, the sequence is empty and not nil. -/
theorem findNear_usernames (client : NearClient σ F) (target : Location F) (distance : F)
    (pageNumber pageSize : Int) (st st1 : σ) (cursor : Cursor F)
    (records : List (LocationInfo F))
    (hfind : client.Find locationCollection { geometry := target, maxDistance := distance }
      (some { username := 1 }) (some { username := 1 }) pageNumber pageSize st =
        (.ok cursor, st1))
    (hall : cursor.All = .ok records) :
    findNear client target distance pageNumber pageSize st =
        ((some (records.map (fun record => record.Username)), none), st1) ∧
      (records.map (fun record => record.Username)).length = records.length ∧
      (records = [] →
        findNear client target distance pageNumber pageSize st = ((some [], none), st1)) ∧
      (target.Type_ = "Point" →
        searchUserLocation client target.Coordinates distance pageNumber pageSize st =
          ((some (records.map (fun record => record.Username)), none), st1)) := by
  have hnear : findNear client target distance pageNumber pageSize st =
      ((some (records.map (fun record => record.Username)), none), st1) := by
    simp only [findNear, hfind, hall, foldl_usernames, List.nil_append]
  refine ⟨hnear, List.length_map _ _, ?_, ?_⟩
  · intro hempty
    rw [hnear, hempty]
    rfl
  · intro hpoint
    have htarget : ({ Type_ := "Point", Coordinates := target.Coordinates } : Location F) =
        target := by
      cases target
      simp only at hpoint
      rw [hpoint]
    simp only [searchUserLocation, htarget, hnear]

/-- C24, at an instance: a store that answers with the records of `user4` and `user5`. -/
theorem findNear_usernames_witness :
    findNear (answeringStore nearbyRecords) { Type_ := "Point", Coordinates := [21, 43] } 50
          1 10 () =
        ((some (nearbyRecords.map (fun record => record.Username)), none), ()) ∧
      (nearbyRecords.map (fun record => record.Username)).length = nearbyRecords.length ∧
      (nearbyRecords = [] →
        findNear (answeringStore nearbyRecords) { Type_ := "Point", Coordinates := [21, 43] }
          50 1 10 () = ((some [], none), ())) ∧
      (({ Type_ := "Point", Coordinates := [21, 43] } : Location ℚ).Type_ = "Point" →
        searchUserLocation (answeringStore nearbyRecords)
            ({ Type_ := "Point", Coordinates := [21, 43] } : Location ℚ).Coordinates 50 1 10
            () =
          ((some (nearbyRecords.map (fun record => record.Username)), none), ())) :=
  findNear_usernames (answeringStore nearbyRecords)
    { Type_ := "Point", Coordinates := [21, 43] } 50 1 10 () () { All := .ok nearbyRecords }
    nearbyRecords rfl rfl

/-- What `findNear` and `searchUserLocation` return on a store without a matching record,
and on the records of `user4` and `user5`. -/
theorem findNear_examples :
    findNear (answeringStore ([] : List (LocationInfo ℚ)))
          { Type_ := "Point", Coordinates := [21, 43] } 50 1 10 () =
        ((some [], none), ()) ∧
      searchUserLocation (answeringStore ([] : List (LocationInfo ℚ))) [21, 43] 50 1 10 () =
        ((some [], none), ()) ∧
      searchUserLocation (answeringStore nearbyRecords) [21, 43] 50 1 10 () =
        ((some ["user4", "user5"], none), ()) := by
  refine ⟨rfl, rfl, rfl⟩

end SearchLemmas

section PositionLemmas

theorem GreatCircleDistance_haversineA (lonA latA lonB latB : ℝ) :
    GreatCircleDistance realMath [lonA, latA] [lonB, latB] =
      6371 * 2 *
        Complex.arg
          { re := Real.sqrt (1 - haversineA lonA latA lonB latB)
            im := Real.sqrt (haversineA lonA latA lonB latB) } := by
  have hdeg : ∀ d : ℝ, d * Real.pi / 180 = d * (Real.pi / 180) := fun d => by ring
  simp only [GreatCircleDistance, realMath, haversineA, Real.rpow_two, hdeg]

/-- The great-circle distance is positive as soon as the haversine quantity is. -/
theorem GreatCircleDistance_pos_of_haversineA_pos (lonA latA lonB latB : ℝ)
    (hpos : 0 < haversineA lonA latA lonB latB) :
    0 < GreatCircleDistance realMath [lonA, latA] [lonB, latB] := by
  rw [GreatCircleDistance_haversineA]
  have hsqrt : 0 < Real.sqrt (haversineA lonA latA lonB latB) := Real.sqrt_pos.2 hpos
  have hnonneg : 0 ≤ Complex.arg
      { re := Real.sqrt (1 - haversineA lonA latA lonB latB)
        im := Real.sqrt (haversineA lonA latA lonB latB) } :=
    Complex.arg_nonneg_iff.2 (le_of_lt hsqrt)
  have hne : Complex.arg
      { re := Real.sqrt (1 - haversineA lonA latA lonB latB)
        im := Real.sqrt (haversineA lonA latA lonB latB) } ≠ 0 := by
    intro hzero
    have := (Complex.arg_eq_zero_iff.1 hzero).2
    exact absurd this (ne_of_gt hsqrt)
  have harg := lt_of_le_of_ne hnonneg (Ne.symm hne)
  positivity

theorem cos_latitude_nonneg (lat : ℝ) (hlow : -90 ≤ lat) (hhigh : lat ≤ 90) :
    0 ≤ Real.cos (lat * (Real.pi / 180)) := by
  have hpi := Real.pi_pos
  apply Real.cos_nonneg_of_neg_pi_div_two_le_of_le
  · nlinarith
  · nlinarith

theorem cos_latitude_pos (lat : ℝ) (hlow : -90 ≤ lat) (hhigh : lat ≤ 90) (hnorth : lat ≠ 90)
    (hsouth : lat ≠ -90) : 0 < Real.cos (lat * (Real.pi / 180)) := by
  have hpi := Real.pi_pos
  have h1 : -90 < lat := lt_of_le_of_ne hlow (Ne.symm hsouth)
  have h2 : lat < 90 := lt_of_le_of_ne hhigh hnorth
  apply Real.cos_pos_of_mem_Ioo
  constructor
  · nlinarith
  · nlinarith

/-- The sine of half the difference of two angles given in degrees is not zero when the
degrees differ by less than a full turn and are not equal. -/
theorem sin_half_difference_ne_zero (a b : ℝ) (hne : a ≠ b) (hlow : -360 < b - a)
    (hhigh : b - a < 360) :
    Real.sin ((b * (Real.pi / 180) - a * (Real.pi / 180)) / 2) ≠ 0 := by
  have hpi := Real.pi_pos
  have hform : (b * (Real.pi / 180) - a * (Real.pi / 180)) / 2 =
      (b - a) * (Real.pi / 360) := by ring
  rw [hform]
  intro hzero
  have hlt1 : -Real.pi < (b - a) * (Real.pi / 360) := by nlinarith
  have hlt2 : (b - a) * (Real.pi / 360) < Real.pi := by nlinarith
  have := (Real.sin_eq_zero_iff_of_lt_of_lt hlt1 hlt2).1 hzero
  have hpos : 0 < Real.pi / 360 := by positivity
  rcases mul_eq_zero.1 this with h | h
  · exact hne (by linarith)
  · exact absurd h (ne_of_gt hpos)

/-- Two pairs of valid coordinates that name different positions are a positive
great-circle distance apart. -/
theorem GreatCircleDistance_pos (lonA latA lonB latB : ℝ) (hA : InRange lonA latA)
    (hB : InRange lonB latB) (hdiffer : DifferInPosition lonA latA lonB latB) :
    0 < GreatCircleDistance realMath [lonA, latA] [lonB, latB] := by
  apply GreatCircleDistance_pos_of_haversineA_pos
  obtain ⟨hA1, hA2, hA3, hA4⟩ := hA
  obtain ⟨hB1, hB2, hB3, hB4⟩ := hB
  have hcosA := cos_latitude_nonneg latA hA3 hA4
  have hcosB := cos_latitude_nonneg latB hB3 hB4
  unfold haversineA
  rcases hdiffer with hlat | ⟨hnorth, hsouth, hlon, hturn1, hturn2⟩
  · have hsin := sin_half_difference_ne_zero latA latB hlat (by linarith) (by linarith)
    have hsq : 0 < Real.sin ((latB * (Real.pi / 180) - latA * (Real.pi / 180)) / 2) ^ 2 :=
      by positivity
    have hrest : 0 ≤ Real.cos (latA * (Real.pi / 180)) * Real.cos (latB * (Real.pi / 180)) *
        Real.sin ((lonB * (Real.pi / 180) - lonA * (Real.pi / 180)) / 2) ^ 2 :=
      mul_nonneg (mul_nonneg hcosA hcosB) (sq_nonneg _)
    linarith
  · by_cases hlat : latA = latB
    · subst hlat
      have hcos := cos_latitude_pos latA hA3 hA4 hnorth hsouth
      have hlow : -360 < lonB - lonA := by
        rcases lt_or_eq_of_le (show -360 ≤ lonB - lonA by linarith) with h | h
        · exact h
        · exact absurd (by linarith) hturn1
      have hhigh : lonB - lonA < 360 := by
        rcases lt_or_eq_of_le (show lonB - lonA ≤ 360 by linarith) with h | h
        · exact h
        · exact absurd h hturn2
      have hsin := sin_half_difference_ne_zero lonA lonB hlon hlow hhigh
      have hsq : 0 < Real.sin ((lonB * (Real.pi / 180) - lonA * (Real.pi / 180)) / 2) ^ 2 :=
        by positivity
      have hfirst : 0 ≤ Real.sin ((latA * (Real.pi / 180) - latA * (Real.pi / 180)) / 2) ^ 2 :=
        sq_nonneg _
      have hsecond : 0 < Real.cos (latA * (Real.pi / 180)) * Real.cos (latA * (Real.pi / 180)) *
          Real.sin ((lonB * (Real.pi / 180) - lonA * (Real.pi / 180)) / 2) ^ 2 :=
        mul_pos (mul_pos hcos hcos) hsq
      linarith
    · have hsin := sin_half_difference_ne_zero latA latB hlat (by linarith) (by linarith)
      have hsq : 0 < Real.sin ((latB * (Real.pi / 180) - latA * (Real.pi / 180)) / 2) ^ 2 :=
        by positivity
      have hrest : 0 ≤ Real.cos (latA * (Real.pi / 180)) * Real.cos (latB * (Real.pi / 180)) *
          Real.sin ((lonB * (Real.pi / 180) - lonA * (Real.pi / 180)) / 2) ^ 2 :=
        mul_nonneg (mul_nonneg hcosA hcosB) (sq_nonneg _)
      linarith

end PositionLemmas

section GapLemmas

/-- Over a ledger, a window that lies strictly between two consecutive reports `p` and
`q` gives the total distance up to `p` minus the total distance up to `q`. -/
theorem calculateUserDistance_ledger_gap {F : Type} [LinearOrderedField F] (math : Math F)
    (timeParse : String → Except Error Time) (username start end_ : String)
    (parsedStart parsedEnd : Time) (before after : List (pb.LocationInfo F))
    (p q : pb.LocationInfo F) (db : Database F)
    (hempty : ∀ d ∈ db locationHistoryCollection, d.Username ≠ username)
    (huser : ∀ r ∈ before ++ p :: q :: after, r.Username = username)
    (horder : (before ++ p :: q :: after).Pairwise (fun a b => a.Timestamp < b.Timestamp))
    (hstart : timeParse start = .ok parsedStart) (hend : timeParse end_ = .ok parsedEnd)
    (hle : parsedEnd.Before parsedStart = false)
    (hp : p.Timestamp < parsedStart.UnixMilli) (hq : parsedEnd.UnixMilli < q.Timestamp) :
    calculateUserDistance timeParse mongoClient username start end_
        (appendHistory db (ledger math (before ++ p :: q :: after))) =
      (.ok (totalDistance math (before ++ [p]) - totalDistance math (before ++ [p, q])),
        appendHistory db (ledger math (before ++ p :: q :: after))) := by
  have hms : parsedStart.UnixMilli ≤ parsedEnd.UnixMilli := by
    simp only [Time.Before, decide_eq_false_iff_not, not_lt] at hle
    simp only [Time.UnixMilli]
    omega
  have hsplitQ : before ++ p :: q :: after = (before ++ [p]) ++ q :: after := by simp
  have hrecordP : storedRecord p (totalDistance math (before ++ [p])) ∈
      appendHistory db (ledger math (before ++ p :: q :: after)) locationHistoryCollection := by
    have := ledgerFrom_mem math before [] p (q :: after)
    simp only [appendHistory, if_true, List.mem_append, ledger]
    right
    simpa using this
  have hrecordQ : storedRecord q (totalDistance math (before ++ [p, q])) ∈
      appendHistory db (ledger math (before ++ p :: q :: after)) locationHistoryCollection := by
    have := ledgerFrom_mem math (before ++ [p]) [] q after
    simp only [appendHistory, if_true, List.mem_append, ledger]
    right
    simpa using this
  have hpu : p.Username = username := huser p (by simp)
  have hqu : q.Username = username := huser q (by simp)
  rcases getFirstAfter_mongoClient username parsedStart.UnixMilli
      (appendHistory db (ledger math (before ++ p :: q :: after))) with
    ⟨fa, hfa, hfirst⟩ | ⟨hnone, _⟩
  swap
  · exact absurd (show parsedStart.UnixMilli ≤ q.Timestamp by omega) (hnone _ hrecordQ hqu)
  rcases getLastBefore_mongoClient username parsedEnd.UnixMilli
      (appendHistory db (ledger math (before ++ p :: q :: after))) with
    ⟨lb, hlb, hlast⟩ | ⟨hnone, _⟩
  swap
  · exact absurd (show p.Timestamp ≤ parsedEnd.UnixMilli by omega) (hnone _ hrecordP hpu)
  obtain ⟨before1, r1, after1, h1, hfa_eq⟩ :=
    mem_appendHistory_ledger math username _ db fa hempty hfa.1 hfa.2.1
  obtain ⟨before2, r2, after2, h2, hlb_eq⟩ :=
    mem_appendHistory_ledger math username _ db lb hempty hlb.1 hlb.2.1
  have hr1low : parsedStart.UnixMilli ≤ r1.Timestamp := by
    have := hfa.2.2.1
    rwa [hfa_eq] at this
  have hr1high : r1.Timestamp ≤ q.Timestamp := by
    have := hfa.2.2.2 _ hrecordQ hqu (show parsedStart.UnixMilli ≤ q.Timestamp by omega)
    rwa [hfa_eq] at this
  have hr2high : r2.Timestamp ≤ parsedEnd.UnixMilli := by
    have := hlb.2.2.1
    rwa [hlb_eq] at this
  have hr2low : p.Timestamp ≤ r2.Timestamp := by
    have := hlb.2.2.2 _ hrecordP hpu (show p.Timestamp ≤ parsedEnd.UnixMilli by omega)
    rwa [hlb_eq] at this
  have hfirstSegment : before1 ++ [r1] = before ++ [p, q] := by
    obtain ⟨middle, hseg, _, hsame⟩ := segment_between _ before (q :: after) before1 after1
      p r1 horder rfl h1 (show p.Timestamp ≤ r1.Timestamp by omega)
    obtain ⟨middle2, hseg2, _, _⟩ := segment_between _ before1 after1 (before ++ [p]) after
      r1 q horder h1 hsplitQ hr1high
    have hlen := congrArg List.length hseg
    have hlen2 := congrArg List.length hseg2
    simp only [List.length_append, List.length_cons, List.length_nil] at hlen hlen2
    cases middle2 with
    | nil => simpa using hseg2.symm
    | cons x rest =>
      exfalso
      have hmiddle : middle = [] := by
        cases middle with
        | nil => rfl
        | cons y rest2 =>
          simp only [List.length_cons] at hlen hlen2
          omega
      have := hsame hmiddle
      rw [this] at hp
      omega
  have hlastSegment : before2 ++ [r2] = before ++ [p] := by
    obtain ⟨middle, hseg, _, _⟩ := segment_between _ before (q :: after) before2 after2
      p r2 horder rfl h2 hr2low
    obtain ⟨middle2, hseg2, _, hsame2⟩ := segment_between _ before2 after2 (before ++ [p])
      after r2 q horder h2 hsplitQ (show r2.Timestamp ≤ q.Timestamp by omega)
    have hlen := congrArg List.length hseg
    have hlen2 := congrArg List.length hseg2
    simp only [List.length_append, List.length_cons, List.length_nil] at hlen hlen2
    cases middle with
    | nil => simpa using hseg
    | cons x rest =>
      exfalso
      have hmiddle2 : middle2 = [] := by
        cases middle2 with
        | nil => rfl
        | cons y rest2 =>
          simp only [List.length_cons] at hlen hlen2
          omega
      have := hsame2 hmiddle2
      rw [this] at hr2high
      omega
  have hfaDistance : fa.Distance = totalDistance math (before ++ [p, q]) := by
    rw [hfa_eq, hfirstSegment]
    rfl
  have hlbDistance : lb.Distance = totalDistance math (before ++ [p]) := by
    rw [hlb_eq, hlastSegment]
    rfl
  simp only [calculateUserDistance, hstart, hend, hle, hfirst, hlast, hfaDistance,
    hlbDistance]
  rfl

/-- C27: for a history built by submitting the reports of one user, each with a
(longitude, latitude) pair, in strictly increasing timestamp order through
`UpdateUserLocation`, and a window from start to end, start not after end, that lies
strictly between two consecutive reports `p` and `q` (over the reals and the document
store): `calculateUserDistance` returns the total distance stored for `p` minus the one
stored for `q`, which is minus the great-circle distance between `p` and `q`; it is never
positive, and it is negative whenever `p` and `q` have valid coordinates that name
different positions. -/
theorem calculateUserDistance_gap_negative (timeParse : String → Except Error Time)
    (username start end_ : String) (parsedStart parsedEnd : Time)
    (before after : List (pb.LocationInfo ℝ)) (p q : pb.LocationInfo ℝ) (db : Database ℝ)
    (hempty : ∀ d ∈ db locationHistoryCollection, d.Username ≠ username)
    (huser : ∀ r ∈ before ++ p :: q :: after, r.Username = username)
    (hpair : ∀ r ∈ before ++ p :: q :: after, r.Location.Coordinates.length = 2)
    (horder : (before ++ p :: q :: after).Pairwise (fun a b => a.Timestamp < b.Timestamp))
    (hstart : timeParse start = .ok parsedStart) (hend : timeParse end_ = .ok parsedEnd)
    (hle : parsedEnd.Before parsedStart = false)
    (hp : p.Timestamp < parsedStart.UnixMilli) (hq : parsedEnd.UnixMilli < q.Timestamp) :
    ∃ distanceP distanceQ : ℝ,
      storedRecord p distanceP ∈
        (submitAll realMath mongoClient (before ++ p :: q :: after) db).2
          locationHistoryCollection ∧
      storedRecord q distanceQ ∈
        (submitAll realMath mongoClient (before ++ p :: q :: after) db).2
          locationHistoryCollection ∧
      calculateUserDistance timeParse mongoClient username start end_
          (submitAll realMath mongoClient (before ++ p :: q :: after) db).2 =
        (.ok (distanceP - distanceQ),
          (submitAll realMath mongoClient (before ++ p :: q :: after) db).2) ∧
      distanceP - distanceQ =
        -GreatCircleDistance realMath p.Location.Coordinates q.Location.Coordinates ∧
      distanceP - distanceQ ≤ 0 ∧
      (∀ r ∈ before ++ p :: q :: after,
        ¬ (parsedStart.UnixMilli ≤ r.Timestamp ∧ r.Timestamp ≤ parsedEnd.UnixMilli)) ∧
      ∀ lonP latP lonQ latQ : ℝ, p.Location.Coordinates = [lonP, latP] →
        q.Location.Coordinates = [lonQ, latQ] → InRange lonP latP → InRange lonQ latQ →
        DifferInPosition lonP latP lonQ latQ → distanceP - distanceQ < 0 := by
  have hsubmit : submitAll realMath mongoClient (before ++ p :: q :: after) db =
      (.ok (), appendHistory db (ledger realMath (before ++ p :: q :: after))) :=
    submitAll_ledgerFrom realMath username _ [] db huser hpair
      (fun r hr => absurd hr (List.not_mem_nil r)) horder
      (fun d hd hu => absurd hu (hempty d hd))
      (by rw [findCurrent_none username db hempty]; rfl)
  rw [hsubmit]
  have hgap := calculateUserDistance_ledger_gap realMath timeParse username start end_
    parsedStart parsedEnd before after p q db hempty huser horder hstart hend hle hp hq
  have hdifference : totalDistance realMath (before ++ [p]) -
      totalDistance realMath (before ++ [p, q]) =
      -GreatCircleDistance realMath p.Location.Coordinates q.Location.Coordinates := by
    rw [totalDistance_append_pair]
    ring
  refine ⟨totalDistance realMath (before ++ [p]), totalDistance realMath (before ++ [p, q]),
    ?_, ?_, hgap, hdifference, ?_, ?_, ?_⟩
  · have := ledgerFrom_mem realMath before [] p (q :: after)
    simp only [appendHistory, if_true, List.mem_append, ledger]
    right
    simpa using this
  · have := ledgerFrom_mem realMath (before ++ [p]) [] q after
    simp only [appendHistory, if_true, List.mem_append, ledger]
    right
    simpa using this
  · rw [hdifference]
    have := GreatCircleDistance_nonneg p.Location.Coordinates q.Location.Coordinates
    linarith
  · intro r hr hwindow
    have hqorder := (List.pairwise_cons.1 (List.pairwise_cons.1
      (List.pairwise_append.1 horder).2.1).2).1
    have hporder := (List.pairwise_append.1 horder).2.2
    simp only [List.mem_append, List.mem_cons] at hr
    rcases hr with hb | rfl | rfl | ha
    · have := hporder r hb p (List.mem_cons_self _ _)
      omega
    · omega
    · omega
    · have := hqorder r ha
      omega
  · intro lonP latP lonQ latQ hcoordP hcoordQ hrangeP hrangeQ hdiffer
    rw [hdifference, hcoordP, hcoordQ]
    have := GreatCircleDistance_pos lonP latP lonQ latQ hrangeP hrangeQ hdiffer
    linarith

/-- C27, at an instance: the reports of `user8` at seconds 1 and 4, half the equator
apart, and the window from second 2 to second 3. -/
theorem calculateUserDistance_gap_negative_witness :
    ∃ distanceP distanceQ : ℝ,
      storedRecord
          ({ Username := "user8", Location := { Type_ := "Point", Coordinates := [0, 0] },
             Distance := 0, Timestamp := 1000 } : pb.LocationInfo ℝ) distanceP ∈
        (submitAll realMath mongoClient gapReports emptyDatabase).2
          locationHistoryCollection ∧
      storedRecord
          ({ Username := "user8", Location := { Type_ := "Point", Coordinates := [180, 0] },
             Distance := 0, Timestamp := 4000 } : pb.LocationInfo ℝ) distanceQ ∈
        (submitAll realMath mongoClient gapReports emptyDatabase).2
          locationHistoryCollection ∧
      calculateUserDistance exampleTimeParse mongoClient "user8"
          "1970-01-01T00:00:02+00:00" "1970-01-01T00:00:03+00:00"
          (submitAll realMath mongoClient gapReports emptyDatabase).2 =
        (.ok (distanceP - distanceQ),
          (submitAll realMath mongoClient gapReports emptyDatabase).2) ∧
      distanceP - distanceQ = -GreatCircleDistance realMath [0, 0] [180, 0] ∧
      distanceP - distanceQ ≤ 0 ∧
      (∀ r ∈ gapReports,
        ¬ (Time.UnixMilli { unixNano := 2000000000 } ≤ r.Timestamp ∧
          r.Timestamp ≤ Time.UnixMilli { unixNano := 3000000000 })) ∧
      ∀ lonP latP lonQ latQ : ℝ, ([0, 0] : List ℝ) = [lonP, latP] →
        ([180, 0] : List ℝ) = [lonQ, latQ] → InRange lonP latP → InRange lonQ latQ →
        DifferInPosition lonP latP lonQ latQ → distanceP - distanceQ < 0 :=
  calculateUserDistance_gap_negative exampleTimeParse "user8"
    "1970-01-01T00:00:02+00:00" "1970-01-01T00:00:03+00:00"
    { unixNano := 2000000000 } { unixNano := 3000000000 } [] []
    { Username := "user8", Location := { Type_ := "Point", Coordinates := [0, 0] },
      Distance := 0, Timestamp := 1000 }
    { Username := "user8", Location := { Type_ := "Point", Coordinates := [180, 0] },
      Distance := 0, Timestamp := 4000 } emptyDatabase
    (by simp [emptyDatabase]) (by simp) (by simp) (by simp)
    (by simp [exampleTimeParse]) (by simp [exampleTimeParse]) (by decide) (by decide)
    (by decide)

/-- The value at the instance: minus half the circumference, a negative number. -/
theorem calculateUserDistance_gap_example :
    calculateUserDistance exampleTimeParse mongoClient "user8"
        "1970-01-01T00:00:02+00:00" "1970-01-01T00:00:03+00:00"
        (submitAll realMath mongoClient gapReports emptyDatabase).2 =
      (.ok (-(6371 * 2 * (Real.pi / 2))),
        (submitAll realMath mongoClient gapReports emptyDatabase).2) ∧
      -(6371 * 2 * (Real.pi / 2)) < 0 := by
  have hsubmit : submitAll realMath mongoClient gapReports emptyDatabase =
      (.ok (), appendHistory emptyDatabase (ledger realMath gapReports)) :=
    submitAll_ledgerFrom realMath "user8" gapReports [] emptyDatabase
      (by simp [gapReports]) (by simp [gapReports])
      (fun r hr => absurd hr (List.not_mem_nil r)) (by simp [gapReports])
      (by simp [emptyDatabase])
      (by rw [findCurrent_none "user8" emptyDatabase (by simp [emptyDatabase])]; rfl)
  have hgap := calculateUserDistance_ledger_gap realMath exampleTimeParse "user8"
    "1970-01-01T00:00:02+00:00" "1970-01-01T00:00:03+00:00"
    { unixNano := 2000000000 } { unixNano := 3000000000 } [] []
    { Username := "user8", Location := { Type_ := "Point", Coordinates := [0, 0] },
      Distance := 0, Timestamp := 1000 }
    { Username := "user8", Location := { Type_ := "Point", Coordinates := [180, 0] },
      Distance := 0, Timestamp := 4000 } emptyDatabase
    (by simp [emptyDatabase]) (by simp) (by simp)
    (by simp [exampleTimeParse]) (by simp [exampleTimeParse]) (by decide) (by decide)
    (by decide)
  simp only [List.nil_append, totalDistance, GreatCircleDistance_half_equator] at hgap
  have hvalue : (0 : ℝ) - (6371 * 2 * (Real.pi / 2) + 0) = -(6371 * 2 * (Real.pi / 2)) := by
    ring
  rw [hvalue] at hgap
  rw [hsubmit]
  refine ⟨hgap, ?_⟩
  have := Real.pi_pos
  linarith

end GapLemmas

section UserLemmas

variable {F : Type} [LinearOrderedField F]

theorem matches_username (filter : Filter) (d : LocationInfo F)
    (h : filter.matches d = true) : d.Username = filter.username := by
  simp only [Filter.matches, Bool.and_eq_true, decide_eq_true_eq] at h
  exact h.1

/-- A filter selects among the records of its user only. -/
theorem filter_matches_recordsOf (filter : Filter) (docs : List (LocationInfo F)) :
    (recordsOf filter.username docs).filter (fun d => filter.matches d) =
      docs.filter (fun d => filter.matches d) := by
  unfold recordsOf
  rw [List.filter_filter]
  apply List.filter_congr
  intro d _
  by_cases h : filter.matches d = true
  · simp [h, matches_username filter d h]
  · simp [h]

theorem filter_matches_congr (filter : Filter) (docs1 docs2 : List (LocationInfo F))
    (h : recordsOf filter.username docs1 = recordsOf filter.username docs2) :
    docs1.filter (fun d => filter.matches d) = docs2.filter (fun d => filter.matches d) := by
  rw [← filter_matches_recordsOf filter docs1, ← filter_matches_recordsOf filter docs2, h]

/-- On the document store the baseline of a user depends on the records of that user
only. -/
theorem findCurrent_congr (username : String) (db1 db2 : Database F)
    (h : recordsOf username (db1 locationHistoryCollection) =
      recordsOf username (db2 locationHistoryCollection)) :
    (findCurrent mongoClient username db1).1 = (findCurrent mongoClient username db2).1 := by
  rw [findCurrent_mongoClient_eq, findCurrent_mongoClient_eq,
    filter_matches_congr { username := username, timestamp := none } _ _ h]

/-- On the document store the range distance of a user depends on the records of that
user only. -/
theorem calculateUserDistance_congr (timeParse : String → Except Error Time)
    (username start end_ : String) (db1 db2 : Database F)
    (h : recordsOf username (db1 locationHistoryCollection) =
      recordsOf username (db2 locationHistoryCollection)) :
    (calculateUserDistance timeParse mongoClient username start end_ db1).1 =
      (calculateUserDistance timeParse mongoClient username start end_ db2).1 := by
  simp only [calculateUserDistance, getFirstAfter, getLastBefore, getDate_after,
    getDate_before]
  cases timeParse start with
  | error err => rfl
  | ok parsedStart =>
    simp only
    rw [filter_matches_congr
      { username := username, timestamp := some (.gte parsedStart.UnixMilli) } _ _ h]
    cases timeParse end_ with
    | error err => rfl
    | ok parsedEnd =>
      simp only
      rw [filter_matches_congr
        { username := username, timestamp := some (.lte parsedEnd.UnixMilli) } _ _ h]
      cases parsedEnd.Before parsedStart <;> rfl

theorem recordsOf_append (username : String) (docs more : List (LocationInfo F)) :
    recordsOf username (docs ++ more) = recordsOf username docs ++ recordsOf username more := by
  simp [recordsOf, List.filter_append]

/-- Replacing a record of one user leaves the records of every other user as they are. -/
theorem replaceFirst_recordsOf_other (filter : Filter) (document : LocationInfo F)
    (username : String) (hfilter : filter.username ≠ username)
    (hdocument : document.Username ≠ username) :
    ∀ docs replaced : List (LocationInfo F), replaceFirst filter document docs = some replaced →
      recordsOf username replaced = recordsOf username docs
  | [], replaced, h => by simp [replaceFirst] at h
  | d :: rest, replaced, h => by
    by_cases hd : filter.matches d = true
    · have hdu : d.Username ≠ username := by
        rw [matches_username filter d hd]
        exact hfilter
      simp only [replaceFirst, hd, if_true, Option.some.injEq] at h
      subst h
      simp [recordsOf, hdu, hdocument]
    · simp only [Bool.not_eq_true] at hd
      simp only [replaceFirst, hd, Bool.false_eq_true, if_false, Option.map_eq_some'] at h
      obtain ⟨replacedRest, hrest, hreplaced⟩ := h
      subst hreplaced
      have ih := replaceFirst_recordsOf_other filter document username hfilter hdocument rest
        replacedRest hrest
      simp only [recordsOf] at ih ⊢
      simp only [List.filter_cons, ih]

theorem ReplaceOne_recordsOf_other (filter : Filter) (document : LocationInfo F)
    (username : String) (hfilter : filter.username ≠ username)
    (hdocument : document.Username ≠ username) (docs : List (LocationInfo F)) :
    recordsOf username (Collection.ReplaceOne docs filter document true) =
      recordsOf username docs := by
  unfold Collection.ReplaceOne
  cases hreplace : replaceFirst filter document docs with
  | none =>
    simp only [if_true]
    rw [recordsOf_append]
    simp [recordsOf, hdocument]
  | some replaced =>
    exact replaceFirst_recordsOf_other filter document username hfilter hdocument docs
      replaced hreplace

/-- Replacing a record of a user among all records, and among the records of that user,
gives the same records of that user. -/
theorem replaceFirst_recordsOf_same (filter : Filter) (document : LocationInfo F)
    (hdocument : document.Username = filter.username) :
    ∀ docs : List (LocationInfo F),
      replaceFirst filter document (recordsOf filter.username docs) =
        (replaceFirst filter document docs).map (recordsOf filter.username)
  | [] => rfl
  | d :: rest => by
    have ih := replaceFirst_recordsOf_same filter document hdocument rest
    by_cases hd : filter.matches d = true
    · have hdu := matches_username filter d hd
      simp [recordsOf, replaceFirst, hd, hdu, hdocument]
    · simp only [Bool.not_eq_true] at hd
      by_cases hdu : d.Username = filter.username
      · have hrec : recordsOf filter.username (d :: rest) =
            d :: recordsOf filter.username rest := by
          simp [recordsOf, hdu]
        rw [hrec]
        simp only [replaceFirst, hd, Bool.false_eq_true, if_false, ih, Option.map_map]
        congr 1
        funext replaced
        simp [recordsOf, hdu]
      · have hrec : recordsOf filter.username (d :: rest) = recordsOf filter.username rest := by
          simp [recordsOf, hdu]
        rw [hrec, ih]
        simp only [replaceFirst, hd, Bool.false_eq_true, if_false, Option.map_map]
        congr 1
        funext replaced
        simp [recordsOf, hdu]

theorem ReplaceOne_recordsOf_same (filter : Filter) (document : LocationInfo F)
    (hdocument : document.Username = filter.username) (docs : List (LocationInfo F)) :
    recordsOf filter.username (Collection.ReplaceOne docs filter document true) =
      Collection.ReplaceOne (recordsOf filter.username docs) filter document true := by
  have h := replaceFirst_recordsOf_same filter document hdocument docs
  unfold Collection.ReplaceOne
  rw [h]
  cases replaceFirst filter document docs with
  | none =>
    simp only [Option.map_none', if_true]
    rw [recordsOf_append]
    simp [recordsOf, hdocument]
  | some replaced => rfl

/-- On the document store a call of `UpdateUserLocation` leaves the records of every
other user, and every other collection, as they are. -/
theorem UpdateUserLocation_frame (math : Math F) (in_ : pb.LocationInfo F) (db : Database F) :
    (∀ username, username ≠ in_.Username →
      recordsOf username ((UpdateUserLocation math mongoClient in_ db).2
          locationHistoryCollection) =
        recordsOf username (db locationHistoryCollection)) ∧
      ∀ name, name ≠ locationHistoryCollection →
        (UpdateUserLocation math mongoClient in_ db).2 name = db name := by
  rcases UpdateUserLocation_mongoClient math in_ db with ⟨_, hrun, _⟩ | ⟨distance, _, hrun, _⟩
  · rw [hrun]
    exact ⟨fun _ _ => rfl, fun _ _ => rfl⟩
  · rw [hrun]
    constructor
    · intro username hne
      simp only [MongoClient.SaveOrReplaceDocument, if_true]
      exact ReplaceOne_recordsOf_other (keyFilter in_) (storedRecord in_ distance) username
        (fun h => hne h.symm) (fun h => hne h.symm) (db locationHistoryCollection)
    · intro name hname
      simp [MongoClient.SaveOrReplaceDocument, hname]

/-- On the document store the outcome of a call of `UpdateUserLocation` and the records
of its user afterwards depend on the records of that user only. -/
theorem UpdateUserLocation_congr (math : Math F) (in_ : pb.LocationInfo F)
    (db1 db2 : Database F)
    (h : recordsOf in_.Username (db1 locationHistoryCollection) =
      recordsOf in_.Username (db2 locationHistoryCollection)) :
    (UpdateUserLocation math mongoClient in_ db1).1 =
        (UpdateUserLocation math mongoClient in_ db2).1 ∧
      recordsOf in_.Username ((UpdateUserLocation math mongoClient in_ db1).2
          locationHistoryCollection) =
        recordsOf in_.Username ((UpdateUserLocation math mongoClient in_ db2).2
          locationHistoryCollection) := by
  have hfilter := filter_matches_congr { username := in_.Username, timestamp := none } _ _ h
  have hkey : (keyFilter in_).username = in_.Username := rfl
  rcases UpdateUserLocation_mongoClient math in_ db1 with
    ⟨hnone1, hrun1, _⟩ | ⟨distance1, hsome1, hrun1, _⟩ <;>
    rcases UpdateUserLocation_mongoClient math in_ db2 with
      ⟨hnone2, hrun2, _⟩ | ⟨distance2, hsome2, hrun2, _⟩
  · rw [hrun1, hrun2]
    exact ⟨rfl, h⟩
  · rw [hfilter, hsome2] at hnone1
    cases hnone1
  · rw [hfilter, hnone2] at hsome1
    cases hsome1
  · rw [hfilter, hsome2] at hsome1
    have hdistance : distance2 = distance1 := Option.some.inj hsome1
    subst hdistance
    rw [hrun1, hrun2]
    refine ⟨rfl, ?_⟩
    simp only [MongoClient.SaveOrReplaceDocument, if_true]
    have hsame1 := ReplaceOne_recordsOf_same (keyFilter in_) (storedRecord in_ distance2) rfl
      (db1 locationHistoryCollection)
    have hsame2 := ReplaceOne_recordsOf_same (keyFilter in_) (storedRecord in_ distance2) rfl
      (db2 locationHistoryCollection)
    rw [hkey] at hsame1 hsame2
    rw [hsame1, hsame2, h]

/-- Two lists of documents with the same records of every user hold the same documents. -/
theorem perm_of_recordsOf (docs1 docs2 : List (LocationInfo F))
    (h : ∀ username, recordsOf username docs1 = recordsOf username docs2) :
    docs1.Perm docs2 := by
  classical
  rw [List.perm_iff_count]
  intro a
  have h1 : List.count a (recordsOf a.Username docs1) = List.count a docs1 :=
    List.count_filter (by simp)
  have h2 : List.count a (recordsOf a.Username docs2) = List.count a docs2 :=
    List.count_filter (by simp)
  rw [← h1, ← h2, h a.Username]

/-- C25: on the document store, operations on different users are independent. For a
report of one user: the call of `UpdateUserLocation` changes no record of another user;
it leaves the result of `calculateUserDistance` for every other user and every window
unchanged; a later call for another user has the same outcome and leaves the same records
of that user, with the same distance, as without it; and the two calls in either order
leave the same records of every user, so that the two final histories hold the same
documents, and the same other collections. -/
theorem UpdateUserLocation_independent_users (math : Math F) (inU inV : pb.LocationInfo F)
    (db : Database F) (hne : inU.Username ≠ inV.Username) :
    (∀ username, username ≠ inU.Username →
      recordsOf username ((UpdateUserLocation math mongoClient inU db).2
          locationHistoryCollection) =
        recordsOf username (db locationHistoryCollection)) ∧
      (∀ username, username ≠ inU.Username →
        ∀ (timeParse : String → Except Error Time) (start end_ : String),
          (calculateUserDistance timeParse mongoClient username start end_
              (UpdateUserLocation math mongoClient inU db).2).1 =
            (calculateUserDistance timeParse mongoClient username start end_ db).1) ∧
      ((UpdateUserLocation math mongoClient inV
            (UpdateUserLocation math mongoClient inU db).2).1 =
          (UpdateUserLocation math mongoClient inV db).1 ∧
        recordsOf inV.Username
            ((UpdateUserLocation math mongoClient inV
              (UpdateUserLocation math mongoClient inU db).2).2 locationHistoryCollection) =
          recordsOf inV.Username
            ((UpdateUserLocation math mongoClient inV db).2 locationHistoryCollection)) ∧
      (∀ username,
        recordsOf username
            ((UpdateUserLocation math mongoClient inV
              (UpdateUserLocation math mongoClient inU db).2).2 locationHistoryCollection) =
          recordsOf username
            ((UpdateUserLocation math mongoClient inU
              (UpdateUserLocation math mongoClient inV db).2).2
              locationHistoryCollection)) ∧
      ((UpdateUserLocation math mongoClient inV
            (UpdateUserLocation math mongoClient inU db).2).2 locationHistoryCollection).Perm
          ((UpdateUserLocation math mongoClient inU
            (UpdateUserLocation math mongoClient inV db).2).2 locationHistoryCollection) ∧
      ∀ name, name ≠ locationHistoryCollection →
        (UpdateUserLocation math mongoClient inV
            (UpdateUserLocation math mongoClient inU db).2).2 name =
          (UpdateUserLocation math mongoClient inU
            (UpdateUserLocation math mongoClient inV db).2).2 name := by
  have hframeU := UpdateUserLocation_frame math inU db
  have hframeV := UpdateUserLocation_frame math inV db
  have hframeVU := UpdateUserLocation_frame math inV (UpdateUserLocation math mongoClient inU db).2
  have hframeUV := UpdateUserLocation_frame math inU (UpdateUserLocation math mongoClient inV db).2
  have hcongrV := UpdateUserLocation_congr math inV
    (UpdateUserLocation math mongoClient inU db).2 db (hframeU.1 inV.Username (Ne.symm hne))
  have hcongrU := UpdateUserLocation_congr math inU
    (UpdateUserLocation math mongoClient inV db).2 db (hframeV.1 inU.Username hne)
  have hrecords : ∀ username,
      recordsOf username
          ((UpdateUserLocation math mongoClient inV
            (UpdateUserLocation math mongoClient inU db).2).2 locationHistoryCollection) =
        recordsOf username
          ((UpdateUserLocation math mongoClient inU
            (UpdateUserLocation math mongoClient inV db).2).2 locationHistoryCollection) := by
    intro username
    by_cases hu : username = inU.Username
    · subst hu
      rw [hframeVU.1 inU.Username hne, hcongrU.2]
    · by_cases hv : username = inV.Username
      · subst hv
        rw [hframeUV.1 inV.Username hu, hcongrV.2]
      · rw [hframeVU.1 username hv, hframeU.1 username hu, hframeUV.1 username hu,
          hframeV.1 username hv]
  refine ⟨hframeU.1, ?_, hcongrV, hrecords, perm_of_recordsOf _ _ hrecords, ?_⟩
  · intro username hu timeParse start end_
    exact calculateUserDistance_congr timeParse username start end_ _ _ (hframeU.1 username hu)
  · intro name hname
    rw [hframeVU.2 name hname, hframeU.2 name hname, hframeUV.2 name hname,
      hframeV.2 name hname]

/-- C25, at an instance: a report of `user6` and a report of `user3` on an empty
history. -/
theorem UpdateUserLocation_independent_users_witness :
    (∀ username, username ≠ firstAntipodalReport.Username →
      recordsOf username ((UpdateUserLocation realMath mongoClient firstAntipodalReport
          emptyDatabase).2 locationHistoryCollection) =
        recordsOf username ((emptyDatabase : Database ℝ) locationHistoryCollection)) ∧
      ((UpdateUserLocation realMath mongoClient otherUserReport
            (UpdateUserLocation realMath mongoClient firstAntipodalReport
              emptyDatabase).2).2 locationHistoryCollection).Perm
          ((UpdateUserLocation realMath mongoClient firstAntipodalReport
            (UpdateUserLocation realMath mongoClient otherUserReport
              emptyDatabase).2).2 locationHistoryCollection) :=
  ⟨(UpdateUserLocation_independent_users realMath firstAntipodalReport otherUserReport
      emptyDatabase (by simp [firstAntipodalReport, otherUserReport])).1,
    (UpdateUserLocation_independent_users realMath firstAntipodalReport otherUserReport
      emptyDatabase (by simp [firstAntipodalReport, otherUserReport])).2.2.2.2.1⟩

/-- The two final histories of the instance: the same two records, in the order of the
calls. -/
theorem UpdateUserLocation_either_order_example :
    (UpdateUserLocation realMath mongoClient otherUserReport
        (UpdateUserLocation realMath mongoClient firstAntipodalReport
          emptyDatabase).2).2 locationHistoryCollection =
      [storedRecord firstAntipodalReport 0, storedRecord otherUserReport 0] ∧
    (UpdateUserLocation realMath mongoClient firstAntipodalReport
        (UpdateUserLocation realMath mongoClient otherUserReport
          emptyDatabase).2).2 locationHistoryCollection =
      [storedRecord otherUserReport 0, storedRecord firstAntipodalReport 0] := by
  have h1 := UpdateUserLocation_first_point_aux realMath firstAntipodalReport emptyDatabase
    (by simp [emptyDatabase])
  have h2 := UpdateUserLocation_first_point_aux realMath otherUserReport emptyDatabase
    (by simp [emptyDatabase])
  have h3 := UpdateUserLocation_first_point_aux realMath otherUserReport
    (appendHistory emptyDatabase [storedRecord firstAntipodalReport 0])
    (by simp [appendHistory, emptyDatabase, storedRecord, firstAntipodalReport,
      otherUserReport])
  have h4 := UpdateUserLocation_first_point_aux realMath firstAntipodalReport
    (appendHistory emptyDatabase [storedRecord otherUserReport 0])
    (by simp [appendHistory, emptyDatabase, storedRecord, firstAntipodalReport,
      otherUserReport])
  rw [h1, h2, h3, h4]
  simp [appendHistory, emptyDatabase]

end UserLemmas

section RaceLemmas

variable {σ F : Type} [LinearOrderedField F]

/-- The two steps of a call, one after the other, are the call of `UpdateUserLocation`. -/
theorem stepCall_twice (math : Math F) (client : DBClient σ F) (in_ : pb.LocationInfo F)
    (st : σ) :
    stepCall math client (stepCall math client (.start in_) st).1
        (stepCall math client (.start in_) st).2 =
      (.finished (UpdateUserLocation math client in_ st).1,
        (UpdateUserLocation math client in_ st).2) := by
  rcases UpdateUserLocation_run math client in_ st with
    ⟨err, herr, hrun⟩ | ⟨current, hcurrent, hnone, hrun⟩ |
      ⟨current, distance, hcurrent, hsome, hrun⟩
  · rw [hrun]
    rcases hfound : findCurrent client in_.Username st with ⟨result, st1⟩
    rw [hfound] at herr
    simp only at herr
    subst herr
    simp [stepCall, hfound]
  · rw [hrun]
    rcases hfound : findCurrent client in_.Username st with ⟨result, st1⟩
    rw [hfound] at hcurrent
    simp only at hcurrent
    subst hcurrent
    simp [stepCall, hfound, hnone]
  · rw [hrun]
    rcases hfound : findCurrent client in_.Username st with ⟨result, st1⟩
    rw [hfound] at hcurrent
    simp only at hcurrent
    subst hcurrent
    simp [stepCall, hfound, hsome]

/-- On the document store, under the schedule in which both calls look up the baseline
before either writes: both calls read the same baseline, both writes land, and each
record is stored with the distance computed from that baseline. -/
theorem runSchedule_readsBeforeWrites (math : Math F) (first second : pb.LocationInfo F)
    (db : Database F) (current : Location F × F × Bool) (distanceFirst distanceSecond : F)
    (huser : second.Username = first.Username)
    (hcurrent : findCurrent mongoClient first.Username db = (.ok current, db))
    (hfirst : nextDistance math current first = some distanceFirst)
    (hsecond : nextDistance math current second = some distanceSecond) :
    runSchedule math (recordCalls mongoClient) readsBeforeWrites (.start first, .start second)
        (db, []) =
      ((.finished (.ok ()), .finished (.ok ())),
        (MongoClient.SaveOrReplaceDocument locationHistoryCollection
          (storedRecord second distanceSecond) (keyFilter second)
          (MongoClient.SaveOrReplaceDocument locationHistoryCollection
            (storedRecord first distanceFirst) (keyFilter first) db).2).2,
        [currentQuery first.Username, currentQuery second.Username,
          StoreCall.SaveOrReplaceDocument locationHistoryCollection
            (storedRecord first distanceFirst) (keyFilter first),
          StoreCall.SaveOrReplaceDocument locationHistoryCollection
            (storedRecord second distanceSecond) (keyFilter second)]) := by
  have hcurrent2 : findCurrent mongoClient second.Username db = (.ok current, db) := by
    rw [huser]
    exact hcurrent
  simp only [readsBeforeWrites, runSchedule, stepCall, findCurrent_recordCalls, hcurrent,
    hcurrent2, hfirst, hsecond]
  rfl

theorem nextDistance_pairs (math : Math F) (location : Location F) (distance : F)
    (report : pb.LocationInfo F) (hlocation : location.Coordinates.length = 2)
    (hreport : report.Location.Coordinates.length = 2) :
    nextDistance math (location, distance, true) report =
      some (GreatCircleDistance math location.Coordinates report.Location.Coordinates +
        distance) := by
  simp only [nextDistance, Bool.not_true, Bool.false_eq_true, if_false]
  exact calculateDistance_pairs math location _ distance hlocation hreport

/-- On the document store, a call of `UpdateUserLocation` for a user whose latest point is
`latest`, both with coordinate pairs, writes the record of the report with the distance of
`latest` plus the great-circle distance from it. -/
theorem UpdateUserLocation_after (math : Math F) (in_ : pb.LocationInfo F) (db : Database F)
    (latest : LocationInfo F) (hmem : latest ∈ db locationHistoryCollection)
    (huser : latest.Username = in_.Username)
    (hlatest : ∀ y ∈ db locationHistoryCollection, y.Username = in_.Username → y ≠ latest →
      y.Timestamp < latest.Timestamp)
    (hpairs : latest.Location.Coordinates.length = 2)
    (hpair : in_.Location.Coordinates.length = 2) :
    UpdateUserLocation math mongoClient in_ db =
      (.ok (), (MongoClient.SaveOrReplaceDocument locationHistoryCollection
        (storedRecord in_ (GreatCircleDistance math latest.Location.Coordinates
          in_.Location.Coordinates + latest.Distance)) (keyFilter in_) db).2) := by
  have hfound := findCurrent_latest in_.Username db latest hmem huser hlatest
  have hdistance := nextDistance_pairs math latest.Location latest.Distance in_ hpairs hpair
  rcases UpdateUserLocation_run math mongoClient in_ db with
    ⟨err, herr, _⟩ | ⟨current, hcurrent, hnone, _⟩ | ⟨current, distance, hcurrent, hsome, hrun⟩
  · rw [hfound] at herr
    cases herr
  · rw [hfound] at hcurrent
    cases hcurrent
    rw [hdistance] at hnone
    cases hnone
  · rw [hfound] at hcurrent
    cases hcurrent
    rw [hdistance] at hsome
    cases hsome
    rw [hrun, hfound]
    rfl

/-- Writing a record under a key no document of the history has appends it. -/
theorem SaveOrReplaceDocument_withHistory (db : Database F) (docs : List (LocationInfo F))
    (document : LocationInfo F) (filter : Filter)
    (hnone : ∀ d ∈ docs, filter.matches d = false) :
    (MongoClient.SaveOrReplaceDocument locationHistoryCollection document filter
        (withHistory db docs)).2 =
      withHistory db (docs ++ [document]) := by
  funext name
  by_cases hname : name = locationHistoryCollection
  · subst hname
    simp [MongoClient.SaveOrReplaceDocument, withHistory, Collection.ReplaceOne,
      replaceFirst_none filter document docs hnone]
  · simp [MongoClient.SaveOrReplaceDocument, withHistory, hname]

end RaceLemmas

section RaceExamples

theorem GreatCircleDistance_quarter_west :
    GreatCircleDistance realMath [90, 0] [0, 0] = 6371 * 2 * (Real.pi / 4) := by
  have hpi := Real.pi_pos
  have hvalue : haversineA 90 0 0 0 = Real.sin (Real.pi / 4) ^ 2 := by
    have h1 : (0 * (Real.pi / 180) - 0 * (Real.pi / 180)) / 2 = 0 := by ring
    have h2 : (0 * (Real.pi / 180) - 90 * (Real.pi / 180)) / 2 = -(Real.pi / 4) := by ring
    have h3 : (0 : ℝ) * (Real.pi / 180) = 0 := by ring
    unfold haversineA
    rw [h1, h2, h3, Real.sin_zero, Real.cos_zero, Real.sin_neg]
    ring
  have hsin : 0 ≤ Real.sin (Real.pi / 4) :=
    Real.sin_nonneg_of_nonneg_of_le_pi (by linarith) (by linarith)
  rw [GreatCircleDistance_haversineA, atan2_sqrt _ (by rw [hvalue]; positivity)
    (by rw [hvalue]; exact Real.sin_sq_le_one _), hvalue, Real.sqrt_sq hsin,
    Real.arcsin_sin (by linarith) (by linarith)]

theorem GreatCircleDistance_quarter_east :
    GreatCircleDistance realMath [90, 0] [180, 0] = 6371 * 2 * (Real.pi / 4) := by
  have hpi := Real.pi_pos
  have hvalue : haversineA 90 0 180 0 = Real.sin (Real.pi / 4) ^ 2 := by
    have h1 : (0 * (Real.pi / 180) - 0 * (Real.pi / 180)) / 2 = 0 := by ring
    have h2 : (180 * (Real.pi / 180) - 90 * (Real.pi / 180)) / 2 = Real.pi / 4 := by ring
    have h3 : (0 : ℝ) * (Real.pi / 180) = 0 := by ring
    unfold haversineA
    rw [h1, h2, h3, Real.sin_zero, Real.cos_zero]
    ring
  have hsin : 0 ≤ Real.sin (Real.pi / 4) :=
    Real.sin_nonneg_of_nonneg_of_le_pi (by linarith) (by linarith)
  rw [GreatCircleDistance_haversineA, atan2_sqrt _ (by rw [hvalue]; positivity)
    (by rw [hvalue]; exact Real.sin_sq_le_one _), hvalue, Real.sqrt_sq hsin,
    Real.arcsin_sin (by linarith) (by linarith)]

theorem findCurrent_raceHistory :
    findCurrent mongoClient "user9" (withHistory emptyDatabase raceHistory) =
      (.ok ({ Type_ := "Point", Coordinates := [90, 0] }, 0, true),
        withHistory emptyDatabase raceHistory) :=
  findCurrent_latest "user9" (withHistory emptyDatabase raceHistory)
    { Username := "user9", Location := { Type_ := "Point", Coordinates := [90, 0] },
      Distance := 0, Timestamp := 1000 }
    (by simp [withHistory, raceHistory]) rfl
    (by
      intro y hy _ hne
      simp only [withHistory, if_true, raceHistory, List.mem_singleton] at hy
      exact absurd hy hne)

/-- The history after the two calls for the longitudes 0 and 180 have run with both
lookups before either write. -/
theorem runSchedule_raceSecond :
    runSchedule realMath (recordCalls mongoClient) readsBeforeWrites
        (.start raceFirst, .start raceSecond) (withHistory emptyDatabase raceHistory, []) =
      ((.finished (.ok ()), .finished (.ok ())),
        withHistory emptyDatabase
          (raceHistory ++ [storedRecord raceFirst (6371 * 2 * (Real.pi / 4)),
            storedRecord raceSecond (6371 * 2 * (Real.pi / 4))]),
        [currentQuery "user9", currentQuery "user9",
          StoreCall.SaveOrReplaceDocument locationHistoryCollection
            (storedRecord raceFirst (6371 * 2 * (Real.pi / 4))) (keyFilter raceFirst),
          StoreCall.SaveOrReplaceDocument locationHistoryCollection
            (storedRecord raceSecond (6371 * 2 * (Real.pi / 4))) (keyFilter raceSecond)]) := by
  have hfirst : nextDistance realMath
      (({ Type_ := "Point", Coordinates := [90, 0] } : Location ℝ), 0, true) raceFirst =
      some (6371 * 2 * (Real.pi / 4)) := by
    rw [nextDistance_pairs realMath { Type_ := "Point", Coordinates := [90, 0] } 0 raceFirst rfl
      rfl]
    simp [raceFirst, GreatCircleDistance_quarter_west]
  have hsecond : nextDistance realMath
      (({ Type_ := "Point", Coordinates := [90, 0] } : Location ℝ), 0, true) raceSecond =
      some (6371 * 2 * (Real.pi / 4)) := by
    rw [nextDistance_pairs realMath { Type_ := "Point", Coordinates := [90, 0] } 0 raceSecond rfl
      rfl]
    simp [raceSecond, GreatCircleDistance_quarter_east]
  rw [runSchedule_readsBeforeWrites realMath raceFirst raceSecond _ _ _ _ rfl
    findCurrent_raceHistory hfirst hsecond,
    SaveOrReplaceDocument_withHistory _ _ _ _
      (by simp [raceHistory, keyFilter, Filter.matches, raceFirst]),
    SaveOrReplaceDocument_withHistory _ _ _ _
      (by simp [raceHistory, keyFilter, Filter.matches, raceFirst, raceSecond, storedRecord])]
  simp [raceFirst, raceSecond]

/-- The history after the call for the longitude 0 and the call back to the longitude 90
have run with both lookups before either write. -/
theorem runSchedule_raceReturn :
    runSchedule realMath (recordCalls mongoClient) readsBeforeWrites
        (.start raceFirst, .start raceReturn) (withHistory emptyDatabase raceHistory, []) =
      ((.finished (.ok ()), .finished (.ok ())),
        withHistory emptyDatabase
          (raceHistory ++ [storedRecord raceFirst (6371 * 2 * (Real.pi / 4)),
            storedRecord raceReturn 0]),
        [currentQuery "user9", currentQuery "user9",
          StoreCall.SaveOrReplaceDocument locationHistoryCollection
            (storedRecord raceFirst (6371 * 2 * (Real.pi / 4))) (keyFilter raceFirst),
          StoreCall.SaveOrReplaceDocument locationHistoryCollection
            (storedRecord raceReturn 0) (keyFilter raceReturn)]) := by
  have hfirst : nextDistance realMath
      (({ Type_ := "Point", Coordinates := [90, 0] } : Location ℝ), 0, true) raceFirst =
      some (6371 * 2 * (Real.pi / 4)) := by
    rw [nextDistance_pairs realMath { Type_ := "Point", Coordinates := [90, 0] } 0 raceFirst rfl
      rfl]
    simp [raceFirst, GreatCircleDistance_quarter_west]
  have hsecond : nextDistance realMath
      (({ Type_ := "Point", Coordinates := [90, 0] } : Location ℝ), 0, true) raceReturn =
      some 0 := by
    rw [nextDistance_pairs realMath { Type_ := "Point", Coordinates := [90, 0] } 0 raceReturn rfl
      rfl]
    simp [raceReturn, GreatCircleDistance_self]
  rw [runSchedule_readsBeforeWrites realMath raceFirst raceReturn _ _ _ _ rfl
    findCurrent_raceHistory hfirst hsecond,
    SaveOrReplaceDocument_withHistory _ _ _ _
      (by simp [raceHistory, keyFilter, Filter.matches, raceFirst]),
    SaveOrReplaceDocument_withHistory _ _ _ _
      (by simp [raceHistory, keyFilter, Filter.matches, raceFirst, raceReturn, storedRecord])]
  simp [raceFirst, raceReturn]

/-- The history after two reports of `user9` have been submitted one after the other on
the history `raceHistory`, the second report half the equator from the first. -/
theorem submitAll_raceHistory (first second : pb.LocationInfo ℝ)
    (hfirstUser : first.Username = "user9") (hsecondUser : second.Username = "user9")
    (hfirstTime : 1000 < first.Timestamp) (htime : first.Timestamp ≠ second.Timestamp)
    (hsecondTime : 1000 < second.Timestamp)
    (hfirst : GreatCircleDistance realMath [90, 0] first.Location.Coordinates =
      6371 * 2 * (Real.pi / 4))
    (hsecond : GreatCircleDistance realMath first.Location.Coordinates
      second.Location.Coordinates = 6371 * 2 * (Real.pi / 2))
    (hfirstPair : first.Location.Coordinates.length = 2)
    (hsecondPair : second.Location.Coordinates.length = 2) :
    submitAll realMath mongoClient [first, second] (withHistory emptyDatabase raceHistory) =
      (.ok (),
        withHistory emptyDatabase
          (raceHistory ++ [storedRecord first (6371 * 2 * (Real.pi / 4)),
            storedRecord second (6371 * 2 * (Real.pi / 2) + 6371 * 2 * (Real.pi / 4))])) := by
  have hstep1 : UpdateUserLocation realMath mongoClient first
      (withHistory emptyDatabase raceHistory) =
      (.ok (), withHistory emptyDatabase
        (raceHistory ++ [storedRecord first (6371 * 2 * (Real.pi / 4))])) := by
    rw [UpdateUserLocation_after realMath first (withHistory emptyDatabase raceHistory)
      { Username := "user9", Location := { Type_ := "Point", Coordinates := [90, 0] },
        Distance := 0, Timestamp := 1000 }
      (by simp [withHistory, raceHistory]) hfirstUser.symm
      (by
        intro y hy _ hne
        simp only [withHistory, if_true, raceHistory, List.mem_singleton] at hy
        exact absurd hy hne) rfl hfirstPair,
      SaveOrReplaceDocument_withHistory _ _ _ _ (by
        intro d hd
        simp only [raceHistory, List.mem_singleton] at hd
        subst hd
        simp only [keyFilter, Filter.matches, Bool.and_eq_false_iff, decide_eq_false_iff_not]
        right
        omega)]
    simp only [hfirst, add_zero]
  have hstep2 : UpdateUserLocation realMath mongoClient second
      (withHistory emptyDatabase
        (raceHistory ++ [storedRecord first (6371 * 2 * (Real.pi / 4))])) =
      (.ok (), withHistory emptyDatabase
        (raceHistory ++ [storedRecord first (6371 * 2 * (Real.pi / 4))] ++
          [storedRecord second (6371 * 2 * (Real.pi / 2) + 6371 * 2 * (Real.pi / 4))])) := by
    rw [UpdateUserLocation_after realMath second _
      (storedRecord first (6371 * 2 * (Real.pi / 4)))
      (by simp [withHistory]) (by rw [hsecondUser]; exact hfirstUser)
      (by
        intro y hy _ hne
        simp only [withHistory, if_true, raceHistory, List.mem_append, List.mem_singleton,
          List.mem_cons, List.not_mem_nil, or_false] at hy
        rcases hy with hy | hy
        · subst hy
          exact hfirstTime
        · exact absurd hy hne) hfirstPair hsecondPair,
      SaveOrReplaceDocument_withHistory _ _ _ _ (by
        intro d hd
        simp only [raceHistory, List.mem_append, List.mem_singleton, List.mem_cons,
          List.not_mem_nil, or_false] at hd
        simp only [keyFilter, Filter.matches, Bool.and_eq_false_iff, decide_eq_false_iff_not]
        right
        rcases hd with hd | hd
        · subst hd
          show ¬ (1000 : Int) = second.Timestamp
          omega
        · subst hd
          exact htime)]
    simp only [storedRecord, hsecond]
  simp only [submitAll, hstep1, hstep2, List.append_assoc, List.singleton_append]

/-- C26: concurrent calls of `UpdateUserLocation` for one user are not serialized. With a
point of `user9` at longitude 90 in the history and calls for the longitudes 0 and 180, at
seconds 2 and 3, there is a schedule in which both calls make their lookup before either
writes: both read the same baseline, both writes land, and each record is stored with the
distance of that baseline plus its own hop, a quarter of the equator. Run one after the
other, in either order, the later call stores the quarter plus the half of the equator
between the two reports, so that the history of the schedule is that of neither order and
omits an increment. With a second call back to longitude 90 the history of the schedule is
not monotone: the later point carries the smaller distance. -/
theorem UpdateUserLocation_concurrent_calls :
    raceFirst.Username = raceSecond.Username ∧ raceFirst.Timestamp ≠ raceSecond.Timestamp ∧
      runSchedule realMath (recordCalls mongoClient) readsBeforeWrites
          (.start raceFirst, .start raceSecond) (withHistory emptyDatabase raceHistory, []) =
        ((.finished (.ok ()), .finished (.ok ())),
          withHistory emptyDatabase
            (raceHistory ++ [storedRecord raceFirst (6371 * 2 * (Real.pi / 4)),
              storedRecord raceSecond (6371 * 2 * (Real.pi / 4))]),
          [currentQuery "user9", currentQuery "user9",
            StoreCall.SaveOrReplaceDocument locationHistoryCollection
              (storedRecord raceFirst (6371 * 2 * (Real.pi / 4))) (keyFilter raceFirst),
            StoreCall.SaveOrReplaceDocument locationHistoryCollection
              (storedRecord raceSecond (6371 * 2 * (Real.pi / 4))) (keyFilter raceSecond)]) ∧
      submitAll realMath mongoClient [raceFirst, raceSecond]
          (withHistory emptyDatabase raceHistory) =
        (.ok (),
          withHistory emptyDatabase
            (raceHistory ++ [storedRecord raceFirst (6371 * 2 * (Real.pi / 4)),
              storedRecord raceSecond
                (6371 * 2 * (Real.pi / 2) + 6371 * 2 * (Real.pi / 4))])) ∧
      submitAll realMath mongoClient [raceSecond, raceFirst]
          (withHistory emptyDatabase raceHistory) =
        (.ok (),
          withHistory emptyDatabase
            (raceHistory ++ [storedRecord raceSecond (6371 * 2 * (Real.pi / 4)),
              storedRecord raceFirst
                (6371 * 2 * (Real.pi / 2) + 6371 * 2 * (Real.pi / 4))])) ∧
      ¬ (raceHistory ++ [storedRecord raceFirst (6371 * 2 * (Real.pi / 4)),
            storedRecord raceSecond (6371 * 2 * (Real.pi / 4))]).Perm
          (raceHistory ++ [storedRecord raceFirst (6371 * 2 * (Real.pi / 4)),
            storedRecord raceSecond
              (6371 * 2 * (Real.pi / 2) + 6371 * 2 * (Real.pi / 4))]) ∧
      ¬ (raceHistory ++ [storedRecord raceFirst (6371 * 2 * (Real.pi / 4)),
            storedRecord raceSecond (6371 * 2 * (Real.pi / 4))]).Perm
          (raceHistory ++ [storedRecord raceSecond (6371 * 2 * (Real.pi / 4)),
            storedRecord raceFirst
              (6371 * 2 * (Real.pi / 2) + 6371 * 2 * (Real.pi / 4))]) ∧
      runSchedule realMath (recordCalls mongoClient) readsBeforeWrites
          (.start raceFirst, .start raceReturn) (withHistory emptyDatabase raceHistory, []) =
        ((.finished (.ok ()), .finished (.ok ())),
          withHistory emptyDatabase
            (raceHistory ++ [storedRecord raceFirst (6371 * 2 * (Real.pi / 4)),
              storedRecord raceReturn 0]),
          [currentQuery "user9", currentQuery "user9",
            StoreCall.SaveOrReplaceDocument locationHistoryCollection
              (storedRecord raceFirst (6371 * 2 * (Real.pi / 4))) (keyFilter raceFirst),
            StoreCall.SaveOrReplaceDocument locationHistoryCollection
              (storedRecord raceReturn 0) (keyFilter raceReturn)]) ∧
      (storedRecord raceFirst (6371 * 2 * (Real.pi / 4))).Timestamp <
        (storedRecord raceReturn (0 : ℝ)).Timestamp ∧
      (storedRecord raceReturn (0 : ℝ)).Distance <
        (storedRecord raceFirst (6371 * 2 * (Real.pi / 4))).Distance := by
  have hpi := Real.pi_pos
  refine ⟨rfl, by simp [raceFirst, raceSecond], runSchedule_raceSecond, ?_, ?_, ?_, ?_,
    runSchedule_raceReturn, by simp [storedRecord, raceFirst, raceReturn], ?_⟩
  · exact submitAll_raceHistory raceFirst raceSecond rfl rfl (by simp [raceFirst])
      (by simp [raceFirst, raceSecond]) (by simp [raceSecond])
      GreatCircleDistance_quarter_west GreatCircleDistance_half_equator rfl rfl
  · exact submitAll_raceHistory raceSecond raceFirst rfl rfl (by simp [raceSecond])
      (by simp [raceFirst, raceSecond]) (by simp [raceFirst])
      GreatCircleDistance_quarter_east GreatCircleDistance_half_equator_back rfl rfl
  · intro hperm
    have hmem : storedRecord raceSecond
        (6371 * 2 * (Real.pi / 2) + 6371 * 2 * (Real.pi / 4)) ∈
        raceHistory ++ [storedRecord raceFirst (6371 * 2 * (Real.pi / 4)),
          storedRecord raceSecond (6371 * 2 * (Real.pi / 4))] :=
      hperm.mem_iff.2 (by simp)
    simp [raceHistory, storedRecord, raceFirst, raceSecond] at hmem
    linarith
  · intro hperm
    have hmem : storedRecord raceFirst
        (6371 * 2 * (Real.pi / 2) + 6371 * 2 * (Real.pi / 4)) ∈
        raceHistory ++ [storedRecord raceFirst (6371 * 2 * (Real.pi / 4)),
          storedRecord raceSecond (6371 * 2 * (Real.pi / 4))] :=
      hperm.mem_iff.2 (by simp)
    simp [raceHistory, storedRecord, raceFirst, raceSecond] at hmem
    linarith
  · simp only [storedRecord]
    positivity

end RaceExamples

section ReachLemmas

variable {F : Type} [LinearOrderedField F]

/-- What `calculateDistance` returns, by the number of coordinates of its arguments: `0`
for a start without coordinates, the great-circle distance plus the current distance
when both have at least two, and the index panic otherwise. -/
theorem calculateDistance_shape (math : Math F) (start end_ : Location F)
    (currentDistance : F) :
    (start.Coordinates = [] → calculateDistance math start end_ currentDistance = some 0) ∧
      (2 ≤ start.Coordinates.length → 2 ≤ end_.Coordinates.length →
        calculateDistance math start end_ currentDistance =
          some (GreatCircleDistance math start.Coordinates end_.Coordinates +
            currentDistance)) ∧
      (start.Coordinates ≠ [] →
        start.Coordinates.length < 2 ∨ end_.Coordinates.length < 2 →
        calculateDistance math start end_ currentDistance = none) := by
  obtain ⟨startType, startCoordinates⟩ := start
  obtain ⟨endType, endCoordinates⟩ := end_
  refine ⟨?_, ?_, ?_⟩
  · intro h
    simp only at h
    simp [calculateDistance, h]
  · intro hs he
    match startCoordinates, endCoordinates, hs, he with
    | s0 :: s1 :: srest, e0 :: e1 :: erest, _, _ =>
      simp [calculateDistance, GreatCircleDistance, degreesToRadians]
  · intro hne hshort
    match startCoordinates, endCoordinates, hne, hshort with
    | [], _, hne, _ => exact absurd rfl hne
    | [s0], _, _, _ => simp [calculateDistance]
    | s0 :: s1 :: srest, [], _, _ => simp [calculateDistance]
    | s0 :: s1 :: srest, [e0], _, _ => simp [calculateDistance]
    | s0 :: s1 :: srest, e0 :: e1 :: erest, _, hshort =>
      exfalso
      simp only [List.length_cons] at hshort
      omega

theorem mem_ReplaceOne (filter : Filter) (document : LocationInfo F) (upsert : Bool) :
    ∀ (docs : List (LocationInfo F)) (x : LocationInfo F),
      x ∈ Collection.ReplaceOne docs filter document upsert → x = document ∨ x ∈ docs := by
  have hreplace : ∀ (docs replaced : List (LocationInfo F)) (x : LocationInfo F),
      replaceFirst filter document docs = some replaced → x ∈ replaced →
        x = document ∨ x ∈ docs := by
    intro docs
    induction docs with
    | nil =>
      intro replaced x h
      simp [replaceFirst] at h
    | cons d rest ih =>
      intro replaced x h hx
      by_cases hd : filter.matches d = true
      · simp only [replaceFirst, hd, if_true, Option.some.injEq] at h
        subst h
        rcases List.mem_cons.1 hx with hx | hx
        · exact Or.inl hx
        · exact Or.inr (List.mem_cons_of_mem _ hx)
      · simp only [Bool.not_eq_true] at hd
        simp only [replaceFirst, hd, Bool.false_eq_true, if_false, Option.map_eq_some'] at h
        obtain ⟨replacedRest, hrest, hreplaced⟩ := h
        subst hreplaced
        rcases List.mem_cons.1 hx with hx | hx
        · exact Or.inr (by rw [hx]; exact List.mem_cons_self _ _)
        · rcases ih replacedRest x hrest hx with h | h
          · exact Or.inl h
          · exact Or.inr (List.mem_cons_of_mem _ h)
  intro docs x hx
  unfold Collection.ReplaceOne at hx
  cases hfirst : replaceFirst filter document docs with
  | some replaced =>
    rw [hfirst] at hx
    exact hreplace docs replaced x hfirst hx
  | none =>
    rw [hfirst] at hx
    cases upsert with
    | true =>
      simp only [if_true, List.mem_append, List.mem_singleton] at hx
      rcases hx with hx | hx
      · exact Or.inr hx
      · exact Or.inl hx
    | false =>
      simp only [Bool.false_eq_true, if_false] at hx
      exact Or.inr hx

/-- A distance computed for a report without coordinates is `0`. -/
theorem nextDistance_without_coordinates (math : Math F) (current : Location F × F × Bool)
    (report : pb.LocationInfo F) (distance : F)
    (hreport : report.Location.Coordinates = [])
    (hdistance : nextDistance math current report = some distance) : distance = 0 := by
  obtain ⟨location, currentDistance, ok⟩ := current
  cases ok with
  | false =>
    simp only [nextDistance, Bool.not_false, if_true, Option.some.injEq] at hdistance
    exact hdistance.symm
  | true =>
    simp only [nextDistance, Bool.not_true, Bool.false_eq_true, if_false] at hdistance
    obtain ⟨hempty, _, hshort⟩ := calculateDistance_shape math location
      { Type_ := report.Location.Type_, Coordinates := report.Location.Coordinates }
      currentDistance
    by_cases hlocation : location.Coordinates = []
    · rw [hempty hlocation] at hdistance
      exact (Option.some.inj hdistance).symm
    · rw [hshort hlocation (Or.inr (by simp [hreport]))] at hdistance
      cases hdistance

/-- A call of `UpdateUserLocation` on the document store keeps the distance `0` on every
point without coordinates. -/
theorem UpdateUserLocation_zero_without_coordinates (math : Math F) (in_ : pb.LocationInfo F)
    (db : Database F) (hdb : ZeroWithoutCoordinates (db locationHistoryCollection)) :
    ZeroWithoutCoordinates
      ((UpdateUserLocation math mongoClient in_ db).2 locationHistoryCollection) := by
  rcases UpdateUserLocation_mongoClient math in_ db with
    ⟨_, hrun, _⟩ | ⟨distance, hdistance, hrun, _⟩
  · rw [hrun]
    exact hdb
  · rw [hrun]
    intro p hp hcoordinates
    simp only [MongoClient.SaveOrReplaceDocument, if_true] at hp
    rcases mem_ReplaceOne _ _ _ _ p hp with hp | hp
    · subst hp
      exact nextDistance_without_coordinates math _ in_ distance hcoordinates hdistance
    · exact hdb p hp hcoordinates

theorem afterCalls_zero_without_coordinates (math : Math F) :
    ∀ (reports : List (pb.LocationInfo F)) (db : Database F),
      ZeroWithoutCoordinates (db locationHistoryCollection) →
      ZeroWithoutCoordinates
        (afterCalls math mongoClient reports db locationHistoryCollection)
  | [], _, h => h
  | report :: later, db, h =>
    afterCalls_zero_without_coordinates math later _
      (UpdateUserLocation_zero_without_coordinates math report db h)

/-- On the document store, a call of `UpdateUserLocation` for a user with a prior point, on
a history in which the points without coordinates carry the distance `0`: the record is
written with the distance of the latest point plus the great-circle distance from it when
that point has no coordinates or both have at least two, and the call ends in the index
panic otherwise. -/
theorem UpdateUserLocation_with_prior (math : Math F) (in_ : pb.LocationInfo F)
    (db : Database F) (hdb : ZeroWithoutCoordinates (db locationHistoryCollection))
    (hprior : ∃ p ∈ db locationHistoryCollection, p.Username = in_.Username) :
    ∃ prior, IsLatest (db locationHistoryCollection) in_.Username prior ∧
      (prior.Location.Coordinates = [] →
        prior.Distance = 0 ∧
          GreatCircleDistance math prior.Location.Coordinates in_.Location.Coordinates = 0) ∧
      (((prior.Location.Coordinates = [] ∨
            (2 ≤ prior.Location.Coordinates.length ∧ 2 ≤ in_.Location.Coordinates.length)) ∧
          UpdateUserLocation math mongoClient in_ db =
            (.ok (), (MongoClient.SaveOrReplaceDocument locationHistoryCollection
              (storedRecord in_ (prior.Distance +
                GreatCircleDistance math prior.Location.Coordinates
                  in_.Location.Coordinates))
              (keyFilter in_) db).2)) ∨
        ((prior.Location.Coordinates ≠ [] ∧
            (prior.Location.Coordinates.length < 2 ∨ in_.Location.Coordinates.length < 2)) ∧
          UpdateUserLocation math mongoClient in_ db =
            (.error (Fault.panic "index out of range"), db))) := by
  rcases headCurrent_latest in_.Username (db locationHistoryCollection) with
    ⟨prior, hlatest, hhead⟩ | ⟨hnone, _⟩
  swap
  · obtain ⟨p, hp, hu⟩ := hprior
    exact absurd hu (hnone p hp)
  have hzero : prior.Location.Coordinates = [] →
      prior.Distance = 0 ∧
        GreatCircleDistance math prior.Location.Coordinates in_.Location.Coordinates = 0 := by
    intro hempty
    refine ⟨hdb prior hlatest.1 hempty, ?_⟩
    rw [hempty]
    simp [GreatCircleDistance]
  refine ⟨prior, hlatest, hzero, ?_⟩
  obtain ⟨hempty, hpairs, hshort⟩ := calculateDistance_shape math prior.Location
    { Type_ := in_.Location.Type_, Coordinates := in_.Location.Coordinates } prior.Distance
  have hnext : nextDistance math (prior.Location, prior.Distance, true) in_ =
      calculateDistance math prior.Location
        { Type_ := in_.Location.Type_, Coordinates := in_.Location.Coordinates }
        prior.Distance := by
    simp [nextDistance]
  by_cases hshape : prior.Location.Coordinates = [] ∨
      (2 ≤ prior.Location.Coordinates.length ∧ 2 ≤ in_.Location.Coordinates.length)
  · left
    refine ⟨hshape, ?_⟩
    have hdistance : nextDistance math (prior.Location, prior.Distance, true) in_ =
        some (prior.Distance +
          GreatCircleDistance math prior.Location.Coordinates in_.Location.Coordinates) := by
      rw [hnext]
      rcases hshape with h | ⟨h1, h2⟩
      · rw [hempty h, (hzero h).1, (hzero h).2, add_zero]
      · rw [hpairs h1 h2, add_comm]
    rcases UpdateUserLocation_mongoClient math in_ db with ⟨hnone, _⟩ |
      ⟨distance, hd, hrun, _⟩
    · rw [hhead, hdistance] at hnone
      cases hnone
    · rw [hhead, hdistance] at hd
      cases hd
      exact hrun
  · right
    have hne : prior.Location.Coordinates ≠ [] := fun h => hshape (Or.inl h)
    have hlengths : prior.Location.Coordinates.length < 2 ∨
        in_.Location.Coordinates.length < 2 := by
      by_contra hnot
      exact hshape (Or.inr ⟨by omega, by omega⟩)
    refine ⟨⟨hne, hlengths⟩, ?_⟩
    have hdistance : nextDistance math (prior.Location, prior.Distance, true) in_ = none := by
      rw [hnext]
      exact hshort hne hlengths
    rcases UpdateUserLocation_mongoClient math in_ db with ⟨_, hrun, _⟩ |
      ⟨distance, hd, _, _⟩
    · exact hrun
    · rw [hhead, hdistance] at hd
      cases hd

/-- C8: on every history the service produces, that is, after any calls of
`UpdateUserLocation` on the document store from a history in which the points without
coordinates carry the distance `0` (the empty history is one), for every call for a user
with a prior point: the latest point of the user is the prior; when it has no coordinates,
the great-circle distance from it is `0` and so is its own distance; whenever the prior has
no coordinates or the prior and the report both have at least two, the call succeeds and
stores the new record with the distance of the prior plus the great-circle distance from
the prior to the report; only for a prior with exactly one coordinate, or a report with
fewer than two after a prior with coordinates, does the call end in the index panic and
store nothing. -/
theorem UpdateUserLocation_prior_distance (math : Math F)
    (reports : List (pb.LocationInfo F)) (in_ : pb.LocationInfo F) (db0 : Database F)
    (hstart : ZeroWithoutCoordinates (db0 locationHistoryCollection))
    (hprior : ∃ p ∈ afterCalls math mongoClient reports db0 locationHistoryCollection,
      p.Username = in_.Username) :
    ∃ prior,
      IsLatest (afterCalls math mongoClient reports db0 locationHistoryCollection)
        in_.Username prior ∧
      (prior.Location.Coordinates = [] →
        prior.Distance = 0 ∧
          GreatCircleDistance math prior.Location.Coordinates in_.Location.Coordinates = 0) ∧
      (prior.Location.Coordinates = [] ∨
          (2 ≤ prior.Location.Coordinates.length ∧ 2 ≤ in_.Location.Coordinates.length) →
        UpdateUserLocation math mongoClient in_ (afterCalls math mongoClient reports db0) =
          (.ok (), (MongoClient.SaveOrReplaceDocument locationHistoryCollection
            (storedRecord in_ (prior.Distance +
              GreatCircleDistance math prior.Location.Coordinates in_.Location.Coordinates))
            (keyFilter in_) (afterCalls math mongoClient reports db0)).2)) ∧
      (prior.Location.Coordinates ≠ [] ∧
          (prior.Location.Coordinates.length < 2 ∨ in_.Location.Coordinates.length < 2) →
        UpdateUserLocation math mongoClient in_ (afterCalls math mongoClient reports db0) =
          (.error (Fault.panic "index out of range"),
            afterCalls math mongoClient reports db0)) := by
  obtain ⟨prior, hlatest, hzero, hrun⟩ :=
    UpdateUserLocation_with_prior math in_ (afterCalls math mongoClient reports db0)
      (afterCalls_zero_without_coordinates math reports db0 hstart) hprior
  refine ⟨prior, hlatest, hzero, ?_, ?_⟩
  · intro hshape
    rcases hrun with ⟨_, hok⟩ | ⟨⟨hne, hshort⟩, _⟩
    · exact hok
    · exfalso
      rcases hshape with h | ⟨h1, h2⟩
      · exact hne h
      · omega
  · rintro ⟨hne, hshort⟩
    rcases hrun with ⟨hshape, _⟩ | ⟨_, hpanic⟩
    · exfalso
      rcases hshape with h | ⟨h1, h2⟩
      · exact hne h
      · omega
    · exact hpanic

/-- The history after the report of `user5` without coordinates on the empty history: the
record of the report, with distance `0`. -/
theorem afterCalls_coordinatelessReport :
    afterCalls realMath mongoClient [coordinatelessReport] emptyDatabase =
      appendHistory emptyDatabase [storedRecord coordinatelessReport 0] := by
  simp only [afterCalls]
  rw [UpdateUserLocation_first_point_aux realMath coordinatelessReport emptyDatabase
    (by simp [emptyDatabase])]

/-- C8, at an instance: the report of `user5` from Belgrade after a report of `user5`
without coordinates on the empty history. -/
theorem UpdateUserLocation_prior_distance_witness :
    ∃ prior,
      IsLatest (afterCalls realMath mongoClient [coordinatelessReport] emptyDatabase
          locationHistoryCollection) belgradeReport.Username prior ∧
      (prior.Location.Coordinates = [] →
        prior.Distance = 0 ∧
          GreatCircleDistance realMath prior.Location.Coordinates
            belgradeReport.Location.Coordinates = 0) ∧
      (prior.Location.Coordinates = [] ∨
          (2 ≤ prior.Location.Coordinates.length ∧
            2 ≤ belgradeReport.Location.Coordinates.length) →
        UpdateUserLocation realMath mongoClient belgradeReport
            (afterCalls realMath mongoClient [coordinatelessReport] emptyDatabase) =
          (.ok (), (MongoClient.SaveOrReplaceDocument locationHistoryCollection
            (storedRecord belgradeReport (prior.Distance +
              GreatCircleDistance realMath prior.Location.Coordinates
                belgradeReport.Location.Coordinates))
            (keyFilter belgradeReport)
            (afterCalls realMath mongoClient [coordinatelessReport] emptyDatabase)).2)) ∧
      (prior.Location.Coordinates ≠ [] ∧
          (prior.Location.Coordinates.length < 2 ∨
            belgradeReport.Location.Coordinates.length < 2) →
        UpdateUserLocation realMath mongoClient belgradeReport
            (afterCalls realMath mongoClient [coordinatelessReport] emptyDatabase) =
          (.error (Fault.panic "index out of range"),
            afterCalls realMath mongoClient [coordinatelessReport] emptyDatabase)) :=
  UpdateUserLocation_prior_distance realMath [coordinatelessReport] belgradeReport
    emptyDatabase (by simp [ZeroWithoutCoordinates, emptyDatabase])
    (by
      rw [afterCalls_coordinatelessReport]
      exact ⟨storedRecord coordinatelessReport 0, by simp [appendHistory, emptyDatabase], rfl⟩)

/-- The record stored at the instance: the report from Belgrade with the distance `0` of
the prior point without coordinates plus `0`. -/
theorem UpdateUserLocation_after_coordinateless_example :
    UpdateUserLocation realMath mongoClient belgradeReport
        (afterCalls realMath mongoClient [coordinatelessReport] emptyDatabase) =
      (.ok (), appendHistory
        (appendHistory emptyDatabase [storedRecord coordinatelessReport 0])
        [storedRecord belgradeReport 0]) ∧
      (storedRecord coordinatelessReport (0 : ℝ)).Distance +
        GreatCircleDistance realMath coordinatelessReport.Location.Coordinates
          belgradeReport.Location.Coordinates = 0 := by
  rw [afterCalls_coordinatelessReport]
  constructor
  · have hcurrent := findCurrent_latest "user5"
      (appendHistory emptyDatabase [storedRecord coordinatelessReport 0])
      (storedRecord coordinatelessReport 0)
      (by simp [appendHistory, emptyDatabase]) rfl
      (by
        intro y hy _ hne
        simp only [appendHistory, emptyDatabase, if_true, List.nil_append,
          List.mem_singleton] at hy
        exact absurd hy hne)
    exact UpdateUserLocation_append realMath belgradeReport _ _ 0 hcurrent
      (by simp [calculateDistance, storedRecord, coordinatelessReport])
      (by simp [appendHistory, emptyDatabase, storedRecord, coordinatelessReport,
        belgradeReport])
  · simp [storedRecord, coordinatelessReport, GreatCircleDistance]

end ReachLemmas

section PatternLemmas

variable {σ τ F : Type} [LinearOrderedField F]

/-- A text matched by a pattern holds no character that the pattern does not name. -/
theorem rmatch_not_mem (c : Char) :
    ∀ (r : RegularExpression Char), mentions c r = false →
      ∀ x : List Char, r.rmatch x = true → c ∉ x
  | .zero, _, x, hx => by
    have h := RegularExpression.zero_rmatch x
    rw [← RegularExpression.zero_def] at h
    rw [h] at hx
    exact absurd hx (by decide)
  | .epsilon, _, x, hx => by
    have h := (RegularExpression.one_rmatch_iff x).1 hx
    rw [h]
    exact List.not_mem_nil c
  | .char a, hr, x, hx => by
    have h := (RegularExpression.char_rmatch_iff a x).1 hx
    have hne : a ≠ c := by simpa [mentions] using hr
    rw [h]
    intro hmem
    exact hne (List.mem_singleton.1 hmem).symm
  | .plus p q, hr, x, hx => by
    have hpq : mentions c p = false ∧ mentions c q = false := by
      simpa [mentions] using hr
    rcases (RegularExpression.add_rmatch_iff p q x).1 hx with h | h
    · exact rmatch_not_mem c p hpq.1 x h
    · exact rmatch_not_mem c q hpq.2 x h
  | .comp p q, hr, x, hx => by
    have hpq : mentions c p = false ∧ mentions c q = false := by
      simpa [mentions] using hr
    obtain ⟨t, u, hxtu, ht, hu⟩ := (RegularExpression.mul_rmatch_iff p q x).1 hx
    rw [hxtu]
    intro hmem
    rcases List.mem_append.1 hmem with h | h
    · exact rmatch_not_mem c p hpq.1 t ht h
    · exact rmatch_not_mem c q hpq.2 u hu h
  | .star p, hr, x, hx => by
    have hp : mentions c p = false := by simpa [mentions] using hr
    obtain ⟨S, hxS, hS⟩ := (RegularExpression.star_rmatch_iff p x).1 hx
    rw [hxS]
    intro hmem
    obtain ⟨t, ht, hct⟩ := List.mem_flatten.1 hmem
    exact rmatch_not_mem c p hp t (hS t ht).2 hct

/-- A value that the pattern `customcoordinates` accepts has exactly one comma. -/
theorem customcoordinates_one_comma (value : String) (hvalue : customcoordinates value = true) :
    ∃ first second : List Char,
      value = String.mk (first ++ ',' :: second) ∧ ',' ∉ first ∧ ',' ∉ second := by
  unfold customcoordinates customcoordinatesPattern at hvalue
  obtain ⟨t, second, hdata, ht, hsecond⟩ := (RegularExpression.mul_rmatch_iff _ _ _).1 hvalue
  obtain ⟨first, comma, ht2, hfirst, hcomma⟩ := (RegularExpression.mul_rmatch_iff _ _ _).1 ht
  have hc := (RegularExpression.char_rmatch_iff _ _).1 hcomma
  refine ⟨first, second, ?_, ?_, ?_⟩
  · have hdata2 : value.data = first ++ ',' :: second := by
      rw [hdata, ht2, hc]
      simp
    rw [← hdata2]
  · exact rmatch_not_mem ',' _ (by decide) first hfirst
  · exact rmatch_not_mem ',' _ (by decide) second hsecond

/-- The pattern `customcoordinates` on the texts of this development: it accepts the
coordinates of Belgrade, with or without spaces, and a latitude out of range, and refuses
a single number and three numbers. -/
theorem customcoordinates_examples :
    customcoordinates "44.8154844,20.2576593" = true ∧
      customcoordinates "44.8154844, 20.2576593" = true ∧
      customcoordinates "91,20.2576593" = true ∧
      customcoordinates "90" = false ∧
      customcoordinates "44.8154844,20.2576593,90" = false := by
  decide

/-- The function `extractCoordinates` on a text with one comma whose first piece does not
parse. -/
theorem extractCoordinates_first_error (parseFloat : String → Except Error F)
    (first second : List Char) (err : Error) (hfirst : ',' ∉ first) (hsecond : ',' ∉ second)
    (hx : parseFloat (removeSpaces (String.mk first)) = .error err) :
    extractCoordinates parseFloat (String.mk (first ++ ',' :: second)) =
      .error (Fault.error err) := by
  simp [extractCoordinates, splitCommas_removeSpaces first second hfirst hsecond,
    parseCoordinates, hx]

/-- The function `extractCoordinates` on a text with one comma whose second piece does not
parse. -/
theorem extractCoordinates_second_error (parseFloat : String → Except Error F)
    (first second : List Char) (x : F) (err : Error) (hfirst : ',' ∉ first)
    (hsecond : ',' ∉ second) (hx : parseFloat (removeSpaces (String.mk first)) = .ok x)
    (hy : parseFloat (removeSpaces (String.mk second)) = .error err) :
    extractCoordinates parseFloat (String.mk (first ++ ',' :: second)) =
      .error (Fault.error err) := by
  simp [extractCoordinates, splitCommas_removeSpaces first second hfirst hsecond,
    parseCoordinates, hx, hy]

/-- The outcomes of `extractCoordinates` on a text with one comma: an error, or two
numbers. -/
theorem extractCoordinates_one_comma_aux (parseFloat : String → Except Error F)
    (first second : List Char) (hfirst : ',' ∉ first) (hsecond : ',' ∉ second) :
    (∃ err, extractCoordinates parseFloat (String.mk (first ++ ',' :: second)) =
        .error (Fault.error err)) ∨
      ∃ longitude latitude,
        extractCoordinates parseFloat (String.mk (first ++ ',' :: second)) =
          .ok [longitude, latitude] := by
  rcases hx : parseFloat (removeSpaces (String.mk first)) with err | x
  · exact Or.inl ⟨err, extractCoordinates_first_error parseFloat first second err hfirst
      hsecond hx⟩
  rcases hy : parseFloat (removeSpaces (String.mk second)) with err | y
  · exact Or.inl ⟨err, extractCoordinates_second_error parseFloat first second x err hfirst
      hsecond hx hy⟩
  rw [extractCoordinates_two parseFloat first second x y hfirst hsecond hx hy]
  by_cases h1 : y < -180 ∨ y > 180
  · rw [if_pos h1]
    exact Or.inl ⟨_, rfl⟩
  rw [if_neg h1]
  by_cases h2 : x < -90 ∨ x > 90
  · rw [if_pos h2]
    exact Or.inl ⟨_, rfl⟩
  rw [if_neg h2]
  exact Or.inr ⟨y, x, rfl⟩

/-- C29, on the texts the handlers pass: for every input string with exactly one comma,
whatever its two pieces are and whether or not they parse, `extractCoordinates` either
returns an error or returns a sequence of exactly two numbers; it never reads an index out
of range and never returns a sequence of another length. -/
theorem extractCoordinates_one_comma (parseFloat : String → Except Error F)
    (first second : List Char) (hfirst : ',' ∉ first) (hsecond : ',' ∉ second) :
    ((∃ err, extractCoordinates parseFloat (String.mk (first ++ ',' :: second)) =
          .error (Fault.error err)) ∨
        ∃ longitude latitude,
          extractCoordinates parseFloat (String.mk (first ++ ',' :: second)) =
            .ok [longitude, latitude]) ∧
      (∀ msg, extractCoordinates parseFloat (String.mk (first ++ ',' :: second)) ≠
        .error (Fault.panic msg)) ∧
      ∀ coordinates,
        extractCoordinates parseFloat (String.mk (first ++ ',' :: second)) = .ok coordinates →
          coordinates.length = 2 := by
  have h := extractCoordinates_one_comma_aux parseFloat first second hfirst hsecond
  refine ⟨h, ?_, ?_⟩
  · intro msg hmsg
    rcases h with ⟨err, herr⟩ | ⟨longitude, latitude, hok⟩
    · rw [herr] at hmsg
      cases hmsg
    · rw [hok] at hmsg
      cases hmsg
  · intro coordinates hcoordinates
    rcases h with ⟨err, herr⟩ | ⟨longitude, latitude, hok⟩
    · rw [herr] at hcoordinates
      cases hcoordinates
    · rw [hok] at hcoordinates
      cases hcoordinates
      rfl

/-- C29, at an instance: the coordinates of Belgrade as the tests write them, with a
space after the comma. -/
theorem extractCoordinates_one_comma_witness :
    ((∃ err, extractCoordinates exampleParseFloat
          (String.mk ("44.8154844".data ++ ',' :: " 20.2576593".data)) =
          .error (Fault.error err)) ∨
        ∃ longitude latitude,
          extractCoordinates exampleParseFloat
            (String.mk ("44.8154844".data ++ ',' :: " 20.2576593".data)) =
            .ok [longitude, latitude]) ∧
      (∀ msg, extractCoordinates exampleParseFloat
          (String.mk ("44.8154844".data ++ ',' :: " 20.2576593".data)) ≠
        .error (Fault.panic msg)) ∧
      ∀ coordinates,
        extractCoordinates exampleParseFloat
            (String.mk ("44.8154844".data ++ ',' :: " 20.2576593".data)) = .ok coordinates →
          coordinates.length = 2 :=
  extractCoordinates_one_comma exampleParseFloat "44.8154844".data " 20.2576593".data
    (by decide) (by decide)

/-- The function `extractCoordinates` on a value that the pattern `customcoordinates`
accepts: an error or two numbers, and no read out of range. -/
theorem extractCoordinates_customcoordinates (parseFloat : String → Except Error F)
    (value : String) (hvalue : customcoordinates value = true) :
    ((∃ err, extractCoordinates parseFloat value = .error (Fault.error err)) ∨
        ∃ longitude latitude, extractCoordinates parseFloat value = .ok [longitude, latitude]) ∧
      ∀ msg, extractCoordinates parseFloat value ≠ .error (Fault.panic msg) := by
  obtain ⟨first, second, hdata, hfirst, hsecond⟩ := customcoordinates_one_comma value hvalue
  have h := extractCoordinates_one_comma_aux parseFloat first second hfirst hsecond
  rw [← hdata] at h
  refine ⟨h, ?_⟩
  intro msg hmsg
  rcases h with ⟨err, herr⟩ | ⟨longitude, latitude, hok⟩
  · rw [herr] at hmsg
    cases hmsg
  · rw [hok] at hmsg
    cases hmsg

/-- The handler `updateUserLocationHandler`, with a validation that lets through only the
coordinates the pattern `customcoordinates` accepts, never ends in a panic. -/
theorem updateUserLocationHandler_no_panic
    (jsonDecode : String → Except Error UpdateLocationRequest)
    (validateStruct : UpdateLocationRequest → Option Error)
    (parseFloat : String → Except Error F) (now : Int) (mongoClient : DBClient σ F)
    (locationHistoryManagementClient : GRPCClient τ F) (body : String) (st : σ) (remote : τ)
    (hvalidate : ∀ data, validateStruct data = none →
      customcoordinates data.Coordinates = true) (msg : String) :
    (updateUserLocationHandler jsonDecode validateStruct parseFloat now mongoClient
      locationHistoryManagementClient body st remote).1 ≠ .error (Fault.panic msg) := by
  unfold updateUserLocationHandler
  rcases hdecode : jsonDecode body with err | data
  · simp
  rcases hvalid : validateStruct data with _ | err
  · have h := extractCoordinates_customcoordinates parseFloat data.Coordinates
      (hvalidate data hvalid)
    rcases h.1 with ⟨err, herr⟩ | ⟨longitude, latitude, hok⟩
    · simp [herr, hvalid]
    · simp only [hok, hvalid]
      rcases hupdate : updateUserLocation now mongoClient locationHistoryManagementClient
        data.Username [longitude, latitude] st remote with ⟨_ | err, st2, remote2⟩ <;>
        simp [hupdate]
  · simp [hvalid]

/-- The handler `searchUserLocationHandler`, with a validation that lets through only the
coordinates the pattern `customcoordinates` accepts, never ends in a panic. -/
theorem searchUserLocationHandler_no_panic
    (jsonDecode : String → Except Error (SearchLocationRequest F))
    (validateStruct : SearchLocationRequest F → Option Error)
    (parseFloat : String → Except Error F)
    (searchUserLocation : List F → F → Int → Int → σ → Except Error (List String) × σ)
    (jsonEncode : List String → Option Error) (body : String) (st : σ)
    (hvalidate : ∀ data, validateStruct data = none →
      customcoordinates data.Coordinates = true) (msg : String) :
    (searchUserLocationHandler jsonDecode validateStruct parseFloat searchUserLocation
      jsonEncode body st).1 ≠ .error (Fault.panic msg) := by
  unfold searchUserLocationHandler
  rcases hdecode : jsonDecode body with err | data
  · simp
  rcases hvalid : validateStruct data with _ | err
  · have h := extractCoordinates_customcoordinates parseFloat data.Coordinates
      (hvalidate data hvalid)
    rcases h.1 with ⟨err, herr⟩ | ⟨longitude, latitude, hok⟩
    · simp [herr, hvalid]
    · simp only [hok, hvalid]
      rcases hsearch : searchUserLocation [longitude, latitude] data.Distance data.PageNumber
        data.PageSize st with ⟨err | usernames, st2⟩
      · simp [hsearch]
      · rcases hencode : jsonEncode usernames with _ | err <;> simp [hsearch, hencode]
  · simp [hvalid]

end PatternLemmas

end LocationTracking
